import Mathlib

/-!
# Verification development for the twitter-bot orchestration core

Shallow embedding of
* `src/controllers/response.controller.js` (reply limiter, `_processMention`,
  `handleDirectMessage`, `engageWithTrending`),
* `src/controllers/tweet.controller.js` (`generateScheduledTweet`, `postTweet`),
* `src/services/scheduler.service.js` (job registry, one-shot posts, cron
  expression of the tweet-generation job),
* `src/services/twitter.service.js` (`postTweet`, `getUserId`, `searchTweets`),
* `src/services/ai.service.js` (`generateTweet`, `generateReply`,
  `_shortenTweet`),
* `config/*.js` (`bot.tweetsPerDay`).

Conventions.  A JavaScript `Date` is its time value, an integer number of
milliseconds (`Int`).  Calls into external collaborators (platform client,
language-model client, database client, cron library) are not computed: their
outcome is read from an explicit `World` record, and every call that changes
the outside world is appended to an explicit trace of `Effect`s.  Calls to the
logger are diagnostics only and are left out.
-/

namespace TwitterBot

/-! ## Reply limiter (`ResponseController`) -/

/-- Mutable fields of `ResponseController` (constructor, lines 10-14).
`lastMentionId` is never read by the code modelled here. -/
structure ResponseController where
  replyCount : Nat
  lastReplyReset : Int
  deriving DecidableEq, Repr

/-- The constant `1000 * 60 * 60` of `_checkReplyRateLimit`: milliseconds per hour. -/
def msPerHour : Int := 1000 * 60 * 60

/-- `ResponseController._checkReplyRateLimit` (lines 182-193).
`now` is the value of `new Date()`, `maxRepliesPerHour` is
`config.bot.maxRepliesPerHour`.  The test `hoursSinceReset >= 1` with
`hoursSinceReset = (now - lastReplyReset) / (1000 * 60 * 60)` is the test
`now - lastReplyReset >= 1000 * 60 * 60` on integer time values.
Returns the boolean result and the controller after the call. -/
def _checkReplyRateLimit (self : ResponseController) (now : Int) (maxRepliesPerHour : Int) :
    Bool × ResponseController :=
  let self1 : ResponseController :=
    if msPerHour ≤ now - self.lastReplyReset then
      { replyCount := 0, lastReplyReset := now }
    else self
  (decide ((self1.replyCount : Int) < maxRepliesPerHour), self1)

/-! ## Scheduler (`SchedulerService`) -/

/-- A task object returned by `cron.schedule(expression, handler)`.  The handler
is identified by a number; `running` is cleared by `job.stop()`. -/
structure CronTask where
  expression : String
  handler : Nat
  running : Bool
  deriving DecidableEq, Repr

/-- Calls on the cron library that took effect, in program order (a
`cron.schedule` that throws creates nothing and is not listed). -/
inductive CronCall where
  | schedule (ref : Nat) (expression : String)
  | stop (ref : Nat)
  deriving DecidableEq, Repr

/-- A one-shot timer registered with `setTimeout(callback, delay)`; the callback
of `scheduleSpecificPost` posts `content`.  `delay` is `none` when the delay
argument is `NaN`. -/
structure Timer where
  content : String
  delay : Option Int
  deriving DecidableEq, Repr

/-- State of `SchedulerService`: `jobs` is the `Map` `this.jobs` as the list of
its entries in insertion order (name, reference to the task object); `tasks` is
the store of task objects ever created, a reference being an index into it;
`calls` records the cron-library calls; `timers` the pending one-shot timers. -/
structure SchedulerService where
  jobs : List (String × Nat)
  tasks : List CronTask
  calls : List CronCall
  timers : List Timer
  deriving DecidableEq, Repr

/-- `Map.prototype.get`. -/
def mapGet (m : List (String × Nat)) (name : String) : Option Nat :=
  match m with
  | [] => none
  | (k, v) :: rest => if k = name then some v else mapGet rest name

/-- `Map.prototype.has`. -/
def mapHas (m : List (String × Nat)) (name : String) : Bool :=
  (mapGet m name).isSome

/-- `Map.prototype.set`: an existing key keeps its position and gets the new
value, a new key is appended. -/
def mapSet (m : List (String × Nat)) (name : String) (v : Nat) : List (String × Nat) :=
  match m with
  | [] => [(name, v)]
  | (k, w) :: rest => if k = name then (k, v) :: rest else (k, w) :: mapSet rest name v

/-- `Map.prototype.delete`. -/
def mapDelete (m : List (String × Nat)) (name : String) : List (String × Nat) :=
  match m with
  | [] => []
  | (k, w) :: rest => if k = name then rest else (k, w) :: mapDelete rest name

/-- Effect of `job.stop()` on the task store: the task at `ref` stops running. -/
def stopTask (tasks : List CronTask) (ref : Nat) : List CronTask :=
  match tasks, ref with
  | [], _ => []
  | t :: ts, 0 => { t with running := false } :: ts
  | t :: ts, r + 1 => t :: stopTask ts r

/-- Whether the task at `ref` exists and is running. -/
def isRunning (tasks : List CronTask) (ref : Nat) : Bool :=
  match tasks[ref]? with
  | some t => t.running
  | none => false

/-- The call `job.stop()` on the job referenced by `ref`. -/
def jobStop (self : SchedulerService) (ref : Nat) : SchedulerService :=
  { self with tasks := stopTask self.tasks ref, calls := self.calls ++ [CronCall.stop ref] }

/-- The call `cron.schedule(expression, handler)`.  The library validates the
expression first and throws when it rejects it; `accepted` is that verdict
(node-cron is an external package, so its verdict is an input of the model).
An accepted call creates a new running task and returns the reference to it;
a rejected call throws and creates nothing. -/
def cronSchedule (self : SchedulerService) (expression : String) (handler : Nat)
    (accepted : Bool) : Except String Nat × SchedulerService :=
  if accepted then
    let ref := self.tasks.length
    (.ok ref, { self with
      tasks := self.tasks ++ [{ expression := expression, handler := handler, running := true }],
      calls := self.calls ++ [CronCall.schedule ref expression] })
  else
    (.error "cron.schedule: invalid expression", self)

/-- `SchedulerService.removeJob` (lines 145-152). -/
def removeJob (self : SchedulerService) (name : String) : SchedulerService :=
  match mapGet self.jobs name with
  | some job =>
    let self1 := jobStop self job
    { self1 with jobs := mapDelete self1.jobs name }
  | none => self

/-- `SchedulerService.addJob` (lines 134-143); `accepted` is the verdict of
`cron.schedule` on `cronExpression`.  The removal of an existing job happens
before `cron.schedule` is called, so it stays done when that call throws.
Returns how the call ends and the state afterwards. -/
def addJob (self : SchedulerService) (name : String) (cronExpression : String) (handler : Nat)
    (accepted : Bool) : Except String Unit × SchedulerService :=
  let self1 := if mapHas self.jobs name then removeJob self name else self
  match cronSchedule self1 cronExpression handler accepted with
  | (.error e, self2) => (.error e, self2)
  | (.ok job, self2) => (.ok (), { self2 with jobs := mapSet self2.jobs name job })

/-- The loop `this.jobs.forEach((job, name) => { job.stop(); ... })` of `stop`,
over the entries in insertion order. -/
def stopAll (self : SchedulerService) (entries : List (String × Nat)) : SchedulerService :=
  match entries with
  | [] => self
  | (_, job) :: rest => stopAll (jobStop self job) rest

/-- `SchedulerService.stop` (lines 31-41). -/
def stop (self : SchedulerService) : SchedulerService :=
  let self1 := stopAll self self.jobs
  { self1 with jobs := [] }

/-- `SchedulerService.scheduleSpecificPost` (lines 166-188).  `now` is the value
of `new Date()`; `scheduledDate` is the time value of `new Date(date)`, `none`
for an invalid date (`NaN`).  A comparison or subtraction with `NaN` is
`false` / `NaN`.  Returns the boolean result and the state after the call. -/
def scheduleSpecificPost (self : SchedulerService) (now : Int) (content : String)
    (scheduledDate : Option Int) : Bool × SchedulerService :=
  let isPast : Bool :=
    match scheduledDate with
    | some d => decide (d ≤ now)
    | none => false
  if isPast then
    (false, self)
  else
    let delay : Option Int := scheduledDate.map (fun d => d - now)
    (true, { self with timers := self.timers ++ [{ content := content, delay := delay }] })

/-! ## Configuration (`config/development.js`, `production.js`, `test.js`) -/

/-- `bot.tweetsPerDay = parseInt(process.env.TWEETS_PER_DAY) || 3`; `parsed` is
the result of `parseInt`, `none` for `NaN`.  `NaN` and `0` are falsy. -/
def tweetsPerDay (parsed : Option Int) : Int :=
  match parsed with
  | some n => if n = 0 then 3 else n
  | none => 3

/-- `bot.maxRepliesPerHour = parseInt(process.env.MAX_REPLIES_PER_HOUR) || 5`. -/
def maxRepliesPerHour (parsed : Option Int) : Int :=
  match parsed with
  | some n => if n = 0 then 5 else n
  | none => 5

/-! ## Built-in jobs -/

/-- `const hours = Math.floor(24 / tweetsPerDay)` (line 46) for a non-zero
integer `tweetsPerDay` (the only values `config.bot.tweetsPerDay` takes):
floor division. -/
def tweetGenerationHours (tweetsPerDay : Int) : Int :=
  Int.fdiv 24 tweetsPerDay

/-- The template literal of line 49, with `hours` substituted. -/
def tweetGenerationCron (tweetsPerDay : Int) : String :=
  "0 */" ++ toString (tweetGenerationHours tweetsPerDay) ++ " * * *"

/-- `SchedulerService._scheduleTweetGeneration` (lines 43-62); handler 0 is the
wrapper around `tweetController.generateScheduledTweet`.  `accepted` is the
verdict of `cron.schedule` on the expression built from `tweetsPerDay`; when
the call throws, line 60 (`jobs.set`) is not reached. -/
def _scheduleTweetGeneration (self : SchedulerService) (tweetsPerDay : Int)
    (accepted : Bool) : Except String Unit × SchedulerService :=
  match cronSchedule self (tweetGenerationCron tweetsPerDay) 0 accepted with
  | (.error e, self1) => (.error e, self1)
  | (.ok job, self1) => (.ok (), { self1 with jobs := mapSet self1.jobs "tweetGeneration" job })

/-- `SchedulerService._scheduleMentionChecking` (lines 64-77).  The expression
is the constant `*/5 * * * *`, a valid five-field expression, which
`cron.schedule` accepts. -/
def _scheduleMentionChecking (self : SchedulerService) : SchedulerService :=
  match cronSchedule self "*/5 * * * *" 1 true with
  | (.ok job, self1) => { self1 with jobs := mapSet self1.jobs "mentionChecking" job }
  | (.error _, self1) => self1

/-- `SchedulerService._schedulePostProcessing` (lines 79-91).  The expression
is the constant `* * * * *`, which `cron.schedule` accepts. -/
def _schedulePostProcessing (self : SchedulerService) : SchedulerService :=
  match cronSchedule self "* * * * *" 2 true with
  | (.ok job, self1) => { self1 with jobs := mapSet self1.jobs "postProcessing" job }
  | (.error _, self1) => self1

/-- `SchedulerService._scheduleCleanup` (lines 93-116).  The expression is the
constant `0 3 * * *`, which `cron.schedule` accepts. -/
def _scheduleCleanup (self : SchedulerService) : SchedulerService :=
  match cronSchedule self "0 3 * * *" 3 true with
  | (.ok job, self1) => { self1 with jobs := mapSet self1.jobs "cleanup" job }
  | (.error _, self1) => self1

/-- `SchedulerService.start` (lines 13-29); `accepted` is the verdict of
`cron.schedule` on the tweet-generation expression.  When that first call
throws, the error leaves `start()` and the other three jobs are not scheduled.
Returns how the call ends and the state afterwards. -/
def start (self : SchedulerService) (tweetsPerDay : Int) (accepted : Bool) :
    Except String Unit × SchedulerService :=
  match _scheduleTweetGeneration self tweetsPerDay accepted with
  | (.error e, self1) => (.error e, self1)
  | (.ok _, self1) =>
    (.ok (), _scheduleCleanup (_schedulePostProcessing (_scheduleMentionChecking self1)))

/-! ## Cron expressions -/

/-- Value of a string of decimal digits, `none` if a character is not a digit. -/
def digitsValue (acc : Nat) (cs : List Char) : Option Nat :=
  match cs with
  | [] => some acc
  | c :: rest =>
    if c.isDigit then digitsValue (acc * 10 + (c.toNat - '0'.toNat)) rest else none

/-- Fields of a cron expression: the pieces between single spaces. -/
def cronFields (cur : List Char) (cs : List Char) : List (List Char) :=
  match cs with
  | [] => [cur.reverse]
  | c :: rest => if c = ' ' then cur.reverse :: cronFields [] rest else cronFields (c :: cur) rest

/-- Modelled from the spec: the cron library (`node-cron`) is an external
package; a field is `*` (every value), `*/n` (step: every value `v` of the
field's range, which starts at 0 for minutes and hours, with `v mod n = 0`) or
a number (that value only).  A step of 0 or a malformed field matches
nothing. -/
def cronFieldMatches (field : List Char) (v : Nat) : Bool :=
  match field with
  | ['*'] => true
  | '*' :: '/' :: ds =>
    match ds, digitsValue 0 ds with
    | _ :: _, some n => n != 0 && v % n == 0
    | _, _ => false
  | ds =>
    match ds, digitsValue 0 ds with
    | _ :: _, some n => v == n
    | _, _ => false

/-- Modelled from the spec: whether a five-field expression whose day, month
and weekday fields are `*` fires at `hour:minute` (the cron library is an
external package). -/
def cronFires (expression : String) (hour minute : Nat) : Bool :=
  match cronFields [] expression.toList with
  | [m, h, ['*'], ['*'], ['*']] => cronFieldMatches m minute && cronFieldMatches h hour
  | _ => false

/-- The ticks of a day: all `(hour, minute)` with `hour < 24`, `minute < 60` at
which the expression fires, in chronological order. -/
def ticksPerDay (expression : String) : List (Nat × Nat) :=
  (List.range 24).flatMap fun h =>
    ((List.range 60).filter fun m => cronFires expression h m).map fun m => (h, m)

/-! ## Reply pipeline (`ResponseController._processMention`) -/

/-- An incoming mention or search hit: the fields the reply pipeline reads.
A field that may be `undefined` is an `Option`. -/
structure Mention where
  id : String
  author_id : Option String
  text : String
  author_username : String
  conversation_id : Option String
  deriving DecidableEq, Repr

/-- A row of `interaction_log` as read by `_checkExistingReply`. -/
structure Interaction where
  type : String
  twitter_id : Option String
  in_reply_to : Option String
  deriving DecidableEq, Repr

/-- A post of a conversation, from the `conversations` table or from the
platform search. -/
structure ConvTweet where
  tweet_id : String
  content : String
  author_id : String
  deriving DecidableEq, Repr

/-- A value stored under a metadata key. -/
inductive JsVal where
  | str (s : String)
  | num (n : Nat)
  | bool (b : Bool)
  | undefined
  deriving DecidableEq, Repr

/-- The object returned by `aiService.generateReply` and by
`aiService.generateTweet`: the text and the metadata object, as the list of
its keys and values in insertion order. -/
structure Reply where
  content : String
  metadata : List (String × JsVal)
  deriving DecidableEq, Repr

/-- The object returned by `aiService.shouldReplyToTweet`; `should_reply` is the
truthiness of that field. -/
structure ShouldReply where
  should_reply : Bool
  reason : String
  deriving DecidableEq, Repr

/-- The object returned by `contentFilter.checkContent`. -/
structure FilterResult where
  safe : Bool
  reason : String
  deriving DecidableEq, Repr

/-- Calls that change the outside world, with whether the call succeeded:
`tweet` is `v2Client.tweet(tweetData)` on the platform client, the others are
inserts made through `supabaseService`.  For `saveToTestQueue`, `type` and
`in_reply_to` are the keys of that name in the metadata argument; for
`saveTweet`, the fields are those of the inserted row. -/
inductive Effect where
  | tweet (text : String) (in_reply_to_tweet_id : Option String)
      (media_ids : Option (List String)) (ok : Bool)
  | saveConversation (conversation_id : Option String) (tweet_id : String)
      (in_reply_to : Option String) (content : String) (ok : Bool)
  | logInteraction (type : String) (twitter_id : String) (in_reply_to : Option String)
      (reason : Option String) (ok : Bool)
  | saveToTestQueue (content : String) (type : Option String) (in_reply_to : Option String)
      (ok : Bool)
  | saveTweet (content : String) (status : Option String) (scheduled_time : Option Int)
      (twitter_id : Option String) (ok : Bool)
  deriving DecidableEq, Repr

/-- The object `client.rateLimit` read by `getRateLimitInfo`
(twitter.service.js, lines 230-232); a missing `remaining` is `undefined`. -/
structure RateLimitInfo where
  remaining : Option Int
  deriving DecidableEq, Repr

/-- Outcomes of the external calls during one run of the reply pipeline or of
the tweet pipeline.  An `Except` is a call that may throw.  `checkContent` is
the content filter (`utils/content-filter`), taken as a parameter.
`generateTweet` is the result of `aiService.generateTweet` (it does not
throw), `nextOptimalTime` the result of `_getNextOptimalTime()`.
`rateLimitInfo` is the outcome of `twitterService.getRateLimitInfo()` (`none`
is `undefined`), `lastHourQuery` the outcome of the database query made by
`getRecentInteractions(1)`. -/
structure World where
  enableAutoPosting : Bool
  now : Int
  me : Except String String
  meRetry : Except String String
  recentInteractions : List Interaction
  dbConversation : List ConvTweet
  twitterConversation : Except String (List ConvTweet)
  saveConversationOk : String → Bool
  shouldReply : Except String ShouldReply
  generateReply : Except String Reply
  checkContent : String → Except String FilterResult
  tweet : Except String String
  logInteractionOk : Bool
  saveToTestQueueOk : Bool
  generateTweet : Reply
  saveTweetOk : Bool
  nextOptimalTime : Int
  rateLimitInfo : Except String (Option RateLimitInfo)
  lastHourQuery : Except String (List Interaction)

/-- Fields of `TwitterService` (constructor, lines 7-17, and the cache of
`getUserId`); `isTestMode` is `config.bot.enableAutoPosting === false`. -/
structure TwitterService where
  _userId : Option String
  isTestMode : Bool
  deriving DecidableEq, Repr

/-- The constructor of `TwitterService` (lines 7-17). -/
def TwitterService.new (enableAutoPosting : Bool) : TwitterService :=
  { _userId := none, isTestMode := enableAutoPosting == false }

/-- JavaScript truthiness of a value that is a string or `undefined`. -/
def truthy (v : Option String) : Bool :=
  match v with
  | some s => s != ""
  | none => false

/-- `TwitterService.getUserId` (lines 153-164); `me` is the outcome of
`v2Client.me()` (the id it reports). -/
def TwitterService.getUserId (self : TwitterService) (me : Except String String) :
    Except String String × TwitterService :=
  if truthy self._userId then
    (.ok (self._userId.getD ""), self)
  else
    match me with
    | .ok id => (.ok id, { self with _userId := some id })
    | .error e => (.error e, self)

/-- `TwitterService.postTweet` (lines 19-49).  Returns `result.data.id` or the
error thrown, and the platform calls made. -/
def TwitterService.postTweet (self : TwitterService) (w : World) (content : String)
    (replyToId : Option String) (mediaIds : Option (List String)) :
    Except String String × List Effect :=
  if self.isTestMode then
    (.ok ("test_" ++ toString w.now), [])
  else
    let reply : Option String := if truthy replyToId then replyToId else none
    let media : Option (List String) :=
      match mediaIds with
      | some ids => if ids.length > 0 then some ids else none
      | none => none
    match w.tweet with
    | .ok id => (.ok id, [Effect.tweet content reply media true])
    | .error e => (.error e, [Effect.tweet content reply media false])

/-- `SupabaseService.saveConversation` (lines 240-254): throws when the insert
fails. -/
def saveConversation (w : World) (conversation_id : Option String) (tweet_id : String)
    (in_reply_to : Option String) (content : String) : Except String Unit × List Effect :=
  if w.saveConversationOk tweet_id then
    (.ok (), [Effect.saveConversation conversation_id tweet_id in_reply_to content true])
  else
    (.error "saveConversation", [Effect.saveConversation conversation_id tweet_id in_reply_to content false])

/-- `SupabaseService.logInteraction` (lines 203-220): never throws. -/
def logInteraction (w : World) (type : String) (twitter_id : String)
    (in_reply_to : Option String) (reason : Option String) : List Effect :=
  [Effect.logInteraction type twitter_id in_reply_to reason w.logInteractionOk]

/-- `SupabaseService.saveToTestQueue` (lines 88-107): throws when the insert
fails. -/
def saveToTestQueue (w : World) (content : String) (type : Option String)
    (in_reply_to : Option String) : Except String Unit × List Effect :=
  if w.saveToTestQueueOk then
    (.ok (), [Effect.saveToTestQueue content type in_reply_to true])
  else
    (.error "saveToTestQueue", [Effect.saveToTestQueue content type in_reply_to false])

/-- `ResponseController._checkExistingReply` (lines 169-180): whether
`interactions.find(...)` finds a row.  `supabaseService.getRecentInteractions`
does not throw. -/
def _checkExistingReply (w : World) (mentionId : String) : Bool :=
  w.recentInteractions.any fun i =>
    i.type == "reply_posted" && i.in_reply_to == some mentionId

/-- The loop of `_getConversationContext` (lines 146-156) saving the posts not
yet in the database; stops at the first failing insert. -/
def saveMissing (w : World) (conversation_id : String) (conversation : List ConvTweet)
    (tweets : List ConvTweet) : Except String Unit × List Effect :=
  match tweets with
  | [] => (.ok (), [])
  | t :: rest =>
    if conversation.any (fun c => c.tweet_id == t.tweet_id) then
      saveMissing w conversation_id conversation rest
    else
      match saveConversation w (some conversation_id) t.tweet_id none t.content with
      | (.ok _, fx) =>
        let (r, fx1) := saveMissing w conversation_id conversation rest
        (r, fx ++ fx1)
      | (.error e, fx) => (.error e, fx)

/-- `Array.prototype.slice(-5)`: the last five elements. -/
def lastFive (l : List ConvTweet) : List ConvTweet :=
  l.drop (l.length - 5)

/-- `ResponseController._getConversationContext` (lines 132-167): never throws. -/
def _getConversationContext (w : World) (mention : Mention) : List ConvTweet × List Effect :=
  if !truthy mention.conversation_id then
    ([], [])
  else
    let conversation_id := mention.conversation_id.getD ""
    let conversation := w.dbConversation
    if conversation.length < 3 then
      match w.twitterConversation with
      | .error _ => ([], [])
      | .ok twitterConversation =>
        match saveMissing w conversation_id conversation twitterConversation with
        | (.ok _, fx) => (lastFive twitterConversation, fx)
        | (.error _, fx) => ([], fx)
    else
      (lastFive conversation, [])

/-- `ResponseController._logSkippedMention` (lines 195-208): never throws. -/
def _logSkippedMention (w : World) (mention : Mention) (reason : String) : List Effect :=
  logInteraction w "mention_skipped" mention.id none (some reason)

/-- `ResponseController._postReply` (lines 81-113). -/
def _postReply (w : World) (tw : TwitterService) (mention : Mention) (reply : Reply) :
    Except String String × TwitterService × List Effect :=
  match tw.postTweet w reply.content (some mention.id) none with
  | (.error e, fx) => (.error e, tw, fx)
  | (.ok id, fx) =>
    match tw.getUserId w.meRetry with
    | (.error e, tw1) => (.error e, tw1, fx)
    | (.ok _, tw1) =>
      match saveConversation w mention.conversation_id id (some mention.id) reply.content with
      | (.error e, fx1) => (.error e, tw1, fx ++ fx1)
      | (.ok _, fx1) =>
        (.ok id, tw1, fx ++ fx1 ++ logInteraction w "reply_posted" id (some mention.id) none)

/-- `ResponseController._addReplyToTestQueue` (lines 115-130). -/
def _addReplyToTestQueue (w : World) (mention : Mention) (reply : Reply) :
    Except String Unit × List Effect :=
  saveToTestQueue w reply.content (some "reply") (some mention.id)

/-- Result of one run of `_processMention`: whether it returned or threw, the
controller and the platform service afterwards, and the effects in order. -/
structure Run where
  result : Except String Unit
  ctrl : ResponseController
  twitter : TwitterService
  trace : List Effect

/-- `ResponseController._processMention` (lines 29-79). -/
def _processMention (w : World) (self : ResponseController) (tw : TwitterService)
    (mention : Mention) : Run :=
  match tw.getUserId w.me with
  | (.error e, tw1) => ⟨.error e, self, tw1, []⟩
  | (.ok ourUserId, tw1) =>
    if mention.author_id = some ourUserId then
      ⟨.ok (), self, tw1, []⟩
    else if _checkExistingReply w mention.id then
      ⟨.ok (), self, tw1, []⟩
    else
      let (_conversationContext, fx0) := _getConversationContext w mention
      match w.shouldReply with
      | .error e => ⟨.error e, self, tw1, fx0⟩
      | .ok shouldReply =>
        if !shouldReply.should_reply then
          ⟨.ok (), self, tw1, fx0 ++ _logSkippedMention w mention shouldReply.reason⟩
        else
          match w.generateReply with
          | .error e => ⟨.error e, self, tw1, fx0⟩
          | .ok reply =>
            match w.checkContent reply.content with
            | .error e => ⟨.error e, self, tw1, fx0⟩
            | .ok filtered =>
              if !filtered.safe then
                ⟨.ok (), self, tw1, fx0 ++ _logSkippedMention w mention "Failed content filter"⟩
              else if w.enableAutoPosting then
                match _postReply w tw1 mention reply with
                | (.error e, tw2, fx) => ⟨.error e, self, tw2, fx0 ++ fx⟩
                | (.ok _, tw2, fx) =>
                  ⟨.ok (), { self with replyCount := self.replyCount + 1 }, tw2, fx0 ++ fx⟩
              else
                match _addReplyToTestQueue w mention reply with
                | (.error e, fx) => ⟨.error e, self, tw1, fx0 ++ fx⟩
                | (.ok _, fx) =>
                  ⟨.ok (), { self with replyCount := self.replyCount + 1 }, tw1, fx0 ++ fx⟩

/-- A reply was published on the platform: a successful `v2Client.tweet` call. -/
def Effect.isPublish (e : Effect) : Bool :=
  match e with
  | .tweet _ _ _ ok => ok
  | _ => false

/-- A reply was queued for review: a successful insert into the test queue. -/
def Effect.isEnqueue (e : Effect) : Bool :=
  match e with
  | .saveToTestQueue _ _ _ ok => ok
  | _ => false

/-- A mention by another account (used to evaluate the pipeline). -/
def sampleMention : Mention :=
  { id := "m1", author_id := some "u42", text := "hello bot", author_username := "alice",
    conversation_id := none }

/-- A run in which every external call succeeds, the decision is to reply and
the filter accepts the reply; `auto` is `config.bot.enableAutoPosting`. -/
def sampleWorld (auto : Bool) : World :=
  { enableAutoPosting := auto
    now := 1000
    me := .ok "bot"
    meRetry := .ok "bot"
    recentInteractions := []
    dbConversation := []
    twitterConversation := .ok []
    saveConversationOk := fun _ => true
    shouldReply := .ok { should_reply := true, reason := "relevant" }
    generateReply := .ok { content := "thanks!", metadata := [] }
    checkContent := fun _ => .ok { safe := true, reason := "" }
    tweet := .ok "t1"
    logInteractionOk := true
    saveToTestQueueOk := true
    generateTweet := { content := "gm builders", metadata := [] }
    saveTweetOk := true
    nextOptimalTime := 5000
    rateLimitInfo := .ok none
    lastHourQuery := .ok [] }

/-- Well-formed scheduler state: every job reference in the registry points
into the task store, and no two registry entries share a name or a task
(each entry is made by `cron.schedule` followed by `jobs.set`). -/
def SchedulerService.WF (self : SchedulerService) : Prop :=
  (∀ e ∈ self.jobs, e.2 < self.tasks.length) ∧
  (self.jobs.map Prod.fst).Nodup ∧ (self.jobs.map Prod.snd).Nodup

/-- Well-formedness is decidable (a finite check over the registry). -/
instance SchedulerService.decidableWF (self : SchedulerService) : Decidable self.WF := by
  unfold SchedulerService.WF
  infer_instance

/-- The constructor of `SchedulerService` (lines 9-11): an empty registry. -/
def SchedulerService.new : SchedulerService :=
  { jobs := [], tasks := [], calls := [], timers := [] }

/-- The scheduler after `start()` with the default quota of 3 tweets per day
(`cron.schedule` accepts the expression `0 */8 * * *`). -/
def sampleScheduler : SchedulerService :=
  (start SchedulerService.new 3 true).2

/-! ## Tweet pipeline (`TweetController`) and the other reply paths -/

/-- A row returned by an insert (`data` of the database client): the table and
the fields the callers read back. -/
structure SavedRow where
  table : String
  content : String
  status : Option String
  deriving DecidableEq, Repr

/-- `SupabaseService.saveTweet` (lines 223-237): throws when the insert fails. -/
def saveTweet (w : World) (content : String) (status : Option String)
    (scheduled_time : Option Int) (twitter_id : Option String) :
    Except String SavedRow × List Effect :=
  if w.saveTweetOk then
    (.ok { table := "tweets", content := content, status := status },
      [Effect.saveTweet content status scheduled_time twitter_id true])
  else
    (.error "saveTweet", [Effect.saveTweet content status scheduled_time twitter_id false])

/-- `TweetController._schedulePost` (lines 215-227). -/
def _schedulePost (w : World) (generated : Reply) : Except String SavedRow × List Effect :=
  saveTweet w generated.content (some "pending") (some w.nextOptimalTime) none

/-- `TweetController._addToTestQueue` (lines 229-235): the metadata argument has
no `type` and no `in_reply_to` key. -/
def _addToTestQueue (w : World) (generated : Reply) : Except String SavedRow × List Effect :=
  match saveToTestQueue w generated.content none none with
  | (.ok _, fx) =>
    (.ok { table := "test_queue", content := generated.content, status := some "pending" }, fx)
  | (.error e, fx) => (.error e, fx)

/-- Result of one run of the tweet pipeline: the value returned (`none` is
`null`) or the error thrown, and the effects in order. -/
structure TickRun where
  result : Except String (Option SavedRow)
  trace : List Effect

/-- `TweetController.generateScheduledTweet` (lines 11-41).  `_getTweetContext`
only reads and does not throw; `aiService.generateTweet` and
`aiService.analyzeContent` do not throw; none of them changes the outside
world. -/
def generateScheduledTweet (w : World) : TickRun :=
  let generated := w.generateTweet
  match w.checkContent generated.content with
  | .error e => ⟨.error e, []⟩
  | .ok filtered =>
    if !filtered.safe then
      ⟨.ok none, []⟩
    else if w.enableAutoPosting then
      match _schedulePost w generated with
      | (.error e, fx) => ⟨.error e, fx⟩
      | (.ok row, fx) => ⟨.ok (some row), fx⟩
    else
      match _addToTestQueue w generated with
      | (.error e, fx) => ⟨.error e, fx⟩
      | (.ok row, fx) => ⟨.ok (some row), fx⟩

/-- `TweetController.postTweet` (lines 43-85).  Returns `result.data.id` or the
error thrown. -/
def TweetController.postTweet (w : World) (tw : TwitterService) (content : String)
    (replyToId : Option String) (mediaIds : Option (List String)) :
    Except String String × List Effect :=
  match w.checkContent content with
  | .error e => (.error e, [])
  | .ok filtered =>
    if !filtered.safe then
      (.error "Content failed safety check", [])
    else
      match tw.postTweet w content replyToId mediaIds with
      | (.error e, fx) => (.error e, fx)
      | (.ok id, fx) =>
        match saveTweet w content none none (some id) with
        | (.error e, fx1) => (.error e, fx ++ fx1)
        | (.ok _, fx1) => (.ok id, fx ++ fx1 ++ logInteraction w "tweet_posted" id none none)

/-- A direct message: the fields `handleDirectMessage` reads. -/
structure DirectMessage where
  id : String
  text : String
  sender_username : String
  conversation_id : Option String
  deriving DecidableEq, Repr

/-- `ResponseController.handleDirectMessage` (lines 211-238).  With
auto-posting on, the reply is only written to the log
(`DM reply would be sent here`). -/
def handleDirectMessage (w : World) (_dm : DirectMessage) : Except String Unit × List Effect :=
  match w.generateReply with
  | .error e => (.error e, [])
  | .ok response =>
    if !w.enableAutoPosting then
      saveToTestQueue w response.content (some "dm_reply") none
    else
      (.ok (), [])

/-- A search hit: the tweet and its `public_metrics` (a missing metric is
`undefined`). -/
structure SearchTweet where
  tweet : Mention
  like_count : Option Nat
  retweet_count : Option Nat
  deriving DecidableEq, Repr

/-- `TwitterService.searchTweets` (lines 137-151).  The object literal of line
142 reads the identifier `max_results`, which is bound nowhere (the parameter
is `maxResults`): evaluating it throws a `ReferenceError` inside the `try`,
before `v2Client.search` is called, and the `catch` rethrows it. -/
def TwitterService.searchTweets (_self : TwitterService) (_query : String)
    (_maxResults : Nat) : Except String (List SearchTweet) :=
  .error "ReferenceError: max_results is not defined"

/-- The filter of lines 248-251:
`metrics.like_count > 100 || metrics.retweet_count > 50`, a comparison with
`undefined` being `false`. -/
def isQualityTweet (t : SearchTweet) : Bool :=
  (match t.like_count with
    | some n => decide (n > 100)
    | none => false) ||
  (match t.retweet_count with
    | some n => decide (n > 50)
    | none => false)

/-- The loop of `engageWithTrending` (lines 253-265) over the tweets it is
given.  `ws id` holds the outcomes of the external calls made while the tweet
`id` is handled; the mode is that of `w`. -/
def engageWithTweets (w : World) (ws : String → World) (tw : TwitterService)
    (tweets : List SearchTweet) : Except String Unit × TwitterService × List Effect :=
  match tweets with
  | [] => (.ok (), tw, [])
  | t :: rest =>
    let wi : World := { ws t.tweet.id with enableAutoPosting := w.enableAutoPosting }
    match wi.shouldReply with
    | .error e => (.error e, tw, [])
    | .ok shouldEngage =>
      if shouldEngage.should_reply then
        match wi.generateReply with
        | .error e => (.error e, tw, [])
        | .ok reply =>
          if wi.enableAutoPosting then
            match _postReply wi tw t.tweet reply with
            | (.error e, tw1, fx) => (.error e, tw1, fx)
            | (.ok _, tw1, fx) =>
              let (r, tw2, fx1) := engageWithTweets w ws tw1 rest
              (r, tw2, fx ++ fx1)
          else
            match _addReplyToTestQueue wi t.tweet reply with
            | (.error e, fx) => (.error e, tw, fx)
            | (.ok _, fx) =>
              let (r, tw2, fx1) := engageWithTweets w ws tw rest
              (r, tw2, fx ++ fx1)
      else
        engageWithTweets w ws tw rest

/-- `ResponseController.engageWithTrending` (lines 240-270). -/
def engageWithTrending (w : World) (ws : String → World) (tw : TwitterService)
    (topic : String) : Except String Unit × TwitterService × List Effect :=
  match tw.searchTweets topic 10 with
  | .error e => (.error e, tw, [])
  | .ok tweets => engageWithTweets w ws tw ((tweets.filter isQualityTweet).take 3)

/-- A call of `v2Client.tweet` (successful or not). -/
def Effect.isTweetCall (e : Effect) : Bool :=
  match e with
  | .tweet _ _ _ _ => true
  | _ => false

/-- A call of `supabaseService.saveToTestQueue` (successful or not). -/
def Effect.isQueueCall (e : Effect) : Bool :=
  match e with
  | .saveToTestQueue _ _ _ _ => true
  | _ => false

/-- A call of `supabaseService.saveTweet` (successful or not). -/
def Effect.isSaveTweetCall (e : Effect) : Bool :=
  match e with
  | .saveTweet _ _ _ _ _ => true
  | _ => false

/-- A call of `supabaseService.logInteraction` (successful or not). -/
def Effect.isLogCall (e : Effect) : Bool :=
  match e with
  | .logInteraction _ _ _ _ _ => true
  | _ => false

/-- The rows of `interaction_log` written by the effects: one per successful
`logInteraction` call, the most recent first (the order of
`getRecentInteractions`). -/
def loggedRows (trace : List Effect) : List Interaction :=
  match trace with
  | [] => []
  | .logInteraction type twitter_id in_reply_to _ true :: rest =>
    loggedRows rest ++ [{ type := type, twitter_id := some twitter_id, in_reply_to := in_reply_to }]
  | _ :: rest => loggedRows rest

/-- The world of a later run in which the rows written by an earlier run are
visible to `getRecentInteractions`, all else as in `w`. -/
def visibleAfter (w : World) (earlier : List Effect) : World :=
  { w with recentInteractions := loggedRows earlier ++ w.recentInteractions }

/-- The run of `sampleWorld` with a filter that rejects every text. -/
def rejectingWorld (auto : Bool) : World :=
  { sampleWorld auto with
    checkContent := fun _ => .ok { safe := false, reason := "banned term" } }

/-- A direct message (used to evaluate `handleDirectMessage`). -/
def sampleDirectMessage : DirectMessage :=
  { id := "d1", text := "hey", sender_username := "bob", conversation_id := none }

/-- A search hit with 150 likes by another account. -/
def sampleSearchTweet : SearchTweet :=
  { tweet := sampleMention, like_count := some 150, retweet_count := none }
/-! ## Content generator (`AIService`) -/

deriving instance DecidableEq for Except

/-- `String.prototype.length`: the number of UTF-16 code units (a character
outside the basic plane counts 2). -/
def jsLength (s : String) : Nat :=
  (s.toList.map fun c => if c.toNat ≥ 65536 then 2 else 1).sum

/-- The characters removed by `String.prototype.trim`: white space and line
terminators of ECMAScript. -/
def isJsWhitespace (c : Char) : Bool :=
  let n := c.toNat
  n == 9 || n == 10 || n == 11 || n == 12 || n == 13 || n == 32 || n == 160 ||
  n == 5760 || (8192 ≤ n && n ≤ 8202) || n == 8232 || n == 8233 || n == 8239 ||
  n == 8287 || n == 12288 || n == 65279

/-- `String.prototype.trim`. -/
def jsTrim (s : String) : String :=
  String.mk ((s.toList.dropWhile isJsWhitespace).reverse.dropWhile isJsWhitespace).reverse

/-- The `text` field of a request to the generation service: a string, or a
`Promise` object that was not awaited (it would resolve to the given string). -/
inductive PromptArg where
  | text (s : String)
  | promise (resolvesTo : String)
  deriving DecidableEq, Repr

/-- A call of `anthropic.messages.create`: the fields of its argument.
`temperature` is in hundredths, `none` when the field is not given. -/
structure AiRequest where
  model : String
  max_tokens : Nat
  temperature : Option Nat
  text : PromptArg
  deriving DecidableEq, Repr

/-- Inputs of one run of the content generator: `config.ai`, the clock
(`new Date().toISOString()`), the prompts built from the personality
configuration and random picks (`tweetPrompt` is the outcome of
`await this._buildTweetPrompt(context)`, which may throw; `replyPrompt` is the
string `_buildReplyPrompt` resolves to), and the outcomes of the two
generation-service calls: the text `response.content[0].text`, or the error
thrown by the call or by reading a malformed response. -/
structure AiWorld where
  model : String
  maxTokens : Nat
  nowIso : String
  tweetPrompt : Except String String
  replyPrompt : String
  create : Except String String
  shorten : Except String String

/-- The `context` argument of `generateTweet`: the field the function reads. -/
structure TweetContext where
  type : Option String
  deriving DecidableEq, Repr

/-- The expression `context.type || 'random'`. -/
def contextType (context : TweetContext) : String :=
  if truthy context.type then context.type.getD "" else "random"

/-- The platform limit of lines 61 and 114. -/
def tweetLimit : Nat := 280

/-- The prompt of `_shortenTweet` (lines 583-586). -/
def shortenPrompt (content : String) : String :=
  "Shorten to under 280 chars, keep the vibe:\n\"" ++ content ++ "\"\n\nShortened version:"

/-- `AIService._shortenTweet` (lines 582-611).  Returns the item or the error
thrown, and the generation-service calls made. -/
def _shortenTweet (a : AiWorld) (content : String) : Except String Reply × List AiRequest :=
  let request : AiRequest :=
    { model := a.model, max_tokens := 300, temperature := none,
      text := .text (shortenPrompt content) }
  match a.shorten with
  | .error e => (.error e, [request])
  | .ok text =>
    (.ok { content := jsTrim text,
           metadata := [("was_shortened", .bool true),
                        ("original_length", .num (jsLength content))] },
      [request])

/-- The fallback text of line 79. -/
def fallbackTweet : String :=
  "when your bot breaks while trying to tweet about bots breaking... meta debugging activated 🤖🔧"

/-- The object returned by the `catch` of `generateTweet` (lines 78-86). -/
def fallbackItem (a : AiWorld) (context : TweetContext) (message : String) : Reply :=
  { content := fallbackTweet,
    metadata := [("error", .bool true), ("error_message", .str message),
                 ("context_type", .str (contextType context)),
                 ("generated_at", .str a.nowIso)] }

/-- `AIService.generateTweet` (lines 31-88).  Returns the item (the function
catches every error) and the generation-service calls made. -/
def generateTweet (a : AiWorld) (context : TweetContext) : Reply × List AiRequest :=
  match a.tweetPrompt with
  | .error e => (fallbackItem a context e, [])
  | .ok promptText =>
    let request : AiRequest :=
      { model := a.model, max_tokens := a.maxTokens, temperature := some 95,
        text := .text promptText }
    match a.create with
    | .error e => (fallbackItem a context e, [request])
    | .ok text =>
      let tweetContent := jsTrim text
      if jsLength tweetContent > tweetLimit then
        match _shortenTweet a tweetContent with
        | (.ok item, reqs) => (item, request :: reqs)
        | (.error e, reqs) => (fallbackItem a context e, request :: reqs)
      else
        ({ content := tweetContent,
           metadata := [("ai_model", .str a.model),
                        ("context_type", .str (contextType context)),
                        ("generated_at", .str a.nowIso)] },
          [request])

/-- A metadata value that is a string or `undefined`. -/
def JsVal.ofOption (v : Option String) : JsVal :=
  match v with
  | some s => .str s
  | none => .undefined

/-- `AIService.generateReply` (lines 90-131).  The prompt is the value of the
call `this._buildReplyPrompt(...)` of an `async` function, which is not
awaited.  Returns the item or the error thrown, and the generation-service
calls made. -/
def generateReply (a : AiWorld) (tweet : Mention) : Except String Reply × List AiRequest :=
  let request : AiRequest :=
    { model := a.model, max_tokens := a.maxTokens, temperature := some 90,
      text := .promise a.replyPrompt }
  match a.create with
  | .error e => (.error e, [request])
  | .ok text =>
    let replyContent := jsTrim text
    if jsLength replyContent > tweetLimit then
      match _shortenTweet a replyContent with
      | (r, reqs) => (r, request :: reqs)
    else
      (.ok { content := replyContent,
             metadata := [("ai_model", .str a.model), ("reply_to", .str tweet.id),
                          ("conversation_id", JsVal.ofOption tweet.conversation_id),
                          ("generated_at", .str a.nowIso)] },
        [request])

/-- The value stored under a metadata key, `none` when the key is absent. -/
def metaGet (metadata : List (String × JsVal)) (key : String) : Option JsVal :=
  match metadata with
  | [] => none
  | (k, v) :: rest => if k = key then some v else metaGet rest key

/-- A text of `n` letters `a`. -/
def longText (n : Nat) : String :=
  String.mk (List.replicate n 'a')

/-- A run of the generator in which both generation-service calls answer with
the given texts. -/
def sampleAiWorld (first second : String) : AiWorld :=
  { model := "claude-sonnet-4-20250514"
    maxTokens := 500
    nowIso := "2025-01-01T09:00:00.000Z"
    tweetPrompt := .ok "Write ONE authentic tweet:"
    replyPrompt := "Write your reply:"
    create := .ok first
    shorten := .ok second }

/-- A call of `supabaseService.saveConversation` (successful or not). -/
def Effect.isConversationCall (e : Effect) : Bool :=
  match e with
  | .saveConversation _ _ _ _ _ => true
  | _ => false

/-- A second call of `_processMention` in sequence after a first run: the rows
logged by the first run are visible, the controller and the platform service
are as the first run left them. -/
def processMentionAgain (w : World) (first : Run) (m : Mention) : Run :=
  _processMention (visibleAfter w first.trace) first.ctrl first.twitter m

/-! ## Time of day, optimal posting times -/

/-- `TweetController._getTimeOfDay` (lines 189-196) as a function of
`new Date().getHours()`. -/
def _getTimeOfDay (hour : Nat) : String :=
  if hour < 6 then "late_night"
  else if hour < 12 then "morning"
  else if hour < 17 then "afternoon"
  else if hour < 21 then "evening"
  else "night"

/-- A posting slot `{ hour, minute }`. -/
structure PostingTime where
  hour : Nat
  minute : Nat
  deriving DecidableEq, Repr

/-- `SchedulerService.getOptimalPostingTimes` (lines 155-164). -/
def getOptimalPostingTimes : List PostingTime :=
  [⟨9, 0⟩, ⟨12, 30⟩, ⟨17, 0⟩, ⟨20, 0⟩]

/-- The array `optimalTimes` of `_getNextOptimalTime` (lines 239-244), the
controller's own copy of the four slots. -/
def optimalTimes : List PostingTime :=
  [⟨9, 0⟩, ⟨12, 30⟩, ⟨17, 0⟩, ⟨20, 0⟩]

/-- A `Date` seen through its local-time fields: `day` counts local calendar
days, the other fields are `getHours()`, `getMinutes()`, `getSeconds()` and
`getMilliseconds()`. -/
structure LocalTime where
  day : Int
  hour : Nat
  minute : Nat
  second : Nat
  ms : Nat
  deriving DecidableEq, Repr

/-- The fields of a `Date` are in range. -/
def LocalTime.Valid (t : LocalTime) : Prop :=
  t.hour < 24 ∧ t.minute < 60 ∧ t.second < 60 ∧ t.ms < 1000

/-- Milliseconds on the local time line (days of 24 hours). -/
def LocalTime.toMs (t : LocalTime) : Int :=
  (((t.day * 24 + t.hour) * 60 + t.minute) * 60 + t.second) * 1000 + t.ms

/-- `date.setHours(hour, minute, 0, 0)`. -/
def LocalTime.setHours (t : LocalTime) (hour minute : Nat) : LocalTime :=
  { t with hour := hour, minute := minute, second := 0, ms := 0 }

/-- `date.setDate(date.getDate() + 1)`. -/
def LocalTime.nextDay (t : LocalTime) : LocalTime :=
  { t with day := t.day + 1 }

/-- The loop of `_getNextOptimalTime` (lines 251-258) over the slots still to
be looked at; `none` when the loop ends without returning.  The second
`new Date()` of line 254 is read at the same instant as `now`. -/
def nextSlotToday (now : LocalTime) : List PostingTime → Option LocalTime
  | [] => none
  | time :: rest =>
    if time.hour > now.hour || (time.hour == now.hour && time.minute > now.minute) then
      some (now.setHours time.hour time.minute)
    else
      nextSlotToday now rest

/-- `TweetController._getNextOptimalTime` (lines 237-265). -/
def _getNextOptimalTime (now : LocalTime) : LocalTime :=
  match nextSlotToday now optimalTimes with
  | some nextTime => nextTime
  | none =>
    match optimalTimes.head? with
    | some first => now.nextDay.setHours first.hour first.minute
    | none => now.nextDay

/-- The instant of slot `time` on local day `day`. -/
def slotOn (day : Int) (time : PostingTime) : LocalTime :=
  { day := day, hour := time.hour, minute := time.minute, second := 0, ms := 0 }

/-! ## Rate limits and the processing of due posts -/

/-- `SupabaseService.getRecentInteractions` (lines 184-201): the rows of the
query, `[]` when the query fails. -/
def getRecentInteractions (query : Except String (List Interaction)) : List Interaction :=
  match query with
  | .ok data => data
  | .error _ => []

/-- The test `rateLimitInfo && rateLimitInfo.remaining < 5` of line 271: a
missing object is falsy and a comparison with `undefined` is `false`. -/
def rateLimitLow (info : Option RateLimitInfo) : Bool :=
  match info with
  | none => false
  | some i =>
    match i.remaining with
    | none => false
    | some remaining => decide (remaining < 5)

/-- The count `tweetsInLastHour` of lines 277-278. -/
def tweetsInLastHour (w : World) : Nat :=
  ((getRecentInteractions w.lastHourQuery).filter (fun i => i.type == "tweet_posted")).length

/-- `TweetController._checkRateLimits` (lines 267-290).  An error thrown inside
the `try` is caught and the answer is `true`. -/
def _checkRateLimits (w : World) : Bool :=
  match w.rateLimitInfo with
  | .error _ => true
  | .ok rateLimitInfo =>
    if rateLimitLow rateLimitInfo then
      false
    else if tweetsInLastHour w ≥ 10 then
      false
    else
      true

/-- A row of `scheduled_posts` as read by `processScheduledPosts`. -/
structure ScheduledPost where
  id : String
  content : String
  deriving DecidableEq, Repr

/-- The call `supabaseService.updateTweetStatus(...)` of lines 106 and 114.
`SupabaseService` (supabase.service.js, lines 6-273) defines no method of that
name, and nothing else assigns one, so the property is `undefined` and calling
it throws a `TypeError`; no request reaches the database. -/
def updateTweetStatus (_id _status : String) (_twitter_id : Option String) :
    Except String Unit :=
  .error "TypeError: supabaseService.updateTweetStatus is not a function"

/-- The `for` loop of `processScheduledPosts` (lines 91-117).  `ws id` holds
the outcomes of the external calls made while the post `id` is processed.  The
result is `.error` when an error leaves the loop, which happens when the
`catch` block of line 112 itself throws. -/
def processPosts (ws : String → World) (tw : TwitterService) :
    List ScheduledPost → Except String Unit × List Effect
  | [] => (.ok (), [])
  | post :: rest =>
    let w := ws post.id
    if !_checkRateLimits w then
      (.ok (), [])
    else
      let attempt : Except String Unit × List Effect :=
        match TweetController.postTweet w tw post.content none none with
        | (.error e, fx) => (.error e, fx)
        | (.ok id, fx) =>
          match updateTweetStatus post.id "posted" (some id) with
          | .error e => (.error e, fx)
          | .ok _ => (.ok (), fx)
      match attempt with
      | (.ok _, fx) =>
        let next := processPosts ws tw rest
        (next.1, fx ++ next.2)
      | (.error _, fx) =>
        match updateTweetStatus post.id "failed" none with
        | .error e => (.error e, fx)
        | .ok _ =>
          let next := processPosts ws tw rest
          (next.1, fx ++ next.2)

/-- `TweetController.processScheduledPosts` (lines 87-120) on the list returned
by `getScheduledTweets` (which does not throw).  The outer `catch` logs the
error and the function returns. -/
def processScheduledPosts (ws : String → World) (tw : TwitterService)
    (posts : List ScheduledPost) : Except String Unit × List Effect :=
  match processPosts ws tw posts with
  | (.ok _, fx) => (.ok (), fx)
  | (.error _, fx) => (.ok (), fx)

/-! ## The mention check -/

/-- `ResponseController.checkAndReplyToMentions` (lines 15-27).  After the
test-mode guard the `try` block holds only the comment
`// Your existing mention checking code...`: neither `getMentions` nor
`_processMention` is called, whatever mentions are waiting. -/
def checkAndReplyToMentions (w : World) (_pending : List Mention) :
    Except String Unit × List Effect :=
  if w.enableAutoPosting == false then
    (.ok (), [])
  else
    (.ok (), [])

/-! ## The handlers registered by the scheduler -/

/-- Result of one run of a registered handler: how the `async` function
settles, the scheduler afterwards, and the effects. -/
structure HandlerRun where
  result : Except String Unit
  scheduler : SchedulerService
  trace : List Effect

/-- The handler of `_scheduleTweetGeneration` (lines 51-58). -/
def tweetGenerationHandler (self : SchedulerService) (w : World) : HandlerRun :=
  let run := generateScheduledTweet w
  match run.result with
  | .ok _ => ⟨.ok (), self, run.trace⟩
  | .error _ => ⟨.ok (), self, run.trace⟩

/-- The handler of `_scheduleMentionChecking` (lines 66-73). -/
def mentionCheckingHandler (self : SchedulerService) (w : World) (pending : List Mention) :
    HandlerRun :=
  match checkAndReplyToMentions w pending with
  | (.ok _, fx) => ⟨.ok (), self, fx⟩
  | (.error _, fx) => ⟨.ok (), self, fx⟩

/-- The handler of `_schedulePostProcessing` (lines 81-87). -/
def postProcessingHandler (self : SchedulerService) (ws : String → World)
    (tw : TwitterService) (posts : List ScheduledPost) : HandlerRun :=
  match processScheduledPosts ws tw posts with
  | (.ok _, fx) => ⟨.ok (), self, fx⟩
  | (.error _, fx) => ⟨.ok (), self, fx⟩

/-- `_cleanOldTestItems`, `_archiveOldInteractions` and `_optimizeDatabase`
(lines 119-132): each only writes a log line. -/
def _cleanOldTestItems : Except String Unit := .ok ()

/-- See `_cleanOldTestItems`. -/
def _archiveOldInteractions : Except String Unit := .ok ()

/-- See `_cleanOldTestItems`. -/
def _optimizeDatabase : Except String Unit := .ok ()

/-- The handler of `_scheduleCleanup` (lines 94-112). -/
def cleanupHandler (self : SchedulerService) : HandlerRun :=
  let body : Except String Unit := do
    _cleanOldTestItems
    _archiveOldInteractions
    _optimizeDatabase
  match body with
  | .ok _ => ⟨.ok (), self, []⟩
  | .error _ => ⟨.ok (), self, []⟩

/-- The callback given to `setTimeout` by `scheduleSpecificPost`
(lines 178-184). -/
def specificPostHandler (self : SchedulerService) (w : World) (tw : TwitterService)
    (content : String) : HandlerRun :=
  match TweetController.postTweet w tw content none none with
  | (.ok _, fx) => ⟨.ok (), self, fx⟩
  | (.error _, fx) => ⟨.ok (), self, fx⟩

/-! ## Sequences of calls on the scheduler -/

/-- A call on the public interface of `SchedulerService`; `start` reads
`config.bot.tweetsPerDay`.  For the two calls that reach `cron.schedule` with
an expression that is not a constant, `accepted` is the verdict of the library
on that expression. -/
inductive SchedulerOp where
  | start (tweetsPerDay : Int) (accepted : Bool)
  | stop
  | addJob (name : String) (cronExpression : String) (handler : Nat) (accepted : Bool)
  | removeJob (name : String)
  deriving DecidableEq, Repr

/-- The state after one call, whether the call returned or threw. -/
def SchedulerService.step (self : SchedulerService) (op : SchedulerOp) : SchedulerService :=
  match op with
  | .start tweetsPerDay accepted => (start self tweetsPerDay accepted).2
  | .stop => stop self
  | .addJob name cronExpression handler accepted =>
    (addJob self name cronExpression handler accepted).2
  | .removeJob name => removeJob self name

/-- The state reached from the freshly constructed service by the calls, in
order. -/
def SchedulerService.after (ops : List SchedulerOp) : SchedulerService :=
  ops.foldl SchedulerService.step SchedulerService.new

/-- The jobs created by `cron.schedule` and not stopped since. -/
def activeJobs (self : SchedulerService) : List Nat :=
  (List.range self.tasks.length).filter (isRunning self.tasks)

/-- Whether the registry holds the job under some name. -/
def isRegistered (self : SchedulerService) (job : Nat) : Bool :=
  self.jobs.any (fun entry => entry.2 == job)

/-- Every active job is held in the registry. -/
def allActiveRegistered (self : SchedulerService) : Bool :=
  (activeJobs self).all (isRegistered self)

/-! ## The tables behind `saveTweet` and `getScheduledTweets` -/

/-- A stored post: the columns `getScheduledTweets` filters on, and the
content. -/
structure DbRow where
  content : String
  status : Option String
  scheduled_time : Option Int
  deriving DecidableEq, Repr

/-- The two tables named in supabase.service.js for posts: `tweets`
(line 226) and `scheduled_posts` (line 169). -/
structure Database where
  tweets : List DbRow
  scheduled_posts : List DbRow
  deriving DecidableEq, Repr

/-- The change an effect makes to the two tables: a successful `saveTweet`
inserts its row into `tweets`; the other calls write to other tables
(`conversations`, `interaction_log`, `test_queue`) or to the platform. -/
def Database.apply (db : Database) (e : Effect) : Database :=
  match e with
  | .saveTweet content status scheduled_time _ true =>
    { db with tweets := db.tweets ++ [{ content := content, status := status,
                                        scheduled_time := scheduled_time }] }
  | _ => db

/-- The tables after the effects of a run, in order. -/
def Database.after (db : Database) (trace : List Effect) : Database :=
  trace.foldl Database.apply db

/-- Whether `scheduled_time <= now`; a `null` column matches no comparison. -/
def isDue (now : Int) (row : DbRow) : Bool :=
  match row.scheduled_time with
  | some t => decide (t ≤ now)
  | none => false

/-- Insertion of a row into a list ordered by `scheduled_time`, after the rows
that are not later. -/
def insertByTime (row : DbRow) : List DbRow → List DbRow
  | [] => [row]
  | r :: rest =>
    if (row.scheduled_time.getD 0) < (r.scheduled_time.getD 0) then row :: r :: rest
    else r :: insertByTime row rest

/-- The clause `.order('scheduled_time', { ascending: true })`. -/
def orderByTime (rows : List DbRow) : List DbRow :=
  rows.foldl (fun acc row => insertByTime row acc) []

/-- `SupabaseService.getScheduledTweets` (lines 166-181): the rows of
`scheduled_posts` with `status = 'pending'` and `scheduled_time <= now`,
ordered by `scheduled_time`; `[]` when the query fails. -/
def getScheduledTweets (db : Database) (now : Int) (queryOk : Bool) : List DbRow :=
  if queryOk then
    orderByTime (db.scheduled_posts.filter (fun row =>
      row.status == some "pending" && isDue now row))
  else
    []

/-- The empty tables. -/
def Database.empty : Database :=
  { tweets := [], scheduled_posts := [] }

/-! ## The reply prompt -/

/-- An entry of `conversationContext` as `_getConversationSection` reads it; a
field the entry does not have is `undefined`. -/
structure ContextTweet where
  author_username : Option String
  text : Option String
  deriving DecidableEq, Repr

/-- A value inside a template literal: `undefined` is written out. -/
def templateValue (v : Option String) : String :=
  match v with
  | some s => s
  | none => "undefined"

/-- `conversationContext.slice(-2)`. -/
def lastTwo (context : List ContextTweet) : List ContextTweet :=
  context.drop (context.length - 2)

/-- `AIService._getConversationSection` (lines 573-580). -/
def _getConversationSection (conversationContext : List ContextTweet) : String :=
  if conversationContext.length == 0 then
    ""
  else
    "Recent context:\n" ++ "\n".intercalate ((lastTwo conversationContext).map (fun t =>
      "@" ++ templateValue t.author_username ++ ": \"" ++ templateValue t.text ++ "\""))

/-- The body of `AIService._buildReplyPrompt` (lines 518-539): the string the
returned `Promise` resolves to.  `personalitySection` is the result of
`_getPersonalitySection()`. -/
def _buildReplyPrompt (personalitySection : String) (tweet : Mention)
    (conversationContext : List ContextTweet) : String :=
  "You are replying as 0xBrenn. Be helpful, genuine, and conversational.\n\n" ++
  personalitySection ++
  "\n\nOriginal tweet from @" ++ tweet.author_username ++ ":\n\"" ++ tweet.text ++ "\"\n\n" ++
  _getConversationSection conversationContext ++
  "\n\nReply naturally:\n- Add value or humor\n- Be supportive and genuine\n" ++
  "- Match the conversation energy\n- Keep it under 280 chars\n- Sound like a real person\n\n" ++
  "Write your reply:"

/-- The personality section when no personality configuration is loaded
(line 543). -/
def defaultPersonalitySection : String :=
  "You\x27re 0xBrenn: builder, coffee lover, curious about everything tech"

/-- A run of the generator for a reply to `tweet`: the prompt is the one
`_buildReplyPrompt` builds for it, and the generation service answers with
`first`. -/
def replyAiWorld (tweet : Mention) (conversationContext : List ContextTweet)
    (first : String) : AiWorld :=
  { sampleAiWorld first "" with
    replyPrompt := _buildReplyPrompt defaultPersonalitySection tweet conversationContext }

/-! ## Sample inputs for the processing of due posts -/

/-- The worlds of a batch of two due posts: publishing `p1` fails on the
platform, publishing `p2` would succeed. -/
def failingFirst (id : String) : World :=
  if id = "p1" then { sampleWorld true with tweet := .error "platform down" }
  else sampleWorld true

/-- The outcomes of a run in which the platform reports 3 calls remaining. -/
def lowRateWorld : World :=
  { sampleWorld true with rateLimitInfo := .ok (some { remaining := some 3 }) }

/-! ## The registry invariant -/

/-- The state after an accepted `cron.schedule` followed by `jobs.set` under
`name`. -/
def registered (self : SchedulerService) (name expression : String) (handler : Nat) :
    SchedulerService :=
  { self with
    jobs := mapSet self.jobs name self.tasks.length
    tasks := self.tasks ++ [{ expression := expression, handler := handler, running := true }]
    calls := self.calls ++ [CronCall.schedule self.tasks.length expression] }

/-- The names under which `start()` registers its four jobs. -/
def builtinJobNames : List String :=
  ["tweetGeneration", "mentionChecking", "postProcessing", "cleanup"]

/-- Every running task has an entry in the registry. -/
def SchedulerService.Tracked (self : SchedulerService) : Prop :=
  ∀ ref, isRunning self.tasks ref = true → ∃ e ∈ self.jobs, e.2 = ref

/-- Whether the call is not a `start()` on a registry that already holds one
of the four built-in names. -/
def SchedulerOp.onFreshNames (self : SchedulerService) (op : SchedulerOp) : Bool :=
  match op with
  | .start _ _ => builtinJobNames.all (fun name => !mapHas self.jobs name)
  | _ => true

/-- The state after the calls, in order, from `self`. -/
def SchedulerService.run (self : SchedulerService) (ops : List SchedulerOp) : SchedulerService :=
  ops.foldl SchedulerService.step self

/-- Whether every `start()` of the sequence, run from `self`, meets a registry
holding none of the four built-in names. -/
def startsOnFreshNames (self : SchedulerService) : List SchedulerOp → Bool
  | [] => true
  | op :: rest => op.onFreshNames self && startsOnFreshNames (self.step op) rest

/-! ## Theorems: reply limiter -/

/-- C1: inside an unexpired window (`now - lastReplyReset` below one hour), a
count at or above the ceiling makes `_checkReplyRateLimit` return `false` and
leaves `replyCount` and `lastReplyReset` as they were. -/
theorem checkReplyRateLimit_blocks_at_ceiling (self : ResponseController) (now ceiling : Int)
    (hwindow : now - self.lastReplyReset < msPerHour)
    (hcount : ceiling ≤ (self.replyCount : Int)) :
    _checkReplyRateLimit self now ceiling = (false, self) := by
  have hno : ¬ msPerHour ≤ now - self.lastReplyReset := not_le.mpr hwindow
  simp only [_checkReplyRateLimit, if_neg hno]
  have hlt : ¬ (self.replyCount : Int) < ceiling := not_lt.mpr hcount
  simp [hlt]

/-- Witness for C1: five replies against a ceiling of five, one second into the window. -/
theorem checkReplyRateLimit_blocks_at_ceiling_witness :
    _checkReplyRateLimit ⟨5, 0⟩ 1000 5 = (false, ⟨5, 0⟩) :=
  checkReplyRateLimit_blocks_at_ceiling ⟨5, 0⟩ 1000 5 (by decide) (by decide)

/-- C2: `_checkReplyRateLimit` resets the window (count 0, window start `now`)
when the window is at least one hour old, and only then (a younger window
leaves the controller untouched); after a reset the result is `true` for every
ceiling of at least 1, whatever the count was before. -/
theorem checkReplyRateLimit_reset_iff (self : ResponseController) (now ceiling : Int) :
    (msPerHour ≤ now - self.lastReplyReset →
      (_checkReplyRateLimit self now ceiling).2 = { replyCount := 0, lastReplyReset := now } ∧
      (1 ≤ ceiling → (_checkReplyRateLimit self now ceiling).1 = true)) ∧
    (now - self.lastReplyReset < msPerHour →
      (_checkReplyRateLimit self now ceiling).2 = self) := by
  constructor
  · intro hexp
    simp only [_checkReplyRateLimit, if_pos hexp]
    refine ⟨trivial, fun hc => ?_⟩
    have : (0 : Int) < ceiling := by omega
    simpa using this
  · intro hwin
    have hno : ¬ msPerHour ≤ now - self.lastReplyReset := not_le.mpr hwin
    simp only [_checkReplyRateLimit, if_neg hno]

/-- Witness for C2: a window exactly one hour old is reset although the count
(9) was above the ceiling (5); a window one millisecond younger is not. -/
theorem checkReplyRateLimit_reset_iff_witness :
    _checkReplyRateLimit ⟨9, 0⟩ 3600000 5 = (true, ⟨0, 3600000⟩) ∧
    (_checkReplyRateLimit ⟨9, 0⟩ 3599999 5).2 = ⟨9, 0⟩ := by
  have h1 := (checkReplyRateLimit_reset_iff ⟨9, 0⟩ 3600000 5).1 (by decide)
  have h2 := (checkReplyRateLimit_reset_iff ⟨9, 0⟩ 3599999 5).2 (by decide)
  exact ⟨Prod.ext (h1.2 (by decide)) h1.1, h2⟩

/-! ## Theorems: reply pipeline -/

/-- C3 (evaluation at the failing input): with `replyCount = 5` against a
ceiling of 5, one second into the window, `_checkReplyRateLimit` answers
`false`, yet `_processMention` publishes the reply (auto-posting on) or
enqueues it (auto-posting off) and raises the count to 6: the pipeline never
consults the limiter. -/
theorem processMention_ignores_reply_ceiling :
    (_checkReplyRateLimit ⟨5, 0⟩ 1000 5).1 = false ∧
    (_processMention (sampleWorld true) ⟨5, 0⟩ (TwitterService.new true) sampleMention).trace =
      [Effect.tweet "thanks!" (some "m1") none true,
       Effect.saveConversation none "t1" (some "m1") "thanks!" true,
       Effect.logInteraction "reply_posted" "t1" (some "m1") none true] ∧
    (_processMention (sampleWorld true) ⟨5, 0⟩ (TwitterService.new true) sampleMention).ctrl =
      ⟨6, 0⟩ ∧
    (_processMention (sampleWorld false) ⟨5, 0⟩ (TwitterService.new false) sampleMention).trace =
      [Effect.saveToTestQueue "thanks!" (some "reply") (some "m1") true] ∧
    (_processMention (sampleWorld false) ⟨5, 0⟩ (TwitterService.new false) sampleMention).ctrl =
      ⟨6, 0⟩ := by
  decide


/-- `getUserId` does not touch `isTestMode`. -/
theorem getUserId_isTestMode (tw : TwitterService) (me : Except String String) :
    (tw.getUserId me).2.isTestMode = tw.isTestMode := by
  unfold TwitterService.getUserId
  split
  · rfl
  · split <;> rfl

/-- Outside test mode a successful `postTweet` made a successful platform call. -/
theorem postTweet_ok_publishes (w : World) (tw : TwitterService) (content : String)
    (replyToId : Option String) (mediaIds : Option (List String))
    (htest : tw.isTestMode = false) (id : String) (fx : List Effect)
    (h : tw.postTweet w content replyToId mediaIds = (.ok id, fx)) :
    fx.any Effect.isPublish = true := by
  unfold TwitterService.postTweet at h
  simp only [htest] at h
  cases hw : w.tweet with
  | error e => simp [hw] at h
  | ok tid =>
    simp only [hw] at h
    simp only [Bool.false_eq_true, if_false, Prod.mk.injEq] at h
    obtain ⟨-, rfl⟩ := h
    simp [Effect.isPublish]

/-- Outside test mode a failing platform call makes `postTweet` throw. -/
theorem postTweet_error_of_tweet_error (w : World) (tw : TwitterService) (content : String)
    (replyToId : Option String) (mediaIds : Option (List String))
    (htest : tw.isTestMode = false) (e : String) (hw : w.tweet = .error e) :
    (tw.postTweet w content replyToId mediaIds).1 = .error e := by
  unfold TwitterService.postTweet
  simp [htest, hw]

/-- A `_postReply` that returns has published. -/
theorem postReply_ok_publishes (w : World) (tw : TwitterService) (m : Mention) (reply : Reply)
    (htest : tw.isTestMode = false) (id : String) (tw2 : TwitterService) (fx : List Effect)
    (h : _postReply w tw m reply = (.ok id, tw2, fx)) :
    fx.any Effect.isPublish = true := by
  unfold _postReply at h
  split at h
  · simp at h
  · rename_i id0 fx0 hpost
    have hpub := postTweet_ok_publishes w tw _ _ _ htest id0 fx0 hpost
    split at h
    · simp at h
    · split at h
      · simp at h
      · simp only [Prod.mk.injEq] at h
        obtain ⟨-, -, rfl⟩ := h
        simp only [List.any_append, hpub, Bool.true_or]

/-- A failing platform call makes `_postReply` throw. -/
theorem postReply_error_of_tweet_error (w : World) (tw : TwitterService) (m : Mention)
    (reply : Reply) (htest : tw.isTestMode = false) (e : String) (hw : w.tweet = .error e) :
    (_postReply w tw m reply).1 = .error e := by
  have h := postTweet_error_of_tweet_error w tw reply.content (some m.id) none htest e hw
  unfold _postReply
  split
  · rename_i heq
    rw [heq] at h
    simpa using h
  · rename_i heq
    rw [heq] at h
    simp at h

/-- An `_addReplyToTestQueue` that returns has inserted into the test queue. -/
theorem addReplyToTestQueue_ok_enqueues (w : World) (m : Mention) (reply : Reply)
    (u : Unit) (fx : List Effect) (h : _addReplyToTestQueue w m reply = (.ok u, fx)) :
    fx.any Effect.isEnqueue = true := by
  unfold _addReplyToTestQueue saveToTestQueue at h
  split at h
  · simp only [Prod.mk.injEq] at h
    obtain ⟨-, rfl⟩ := h
    simp [Effect.isEnqueue]
  · simp at h

/-- C4: the limiter check never raises `replyCount` (afterwards it is the old
value or 0).  `_processMention` leaves the controller as it was or adds exactly
1 to `replyCount`; it adds 1 only when it returned normally after a successful
publish or a successful enqueue; the controller is unchanged on the early exits
(own tweet, existing reply, `should_reply` false, filter unsafe), when the
platform call or the queue insert fails, and whenever `_processMention`
throws. -/
theorem replyCount_only_after_success (w : World) (self : ResponseController)
    (tw : TwitterService) (m : Mention) (now ceiling : Int)
    (hmode : tw.isTestMode = (w.enableAutoPosting == false)) :
    ((_checkReplyRateLimit self now ceiling).2.replyCount = self.replyCount ∨
      (_checkReplyRateLimit self now ceiling).2.replyCount = 0) ∧
    (_checkReplyRateLimit self now ceiling).2.replyCount ≤ self.replyCount ∧
    ((_processMention w self tw m).ctrl = self ∨
      (_processMention w self tw m).ctrl = { self with replyCount := self.replyCount + 1 }) ∧
    ((_processMention w self tw m).ctrl.replyCount = self.replyCount + 1 →
      (_processMention w self tw m).result = .ok () ∧
      ((_processMention w self tw m).trace.any Effect.isPublish = true ∨
        (_processMention w self tw m).trace.any Effect.isEnqueue = true)) ∧
    (∀ uid, (tw.getUserId w.me).1 = .ok uid → m.author_id = some uid →
      (_processMention w self tw m).ctrl = self) ∧
    (_checkExistingReply w m.id = true → (_processMention w self tw m).ctrl = self) ∧
    (∀ d, w.shouldReply = .ok d → d.should_reply = false →
      (_processMention w self tw m).ctrl = self) ∧
    (∀ reply f, w.generateReply = .ok reply → w.checkContent reply.content = .ok f →
      f.safe = false → (_processMention w self tw m).ctrl = self) ∧
    (∀ e, w.enableAutoPosting = true → w.tweet = .error e →
      (_processMention w self tw m).ctrl = self) ∧
    (w.enableAutoPosting = false → w.saveToTestQueueOk = false →
      (_processMention w self tw m).ctrl = self) ∧
    (∀ e, (_processMention w self tw m).result = .error e →
      (_processMention w self tw m).ctrl = self) := by
  have htm : ∀ a tw1, tw.getUserId w.me = (Except.ok a, tw1) → tw1.isTestMode = tw.isTestMode := by
    intro a tw1 h
    have := getUserId_isTestMode tw w.me
    rw [h] at this
    exact this
  refine ⟨?_, ?_, ?_, ?_, ?_, ?_, ?_, ?_, ?_, ?_, ?_⟩
  · unfold _checkReplyRateLimit; dsimp only; split <;> simp
  · unfold _checkReplyRateLimit; dsimp only; split <;> simp
  · unfold _processMention
    repeat' split
    all_goals simp
  · unfold _processMention
    repeat' split
    all_goals simp only [Nat.self_eq_add_right, one_ne_zero, false_implies, true_and, forall_const]
    · have h1 := htm _ _ ‹tw.getUserId w.me = _›
      have h2 : w.enableAutoPosting = true := by assumption
      rw [hmode, h2] at h1
      have := postReply_ok_publishes w _ m _ h1 _ _ _ ‹_postReply w _ m _ = _›
      simp only [List.any_append, this, Bool.or_true, true_or]
    · have := addReplyToTestQueue_ok_enqueues w m _ _ _ ‹_addReplyToTestQueue w m _ = _›
      simp only [List.any_append, this, Bool.or_true, or_true]
  · intro uid h1 h2
    unfold _processMention
    repeat' split
    all_goals simp_all
  · intro h1
    unfold _processMention
    repeat' split
    all_goals simp_all
  · intro d h1 h2
    unfold _processMention
    repeat' split
    all_goals simp_all
  · intro reply f h1 h2 h3
    unfold _processMention
    repeat' split
    all_goals simp_all
  · intro e h1 h2
    unfold _processMention
    repeat' split
    all_goals first
      | rfl
      | (exfalso
         have h3 := htm _ _ ‹tw.getUserId w.me = _›
         rw [hmode, h1] at h3
         have h4 := postReply_error_of_tweet_error w _ m ‹Reply› h3 e h2
         simp_all)
  · intro h1 h2
    unfold _processMention
    repeat' split
    all_goals first
      | rfl
      | (exfalso
         simp_all [_addReplyToTestQueue, saveToTestQueue])
  · intro e
    unfold _processMention
    repeat' split
    all_goals simp

/-- Witness for C4: in the all-success run with auto-posting on, starting from a
count of 5, the count becomes 6 and the run returned after a successful publish. -/
theorem replyCount_only_after_success_witness :
    (TwitterService.new true).isTestMode = ((sampleWorld true).enableAutoPosting == false) ∧
    (_processMention (sampleWorld true) ⟨5, 0⟩ (TwitterService.new true) sampleMention).result
      = .ok () ∧
    ((_processMention (sampleWorld true) ⟨5, 0⟩ (TwitterService.new true)
        sampleMention).trace.any Effect.isPublish = true ∨
      (_processMention (sampleWorld true) ⟨5, 0⟩ (TwitterService.new true)
        sampleMention).trace.any Effect.isEnqueue = true) :=
  ⟨by decide,
   (replyCount_only_after_success (sampleWorld true) ⟨5, 0⟩ (TwitterService.new true)
      sampleMention 1000 5 (by decide)).2.2.2.1 (by decide)⟩


/-! ## Theorems: job registry -/

/-- Looking up a key finds an entry of the list. -/
theorem mem_of_mapGet (m : List (String × Nat)) (name : String) (v : Nat)
    (h : mapGet m name = some v) : (name, v) ∈ m := by
  induction m with
  | nil => simp [mapGet] at h
  | cons e rest ih =>
    obtain ⟨k, w⟩ := e
    unfold mapGet at h
    split at h
    · rename_i hk
      simp only [Option.some.injEq] at h
      subst hk; subst h
      exact List.mem_cons_self _ _
    · exact List.mem_cons_of_mem _ (ih h)

/-- A key that is not in the list is not found. -/
theorem mapGet_eq_none (m : List (String × Nat)) (name : String)
    (h : ∀ e ∈ m, e.1 ≠ name) : mapGet m name = none := by
  induction m with
  | nil => rfl
  | cons e rest ih =>
    obtain ⟨k, w⟩ := e
    unfold mapGet
    have hk : k ≠ name := h (k, w) (List.mem_cons_self _ _)
    rw [if_neg hk]
    exact ih fun e he => h e (List.mem_cons_of_mem _ he)

/-- With distinct keys, `delete` removes exactly the entries under the key. -/
theorem mapDelete_eq_filter (m : List (String × Nat)) (name : String)
    (hnodup : (m.map Prod.fst).Nodup) :
    mapDelete m name = m.filter (fun e => e.1 != name) := by
  induction m with
  | nil => rfl
  | cons e rest ih =>
    obtain ⟨k, w⟩ := e
    simp only [List.map_cons, List.nodup_cons] at hnodup
    unfold mapDelete
    by_cases hk : k = name
    · subst hk
      simp only [if_true, List.filter_cons, bne_self_eq_false, Bool.false_eq_true, if_false]
      symm
      rw [List.filter_eq_self]
      intro e he
      have : e.1 ≠ k := fun heq => hnodup.1 (heq ▸ List.mem_map_of_mem Prod.fst he)
      simpa using this
    · have hb : ((k, w).1 != name) = true := by simpa using hk
      rw [if_neg hk, List.filter_cons, if_pos hb, ih hnodup.2]

/-- Setting a key that is not in the map appends the entry. -/
theorem mapSet_eq_append (m : List (String × Nat)) (name : String) (v : Nat)
    (h : ∀ e ∈ m, e.1 ≠ name) : mapSet m name v = m ++ [(name, v)] := by
  induction m with
  | nil => rfl
  | cons e rest ih =>
    obtain ⟨k, w⟩ := e
    unfold mapSet
    have hk : k ≠ name := h (k, w) (List.mem_cons_self _ _)
    rw [if_neg hk, ih fun e he => h e (List.mem_cons_of_mem _ he)]
    rfl

/-- Lookup after appending an entry under another key. -/
theorem mapGet_append_ne (m : List (String × Nat)) (name other : String) (v : Nat)
    (h : other ≠ name) : mapGet (m ++ [(name, v)]) other = mapGet m other := by
  induction m with
  | nil => simp [mapGet, h.symm]
  | cons e rest ih =>
    obtain ⟨k, w⟩ := e
    rw [List.cons_append]
    unfold mapGet
    rw [ih]

/-- Lookup after appending an entry under a key that was absent. -/
theorem mapGet_append_self (m : List (String × Nat)) (name : String) (v : Nat)
    (h : ∀ e ∈ m, e.1 ≠ name) : mapGet (m ++ [(name, v)]) name = some v := by
  induction m with
  | nil => simp [mapGet]
  | cons e rest ih =>
    obtain ⟨k, w⟩ := e
    have hk : k ≠ name := h (k, w) (List.mem_cons_self _ _)
    simp only [List.cons_append, mapGet, if_neg hk]
    exact ih fun e he => h e (List.mem_cons_of_mem _ he)

/-- Lookup of another key is not affected by filtering a key out. -/
theorem mapGet_filter_ne (m : List (String × Nat)) (name other : String) (h : other ≠ name) :
    mapGet (m.filter (fun e => e.1 != name)) other = mapGet m other := by
  induction m with
  | nil => rfl
  | cons e rest ih =>
    obtain ⟨k, w⟩ := e
    by_cases hk : k = name
    · subst hk
      have hb : ((k, w).1 != k) = false := by simp
      rw [List.filter_cons, hb]
      simp only [Bool.false_eq_true, if_false, mapGet, ih]
      rw [if_neg (fun heq => h heq.symm)]
    · have hb : ((k, w).1 != name) = true := by simpa using hk
      rw [List.filter_cons, if_pos hb]
      simp only [mapGet, ih]

/-- Stopping a task keeps the size of the task store. -/
theorem length_stopTask (tasks : List CronTask) (ref : Nat) :
    (stopTask tasks ref).length = tasks.length := by
  induction tasks generalizing ref with
  | nil => rfl
  | cons t ts ih =>
    cases ref with
    | zero => rfl
    | succ r => simp [stopTask, ih]

/-- A stopped task is not running. -/
theorem isRunning_stopTask_self (tasks : List CronTask) (ref : Nat) :
    isRunning (stopTask tasks ref) ref = false := by
  induction tasks generalizing ref with
  | nil => rfl
  | cons t ts ih =>
    cases ref with
    | zero => simp [stopTask, isRunning]
    | succ r =>
      have := ih r
      simpa [stopTask, isRunning] using this

/-- Stopping a task leaves every other task as it was. -/
theorem getElem?_stopTask_ne (tasks : List CronTask) (ref other : Nat) (h : other ≠ ref) :
    (stopTask tasks ref)[other]? = tasks[other]? := by
  induction tasks generalizing ref other with
  | nil => rfl
  | cons t ts ih =>
    cases ref with
    | zero =>
      cases other with
      | zero => exact absurd rfl h
      | succ o => rfl
    | succ r =>
      cases other with
      | zero => simp [stopTask]
      | succ o =>
        have := ih r o (fun heq => h (by rw [heq]))
        simpa [stopTask] using this

/-- The loop of `stop` issues one `stop` call per entry, in order. -/
theorem calls_stopAll (self : SchedulerService) (entries : List (String × Nat)) :
    (stopAll self entries).calls = self.calls ++ entries.map (fun e => CronCall.stop e.2) := by
  induction entries generalizing self with
  | nil => simp [stopAll]
  | cons e rest ih =>
    obtain ⟨k, job⟩ := e
    simp [stopAll, ih, jobStop]

/-- The loop of `stop` does not touch the registry. -/
theorem jobs_stopAll (self : SchedulerService) (entries : List (String × Nat)) :
    (stopAll self entries).jobs = self.jobs := by
  induction entries generalizing self with
  | nil => rfl
  | cons e rest ih =>
    obtain ⟨k, job⟩ := e
    simp [stopAll, ih, jobStop]

/-- The loop of `stop` never starts a task. -/
theorem isRunning_stopAll_of_not (self : SchedulerService) (entries : List (String × Nat))
    (ref : Nat) (h : isRunning self.tasks ref = false) :
    isRunning (stopAll self entries).tasks ref = false := by
  induction entries generalizing self with
  | nil => exact h
  | cons e rest ih =>
    obtain ⟨k, job⟩ := e
    apply ih
    by_cases hr : ref = job
    · subst hr; exact isRunning_stopTask_self _ _
    · simp only [jobStop, isRunning, getElem?_stopTask_ne _ _ _ hr]
      exact h

/-- After the loop of `stop`, every task of the entries is stopped. -/
theorem isRunning_stopAll_mem (self : SchedulerService) (entries : List (String × Nat))
    (e : String × Nat) (he : e ∈ entries) :
    isRunning (stopAll self entries).tasks e.2 = false := by
  induction entries generalizing self with
  | nil => simp at he
  | cons e0 rest ih =>
    obtain ⟨k, job⟩ := e0
    rcases List.mem_cons.mp he with h | h
    · subst h
      show isRunning (stopAll (jobStop self job) rest).tasks job = false
      exact isRunning_stopAll_of_not _ _ _ (isRunning_stopTask_self _ _)
    · exact ih _ h

/-- The loop of `stop` leaves every task outside the entries as it was. -/
theorem getElem?_stopAll_of_not_mem (self : SchedulerService) (entries : List (String × Nat))
    (ref : Nat) (h : ∀ e ∈ entries, e.2 ≠ ref) :
    (stopAll self entries).tasks[ref]? = self.tasks[ref]? := by
  induction entries generalizing self with
  | nil => rfl
  | cons e rest ih =>
    obtain ⟨k, job⟩ := e
    have hne : ref ≠ job := fun heq => h (k, job) (List.mem_cons_self _ _) heq.symm
    rw [stopAll, ih _ fun e he => h e (List.mem_cons_of_mem _ he)]
    exact getElem?_stopTask_ne _ _ _ hne

/-- In a well-formed registry, entries under different names hold different tasks. -/
theorem ref_ne_of_name_ne (self : SchedulerService) (hwf : self.WF) (name other : String)
    (job ref : Nat) (h1 : mapGet self.jobs name = some job)
    (h2 : mapGet self.jobs other = some ref) (hne : other ≠ name) : ref ≠ job := by
  intro heq
  have m1 := mem_of_mapGet _ _ _ h1
  have m2 := mem_of_mapGet _ _ _ h2
  have := List.inj_on_of_nodup_map hwf.2.2 m2 m1 heq
  exact hne (congrArg Prod.fst this)

/-- What `removeJob` does when a job is registered under the name. -/
theorem removeJob_of_some (self : SchedulerService) (name : String) (job : Nat)
    (h : mapGet self.jobs name = some job) :
    removeJob self name =
      { self with
        jobs := mapDelete self.jobs name
        tasks := stopTask self.tasks job
        calls := self.calls ++ [CronCall.stop job] } := by
  simp [removeJob, h, jobStop]

/-- C7: `removeJob(name)` stops the job registered under `name` (one `stop`
call, the task no longer runs) and deletes its entry; with no job under `name`
it returns the state as it was; in both cases every entry under another name is
still there and its task is as it was. -/
theorem removeJob_spec (self : SchedulerService) (name : String) (hwf : self.WF) :
    (∀ job, mapGet self.jobs name = some job →
      (removeJob self name).calls = self.calls ++ [CronCall.stop job] ∧
      isRunning (removeJob self name).tasks job = false ∧
      (removeJob self name).jobs = self.jobs.filter (fun e => e.1 != name) ∧
      mapGet (removeJob self name).jobs name = none) ∧
    (mapGet self.jobs name = none → removeJob self name = self) ∧
    (∀ other, other ≠ name →
      mapGet (removeJob self name).jobs other = mapGet self.jobs other) ∧
    (∀ other ref, other ≠ name → mapGet self.jobs other = some ref →
      (removeJob self name).tasks[ref]? = self.tasks[ref]?) := by
  have hfilter := mapDelete_eq_filter self.jobs name hwf.2.1
  refine ⟨?_, ?_, ?_, ?_⟩
  · intro job hjob
    rw [removeJob_of_some self name job hjob]
    refine ⟨rfl, isRunning_stopTask_self _ _, hfilter, ?_⟩
    show mapGet (mapDelete self.jobs name) name = none
    rw [hfilter]
    apply mapGet_eq_none
    intro e he
    have := (List.mem_filter.mp he).2
    simpa using this
  · intro hnone
    simp [removeJob, hnone]
  · intro other hne
    cases hjob : mapGet self.jobs name with
    | none => simp [removeJob, hjob]
    | some job =>
      rw [removeJob_of_some self name job hjob]
      show mapGet (mapDelete self.jobs name) other = mapGet self.jobs other
      rw [hfilter]
      exact mapGet_filter_ne _ _ _ hne
  · intro other ref hne href
    cases hjob : mapGet self.jobs name with
    | none => simp [removeJob, hjob]
    | some job =>
      rw [removeJob_of_some self name job hjob]
      exact getElem?_stopTask_ne _ _ _ (ref_ne_of_name_ne self hwf name other job ref hjob href hne)

/-- The state after `addJob` under a registered name when `cron.schedule`
accepts the expression. -/
theorem addJob_accepted_eq (self : SchedulerService) (name cronExpression : String)
    (handler old : Nat) (hwf : self.WF) (hold : mapGet self.jobs name = some old) :
    addJob self name cronExpression handler true =
      (.ok (),
       { jobs := self.jobs.filter (fun e => e.1 != name) ++ [(name, self.tasks.length)]
         tasks := stopTask self.tasks old ++
           [{ expression := cronExpression, handler := handler, running := true }]
         calls := self.calls ++ [CronCall.stop old] ++
           [CronCall.schedule self.tasks.length cronExpression]
         timers := self.timers }) := by
  have hfilter := mapDelete_eq_filter self.jobs name hwf.2.1
  have habsent : ∀ e ∈ self.jobs.filter (fun e => e.1 != name), e.1 ≠ name := by
    intro e he
    have := (List.mem_filter.mp he).2
    simpa using this
  have hlen : (stopTask self.tasks old).length = self.tasks.length := length_stopTask _ _
  have hhas : mapHas self.jobs name = true := by simp [mapHas, hold]
  unfold addJob
  simp only [hhas, if_true, removeJob_of_some self name old hold, cronSchedule, hlen, hfilter]
  rw [mapSet_eq_append _ _ _ habsent]

/-- The state after `addJob` under a registered name when `cron.schedule`
rejects the expression: the removal is done, nothing is created. -/
theorem addJob_rejected_eq (self : SchedulerService) (name cronExpression : String)
    (handler old : Nat) (hwf : self.WF) (hold : mapGet self.jobs name = some old) :
    addJob self name cronExpression handler false =
      (.error "cron.schedule: invalid expression",
       { jobs := self.jobs.filter (fun e => e.1 != name)
         tasks := stopTask self.tasks old
         calls := self.calls ++ [CronCall.stop old]
         timers := self.timers }) := by
  have hfilter := mapDelete_eq_filter self.jobs name hwf.2.1
  have hhas : mapHas self.jobs name = true := by simp [mapHas, hold]
  unfold addJob
  simp [hhas, removeJob_of_some self name old hold, cronSchedule, hfilter]

/-- A rejected tweet-generation expression makes `start()` throw at its first
job: nothing is scheduled or registered. -/
theorem start_rejected (self : SchedulerService) (tweetsPerDay : Int) :
    start self tweetsPerDay false = (.error "cron.schedule: invalid expression", self) := rfl

/-- C5 (counterexample): on the started scheduler, `addJob('cleanup', 'not a
cron', h)` stops and removes the registered cleanup job (task 3) and then
throws out of `cron.schedule`, which rejects the expression: afterwards no job
is registered under `cleanup` and no job of that name is active, where the
claim says exactly one is. -/
theorem addJob_invalid_expression_leaves_no_job :
    mapGet sampleScheduler.jobs "cleanup" = some 3 ∧
    (addJob sampleScheduler "cleanup" "not a cron" 7 false).1 =
      .error "cron.schedule: invalid expression" ∧
    mapGet (addJob sampleScheduler "cleanup" "not a cron" 7 false).2.jobs "cleanup" = none ∧
    (addJob sampleScheduler "cleanup" "not a cron" 7 false).2.jobs =
      [("tweetGeneration", 0), ("mentionChecking", 1), ("postProcessing", 2)] ∧
    isRunning (addJob sampleScheduler "cleanup" "not a cron" 7 false).2.tasks 3 = false ∧
    activeJobs (addJob sampleScheduler "cleanup" "not a cron" 7 false).2 = [0, 1, 2] := by
  decide

/-- C5 (amended): for a name already registered (under task `old`).  When
`cron.schedule` accepts the expression, `addJob` returns, having first stopped
the old job and then created the new one; afterwards the registry holds, under
`name`, the new job and nothing else, the new task runs and the old one does
not.  When `cron.schedule` rejects the expression, `addJob` throws after the old
job was stopped and removed: no task is created and the registry holds nothing
under `name`.  In both cases the entries under every other name and their tasks
are as before. -/
theorem addJob_replaces (self : SchedulerService) (name cronExpression : String)
    (handler old : Nat) (hwf : self.WF) (hold : mapGet self.jobs name = some old) :
    ((addJob self name cronExpression handler true).1 = .ok () ∧
     (addJob self name cronExpression handler true).2.calls =
       self.calls ++ [CronCall.stop old, CronCall.schedule self.tasks.length cronExpression] ∧
     (addJob self name cronExpression handler true).2.jobs =
       self.jobs.filter (fun e => e.1 != name) ++ [(name, self.tasks.length)] ∧
     mapGet (addJob self name cronExpression handler true).2.jobs name =
       some self.tasks.length ∧
     (addJob self name cronExpression handler true).2.jobs.filter (fun e => e.1 == name) =
       [(name, self.tasks.length)] ∧
     old ≠ self.tasks.length ∧
     isRunning (addJob self name cronExpression handler true).2.tasks old = false ∧
     (addJob self name cronExpression handler true).2.tasks[self.tasks.length]? =
       some { expression := cronExpression, handler := handler, running := true } ∧
     (∀ other, other ≠ name →
       mapGet (addJob self name cronExpression handler true).2.jobs other =
         mapGet self.jobs other) ∧
     (∀ other ref, other ≠ name → mapGet self.jobs other = some ref →
       (addJob self name cronExpression handler true).2.tasks[ref]? = self.tasks[ref]?)) ∧
    ((∃ e, (addJob self name cronExpression handler false).1 = .error e) ∧
     (addJob self name cronExpression handler false).2.calls =
       self.calls ++ [CronCall.stop old] ∧
     (addJob self name cronExpression handler false).2.jobs =
       self.jobs.filter (fun e => e.1 != name) ∧
     mapGet (addJob self name cronExpression handler false).2.jobs name = none ∧
     isRunning (addJob self name cronExpression handler false).2.tasks old = false ∧
     (addJob self name cronExpression handler false).2.tasks.length = self.tasks.length ∧
     (∀ other, other ≠ name →
       mapGet (addJob self name cronExpression handler false).2.jobs other =
         mapGet self.jobs other) ∧
     (∀ other ref, other ≠ name → mapGet self.jobs other = some ref →
       (addJob self name cronExpression handler false).2.tasks[ref]? = self.tasks[ref]?)) := by
  have hold_lt : old < self.tasks.length := hwf.1 _ (mem_of_mapGet _ _ _ hold)
  have habsent : ∀ e ∈ self.jobs.filter (fun e => e.1 != name), e.1 ≠ name := by
    intro e he
    have := (List.mem_filter.mp he).2
    simpa using this
  have hlen : (stopTask self.tasks old).length = self.tasks.length := length_stopTask _ _
  constructor
  · rw [addJob_accepted_eq self name cronExpression handler old hwf hold]
    refine ⟨rfl, by simp, rfl, mapGet_append_self _ _ _ habsent, ?_, Nat.ne_of_lt hold_lt,
      ?_, ?_, ?_, ?_⟩
    · show List.filter _ (self.jobs.filter (fun e => e.1 != name) ++ [(name, self.tasks.length)])
        = _
      rw [List.filter_append, List.filter_filter]
      have : List.filter (fun a => (a.1 == name && a.1 != name)) self.jobs = [] := by
        rw [List.filter_eq_nil_iff]
        intro a _
        by_cases h : a.1 = name <;> simp [h]
      simp [this]
    · show isRunning (stopTask self.tasks old ++ _) old = false
      have h1 : old < (stopTask self.tasks old).length := by rw [hlen]; exact hold_lt
      have h2 := isRunning_stopTask_self self.tasks old
      unfold isRunning at h2 ⊢
      rw [List.getElem?_append_left h1]
      exact h2
    · show (stopTask self.tasks old ++ _)[self.tasks.length]? = _
      rw [← hlen]
      simp
    · intro other hne
      show mapGet (self.jobs.filter (fun e => e.1 != name) ++ [(name, self.tasks.length)]) other
        = _
      rw [mapGet_append_ne _ _ _ _ hne, mapGet_filter_ne _ _ _ hne]
    · intro other ref hne href
      have href_lt : ref < self.tasks.length := hwf.1 _ (mem_of_mapGet _ _ _ href)
      have hrne := ref_ne_of_name_ne self hwf name other old ref hold href hne
      show (stopTask self.tasks old ++ _)[ref]? = _
      rw [List.getElem?_append_left (by rw [hlen]; exact href_lt)]
      exact getElem?_stopTask_ne _ _ _ hrne
  · rw [addJob_rejected_eq self name cronExpression handler old hwf hold]
    refine ⟨⟨_, rfl⟩, rfl, rfl, mapGet_eq_none _ _ habsent, isRunning_stopTask_self _ _, hlen,
      ?_, ?_⟩
    · intro other hne
      exact mapGet_filter_ne _ _ _ hne
    · intro other ref hne href
      have hrne := ref_ne_of_name_ne self hwf name other old ref hold href hne
      exact getElem?_stopTask_ne _ _ _ hrne

/-- C6: `stop()` issues one `stop` call per registry entry, in registry order,
so each registered job is stopped exactly once and no longer runs; the registry
is empty afterwards; tasks that were not registered are not touched. -/
theorem stop_stops_every_job_once (self : SchedulerService) (hwf : self.WF) :
    (stop self).jobs = [] ∧
    (stop self).calls = self.calls ++ self.jobs.map (fun e => CronCall.stop e.2) ∧
    (∀ e ∈ self.jobs,
      (self.jobs.map (fun e => CronCall.stop e.2)).count (CronCall.stop e.2) = 1 ∧
      isRunning (stop self).tasks e.2 = false) ∧
    (∀ ref, (∀ e ∈ self.jobs, e.2 ≠ ref) → (stop self).tasks[ref]? = self.tasks[ref]?) := by
  refine ⟨rfl, calls_stopAll self self.jobs, ?_, ?_⟩
  · intro e he
    constructor
    · have hmap : self.jobs.map (fun e => CronCall.stop e.2) =
          (self.jobs.map Prod.snd).map CronCall.stop := by
        rw [List.map_map]; rfl
      rw [hmap]
      apply List.count_eq_one_of_mem
      · exact hwf.2.2.map (fun a b h => by injection h)
      · exact List.mem_map_of_mem _ (List.mem_map_of_mem _ he)
    · exact isRunning_stopAll_mem self self.jobs e he
  · intro ref h
    exact getElem?_stopAll_of_not_mem self self.jobs ref h

/-- C8: `scheduleSpecificPost` with a time at or before `now` returns `false`
and registers no timer; with a later time it returns `true` and registers
exactly one timer, whose delay `date - now` is positive.  The function has no
failing path. -/
theorem scheduleSpecificPost_spec (self : SchedulerService) (now date : Int)
    (content : String) :
    (date ≤ now → scheduleSpecificPost self now content (some date) = (false, self)) ∧
    (now < date →
      scheduleSpecificPost self now content (some date) =
        (true, { self with
          timers := self.timers ++ [{ content := content, delay := some (date - now) }] }) ∧
      0 < date - now) := by
  constructor
  · intro h
    simp [scheduleSpecificPost, h]
  · intro h
    have hn : ¬ date ≤ now := not_le.mpr h
    refine ⟨?_, by omega⟩
    simp [scheduleSpecificPost, hn]

/-- Witness for C7: removing the registered job `cleanup` (task 3) from the
started scheduler issues one `stop` call for task 3. -/
theorem removeJob_spec_witness :
    sampleScheduler.WF ∧ mapGet sampleScheduler.jobs "cleanup" = some 3 ∧
    (removeJob sampleScheduler "cleanup").calls = sampleScheduler.calls ++ [CronCall.stop 3] ∧
    isRunning (removeJob sampleScheduler "cleanup").tasks 3 = false ∧
    (removeJob sampleScheduler "cleanup").jobs =
      sampleScheduler.jobs.filter (fun e => e.1 != "cleanup") ∧
    mapGet (removeJob sampleScheduler "cleanup").jobs "cleanup" = none :=
  ⟨by decide, by decide,
   (removeJob_spec sampleScheduler "cleanup" (by decide)).1 3 (by decide)⟩

/-- Witness for C5 (amended): re-adding `cleanup` on the started scheduler with
an accepted expression stops task 3 and then schedules task 4; with a rejected
expression nothing is left under `cleanup`. -/
theorem addJob_replaces_witness :
    sampleScheduler.WF ∧ mapGet sampleScheduler.jobs "cleanup" = some 3 ∧
    (addJob sampleScheduler "cleanup" "0 4 * * *" 7 true).2.calls =
      sampleScheduler.calls ++
        [CronCall.stop 3, CronCall.schedule sampleScheduler.tasks.length "0 4 * * *"] ∧
    mapGet (addJob sampleScheduler "cleanup" "not a cron" 7 false).2.jobs "cleanup" = none :=
  ⟨by decide, by decide,
   (addJob_replaces sampleScheduler "cleanup" "0 4 * * *" 7 3 (by decide) (by decide)).1.2.1,
   (addJob_replaces sampleScheduler "cleanup" "not a cron" 7 3 (by decide)
     (by decide)).2.2.2.2.1⟩

/-- Witness for C6: stopping the started scheduler empties the registry and
issues the four `stop` calls. -/
theorem stop_stops_every_job_once_witness :
    sampleScheduler.WF ∧ (stop sampleScheduler).jobs = [] ∧
    (stop sampleScheduler).calls =
      sampleScheduler.calls ++ sampleScheduler.jobs.map (fun e => CronCall.stop e.2) :=
  ⟨by decide,
   (stop_stops_every_job_once sampleScheduler (by decide)).1,
   (stop_stops_every_job_once sampleScheduler (by decide)).2.1⟩

/-- Witness for C8: at `now = 1000`, a post for time 1000 is refused and a post
for time 1500 gets one timer with delay 500. -/
theorem scheduleSpecificPost_spec_witness :
    scheduleSpecificPost SchedulerService.new 1000 "gm" (some 1000) =
      (false, SchedulerService.new) ∧
    scheduleSpecificPost SchedulerService.new 1000 "gm" (some 1500) =
      (true, { SchedulerService.new with timers := [{ content := "gm", delay := some 500 }] }) :=
  ⟨(scheduleSpecificPost_spec SchedulerService.new 1000 1000 "gm").1 (by decide),
   ((scheduleSpecificPost_spec SchedulerService.new 1000 1500 "gm").2 (by decide)).1⟩

/-! ## Theorems: tweet-generation schedule -/

/-- For a quota from 1 to 24 the interval of line 46 is `max(1, floor(24 / n))`
and at least 1. -/
theorem tweetGenerationHours_of_le_24 (n : Int) (h1 : 1 ≤ n) (h24 : n ≤ 24) :
    tweetGenerationHours n = max 1 (24 / n) ∧ 1 ≤ tweetGenerationHours n := by
  unfold tweetGenerationHours
  interval_cases n <;> decide

/-- C9 (evaluation at the failing input): `TWEETS_PER_DAY=25` is kept by the
configuration, the interval computed from it is 0, not `max(1, floor(24 / 25)) = 1`,
the cron expression is `0 */0 * * *`, and it has no tick. -/
theorem tweetGeneration_interval_zero_at_25 :
    tweetsPerDay (some 25) = 25 ∧
    tweetGenerationHours (tweetsPerDay (some 25)) = 0 ∧
    max 1 ((24 : Int) / 25) = 1 ∧
    tweetGenerationCron (tweetsPerDay (some 25)) = "0 */0 * * *" ∧
    ticksPerDay (tweetGenerationCron (tweetsPerDay (some 25))) = [] := by
  decide

/-- C10: with the quota 3 (also the default when `TWEETS_PER_DAY` is unset) the
interval is 8, the job is scheduled with the expression `0 */8 * * *` (which
`cron.schedule` accepts), and that expression fires exactly at 0:00, 8:00 and
16:00, three ticks a day: at minute 0 of the hours `h < 24` with
`h mod 8 = 0`. -/
theorem tweetGeneration_three_per_day (self : SchedulerService) :
    tweetsPerDay none = 3 ∧
    tweetGenerationHours 3 = 8 ∧
    tweetGenerationCron 3 = "0 */8 * * *" ∧
    (_scheduleTweetGeneration self 3 true).2.calls =
      self.calls ++ [CronCall.schedule self.tasks.length "0 */8 * * *"] ∧
    ticksPerDay (tweetGenerationCron 3) = [(0, 0), (8, 0), (16, 0)] ∧
    (ticksPerDay (tweetGenerationCron 3)).length = 3 ∧
    (∀ h < 24, ∀ m < 60,
      (cronFires (tweetGenerationCron 3) h m = true ↔ (m = 0 ∧ h % 8 = 0))) := by
  refine ⟨by decide, by decide, by decide, ?_, by decide, by decide, by decide⟩
  have h : tweetGenerationCron 3 = "0 */8 * * *" := by decide
  simp [_scheduleTweetGeneration, cronSchedule, h]

/-- Witness for C10: the schedule of quota 3 fires at 8:00. -/
theorem tweetGeneration_three_per_day_witness :
    cronFires (tweetGenerationCron 3) 8 0 = true :=
  ((tweetGeneration_three_per_day SchedulerService.new).2.2.2.2.2.2 8 (by decide) 0
    (by decide)).mpr ⟨rfl, rfl⟩

/-! ## Theorems: content generator -/

/-- What `generateTweet` does with an over-length first response. -/
theorem generateTweet_over_limit (a : AiWorld) (context : TweetContext)
    (promptText text : String) (hprompt : a.tweetPrompt = .ok promptText)
    (hcreate : a.create = .ok text) (hlong : tweetLimit < jsLength (jsTrim text)) :
    generateTweet a context =
      (match a.shorten with
        | .ok t =>
          { content := jsTrim t,
            metadata := [("was_shortened", .bool true),
                         ("original_length", .num (jsLength (jsTrim text)))] }
        | .error e => fallbackItem a context e,
       [{ model := a.model, max_tokens := a.maxTokens, temperature := some 95,
          text := .text promptText },
        { model := a.model, max_tokens := 300, temperature := none,
          text := .text (shortenPrompt (jsTrim text)) }]) := by
  unfold generateTweet _shortenTweet
  simp only [hprompt, hcreate]
  have h : jsLength (jsTrim text) > tweetLimit := hlong
  simp only [h, if_true]
  cases a.shorten <;> rfl

/-- What `generateTweet` does with a first response within the limit. -/
theorem generateTweet_within_limit (a : AiWorld) (context : TweetContext)
    (promptText text : String) (hprompt : a.tweetPrompt = .ok promptText)
    (hcreate : a.create = .ok text) (hshort : jsLength (jsTrim text) ≤ tweetLimit) :
    generateTweet a context =
      ({ content := jsTrim text,
         metadata := [("ai_model", .str a.model),
                      ("context_type", .str (contextType context)),
                      ("generated_at", .str a.nowIso)] },
       [{ model := a.model, max_tokens := a.maxTokens, temperature := some 95,
          text := .text promptText }]) := by
  unfold generateTweet
  simp only [hprompt, hcreate]
  have h : ¬ jsLength (jsTrim text) > tweetLimit := not_lt.mpr hshort
  simp only [h, if_false]

/-- What `generateReply` does with an over-length first response. -/
theorem generateReply_over_limit (a : AiWorld) (tweet : Mention) (text : String)
    (hcreate : a.create = .ok text) (hlong : tweetLimit < jsLength (jsTrim text)) :
    generateReply a tweet =
      (match a.shorten with
        | .ok t =>
          .ok { content := jsTrim t,
                metadata := [("was_shortened", .bool true),
                             ("original_length", .num (jsLength (jsTrim text)))] }
        | .error e => .error e,
       [{ model := a.model, max_tokens := a.maxTokens, temperature := some 90,
          text := .promise a.replyPrompt },
        { model := a.model, max_tokens := 300, temperature := none,
          text := .text (shortenPrompt (jsTrim text)) }]) := by
  unfold generateReply _shortenTweet
  simp only [hcreate]
  have h : jsLength (jsTrim text) > tweetLimit := hlong
  simp only [h, if_true]
  cases a.shorten <;> rfl

/-- What `generateReply` does with a first response within the limit. -/
theorem generateReply_within_limit (a : AiWorld) (tweet : Mention) (text : String)
    (hcreate : a.create = .ok text) (hshort : jsLength (jsTrim text) ≤ tweetLimit) :
    generateReply a tweet =
      (.ok { content := jsTrim text,
             metadata := [("ai_model", .str a.model), ("reply_to", .str tweet.id),
                          ("conversation_id", JsVal.ofOption tweet.conversation_id),
                          ("generated_at", .str a.nowIso)] },
       [{ model := a.model, max_tokens := a.maxTokens, temperature := some 90,
          text := .promise a.replyPrompt }]) := by
  unfold generateReply
  simp only [hcreate]
  have h : ¬ jsLength (jsTrim text) > tweetLimit := not_lt.mpr hshort
  simp only [h, if_false]

/-- The fallback text is within the limit. -/
theorem jsLength_fallbackTweet : jsLength fallbackTweet = 95 := by
  decide

/-- C17 (counterexample): when the first response has 281 characters and the
shorten request answers with 281 characters again, the content returned by
`generateTweet` and by `generateReply` has length 281. -/
theorem generated_length_can_exceed_limit :
    jsLength (generateTweet (sampleAiWorld (longText 281) (longText 281)) ⟨none⟩).1.content
      = 281 ∧
    (generateReply (sampleAiWorld (longText 281) (longText 281)) sampleMention).1 =
      .ok { content := longText 281,
            metadata := [("was_shortened", .bool true), ("original_length", .num 281)] } ∧
    jsLength (longText 281) = 281 ∧ ¬ (281 ≤ tweetLimit) := by
  set_option maxRecDepth 100000 in decide

/-- C17 (amended): the content returned by `generateTweet`, and by
`generateReply` when it returns, has length at most 280 unless it is the
result of a shorten request (the first response was over the limit and the
shorten request answered); in that case the content is the trimmed answer of
the shorten request, whatever its length. -/
theorem generated_length_bound (a : AiWorld) (context : TweetContext) (tweet : Mention) :
    ((¬ ∃ text t, a.create = .ok text ∧ tweetLimit < jsLength (jsTrim text) ∧
        a.shorten = .ok t) →
      jsLength (generateTweet a context).1.content ≤ tweetLimit ∧
      ∀ r, (generateReply a tweet).1 = .ok r → jsLength r.content ≤ tweetLimit) ∧
    (∀ text t, a.create = .ok text → tweetLimit < jsLength (jsTrim text) →
      a.shorten = .ok t →
      (∀ p, a.tweetPrompt = .ok p → (generateTweet a context).1.content = jsTrim t) ∧
      ∃ r, (generateReply a tweet).1 = .ok r ∧ r.content = jsTrim t) := by
  have hfb : jsLength fallbackTweet ≤ tweetLimit := by
    rw [jsLength_fallbackTweet]; decide
  constructor
  · intro hno
    constructor
    · cases hp : a.tweetPrompt with
      | error e => simp [generateTweet, hp, fallbackItem, hfb]
      | ok p =>
        cases hc : a.create with
        | error e => simp [generateTweet, hp, hc, fallbackItem, hfb]
        | ok text =>
          by_cases hlen : jsLength (jsTrim text) ≤ tweetLimit
          · rw [generateTweet_within_limit a context p text hp hc hlen]
            exact hlen
          · have hlong : tweetLimit < jsLength (jsTrim text) := not_le.mp hlen
            rw [generateTweet_over_limit a context p text hp hc hlong]
            cases hs : a.shorten with
            | error e => simpa [fallbackItem] using hfb
            | ok t => exact absurd ⟨text, t, hc, hlong, hs⟩ hno
    · intro r hr
      cases hc : a.create with
      | error e => simp [generateReply, hc] at hr
      | ok text =>
        by_cases hlen : jsLength (jsTrim text) ≤ tweetLimit
        · rw [generateReply_within_limit a tweet text hc hlen] at hr
          simp only [Except.ok.injEq] at hr
          rw [← hr]
          exact hlen
        · have hlong : tweetLimit < jsLength (jsTrim text) := not_le.mp hlen
          rw [generateReply_over_limit a tweet text hc hlong] at hr
          cases hs : a.shorten with
          | error e => simp [hs] at hr
          | ok t => exact absurd ⟨text, t, hc, hlong, hs⟩ hno
  · intro text t hc hlong hs
    constructor
    · intro p hp
      rw [generateTweet_over_limit a context p text hp hc hlong, hs]
    · rw [generateReply_over_limit a tweet text hc hlong, hs]
      exact ⟨_, rfl, rfl⟩

/-- Witness for C17 (amended): a first response of 5 characters is returned as
it is, within the limit. -/
theorem generated_length_bound_witness :
    jsLength (generateTweet (sampleAiWorld "hello" "unused") ⟨none⟩).1.content ≤ tweetLimit :=
  ((generated_length_bound (sampleAiWorld "hello" "unused") ⟨none⟩ sampleMention).1
    (by
      rintro ⟨text, t, hc, hlong, -⟩
      have h : text = "hello" := by
        have h1 : Except.ok "hello" = (Except.ok text : Except String String) := hc
        injection h1 with h2
        exact h2.symm
      subst h
      exact absurd hlong (by decide))).1

/-- C18: when the trimmed first response is longer than 280, `generateTweet`
and `generateReply` issue exactly one shorten request after the first request,
its prompt containing the over-length text, and, when that request answers,
return its trimmed answer with `was_shortened = true`; when the trimmed first
response has length at most 280 (280 included) only the first request is
issued, the content is the trimmed text and `was_shortened` is not set. -/
theorem shorten_exactly_when_over_limit (a : AiWorld) (context : TweetContext)
    (tweet : Mention) (promptText text : String) (hprompt : a.tweetPrompt = .ok promptText)
    (hcreate : a.create = .ok text) :
    (tweetLimit < jsLength (jsTrim text) →
      (generateTweet a context).2 =
        [{ model := a.model, max_tokens := a.maxTokens, temperature := some 95,
           text := .text promptText },
         { model := a.model, max_tokens := 300, temperature := none,
           text := .text ("Shorten to under 280 chars, keep the vibe:\n\"" ++ jsTrim text ++
             "\"\n\nShortened version:") }] ∧
      (generateReply a tweet).2 =
        [{ model := a.model, max_tokens := a.maxTokens, temperature := some 90,
           text := .promise a.replyPrompt },
         { model := a.model, max_tokens := 300, temperature := none,
           text := .text ("Shorten to under 280 chars, keep the vibe:\n\"" ++ jsTrim text ++
             "\"\n\nShortened version:") }] ∧
      ∀ t, a.shorten = .ok t →
        (generateTweet a context).1.content = jsTrim t ∧
        metaGet (generateTweet a context).1.metadata "was_shortened" = some (.bool true) ∧
        ∃ r, (generateReply a tweet).1 = .ok r ∧ r.content = jsTrim t ∧
          metaGet r.metadata "was_shortened" = some (.bool true)) ∧
    (jsLength (jsTrim text) ≤ tweetLimit →
      (generateTweet a context).2 =
        [{ model := a.model, max_tokens := a.maxTokens, temperature := some 95,
           text := .text promptText }] ∧
      (generateTweet a context).1.content = jsTrim text ∧
      metaGet (generateTweet a context).1.metadata "was_shortened" = none ∧
      (generateReply a tweet).2 =
        [{ model := a.model, max_tokens := a.maxTokens, temperature := some 90,
           text := .promise a.replyPrompt }] ∧
      ∃ r, (generateReply a tweet).1 = .ok r ∧ r.content = jsTrim text ∧
        metaGet r.metadata "was_shortened" = none) := by
  constructor
  · intro hlong
    rw [generateTweet_over_limit a context promptText text hprompt hcreate hlong,
      generateReply_over_limit a tweet text hcreate hlong]
    refine ⟨rfl, rfl, ?_⟩
    intro t ht
    rw [ht]
    exact ⟨rfl, rfl, _, rfl, rfl, rfl⟩
  · intro hshort
    rw [generateTweet_within_limit a context promptText text hprompt hcreate hshort,
      generateReply_within_limit a tweet text hcreate hshort]
    exact ⟨rfl, rfl, rfl, rfl, _, rfl, rfl, rfl⟩

/-- Witness for C18: a first response of exactly 280 characters is returned
without a shorten request. -/
theorem shorten_exactly_when_over_limit_witness :
    (generateTweet (sampleAiWorld (longText 280) "unused") ⟨none⟩).2 =
      [{ model := "claude-sonnet-4-20250514", max_tokens := 500, temperature := some 95,
         text := .text "Write ONE authentic tweet:" }] ∧
    (generateTweet (sampleAiWorld (longText 280) "unused") ⟨none⟩).1.content =
      jsTrim (longText 280) :=
  ⟨((shorten_exactly_when_over_limit (sampleAiWorld (longText 280) "unused") ⟨none⟩
      sampleMention "Write ONE authentic tweet:" (longText 280) rfl rfl).2
      (by set_option maxRecDepth 100000 in decide)).1,
   ((shorten_exactly_when_over_limit (sampleAiWorld (longText 280) "unused") ⟨none⟩
      sampleMention "Write ONE authentic tweet:" (longText 280) rfl rfl).2
      (by set_option maxRecDepth 100000 in decide)).2.1⟩

/-- C19 (counterexample): for a first response of 281 characters, the item
returned by `generateTweet` has no `ai_model`, `context_type` or
`generated_at`, and the item returned by `generateReply` has no `ai_model`,
`reply_to` or `generated_at`, although the items returned for a first response
of 5 characters have them. -/
theorem shortened_item_drops_metadata :
    (generateTweet (sampleAiWorld (longText 281) "short") ⟨none⟩).1 =
      { content := "short",
        metadata := [("was_shortened", .bool true), ("original_length", .num 281)] } ∧
    (generateReply (sampleAiWorld (longText 281) "short") sampleMention).1 =
      .ok { content := "short",
            metadata := [("was_shortened", .bool true), ("original_length", .num 281)] } ∧
    (generateTweet (sampleAiWorld "hello" "short") ⟨none⟩).1.metadata =
      [("ai_model", .str "claude-sonnet-4-20250514"), ("context_type", .str "random"),
       ("generated_at", .str "2025-01-01T09:00:00.000Z")] ∧
    (generateReply (sampleAiWorld "hello" "short") sampleMention).1 =
      .ok { content := "hello",
            metadata := [("ai_model", .str "claude-sonnet-4-20250514"),
                         ("reply_to", .str "m1"), ("conversation_id", .undefined),
                         ("generated_at", .str "2025-01-01T09:00:00.000Z")] } := by
  set_option maxRecDepth 100000 in decide

/-- C19 (amended): for every over-length generation whose shorten request
answers, the item returned by `generateTweet` and by `generateReply` is a new
item: its content is the trimmed answer and its metadata is exactly
`was_shortened = true` and `original_length`, the length of the over-length
text. -/
theorem shortened_item_metadata (a : AiWorld) (context : TweetContext) (tweet : Mention)
    (promptText text t : String) (hprompt : a.tweetPrompt = .ok promptText)
    (hcreate : a.create = .ok text) (hlong : tweetLimit < jsLength (jsTrim text))
    (hshorten : a.shorten = .ok t) :
    (generateTweet a context).1 =
      { content := jsTrim t,
        metadata := [("was_shortened", .bool true),
                     ("original_length", .num (jsLength (jsTrim text)))] } ∧
    (generateReply a tweet).1 =
      .ok { content := jsTrim t,
            metadata := [("was_shortened", .bool true),
                         ("original_length", .num (jsLength (jsTrim text)))] } := by
  rw [generateTweet_over_limit a context promptText text hprompt hcreate hlong,
    generateReply_over_limit a tweet text hcreate hlong, hshorten]
  exact ⟨rfl, rfl⟩

/-- Witness for C19 (amended): a first response of 281 characters shortened to
`short`. -/
theorem shortened_item_metadata_witness :
    (generateTweet (sampleAiWorld (longText 281) "short") ⟨none⟩).1 =
      { content := jsTrim "short",
        metadata := [("was_shortened", .bool true),
                     ("original_length", .num (jsLength (jsTrim (longText 281))))] } :=
  (shortened_item_metadata (sampleAiWorld (longText 281) "short") ⟨none⟩ sampleMention
    "Write ONE authentic tweet:" (longText 281) "short" rfl rfl
    (by set_option maxRecDepth 100000 in decide) rfl).1

/-- C20: when the first generation-service call fails, or the first response
is over the limit and the shorten call fails, `generateTweet` returns the
fallback item: the fixed fallback text with `error = true` (the function has
no throwing path: its whole body is inside the `try`). -/
theorem generateTweet_fallback_on_failure (a : AiWorld) (context : TweetContext)
    (promptText : String) (hprompt : a.tweetPrompt = .ok promptText) :
    (∀ e, a.create = .error e →
      (generateTweet a context).1 = fallbackItem a context e ∧
      (generateTweet a context).1.content = fallbackTweet ∧
      metaGet (generateTweet a context).1.metadata "error" = some (.bool true)) ∧
    (∀ text e, a.create = .ok text → tweetLimit < jsLength (jsTrim text) →
      a.shorten = .error e →
      (generateTweet a context).1 = fallbackItem a context e ∧
      (generateTweet a context).1.content = fallbackTweet ∧
      metaGet (generateTweet a context).1.metadata "error" = some (.bool true)) := by
  constructor
  · intro e he
    have h : (generateTweet a context).1 = fallbackItem a context e := by
      simp [generateTweet, hprompt, he]
    rw [h]
    exact ⟨rfl, rfl, rfl⟩
  · intro text e hc hlong hs
    have h : (generateTweet a context).1 = fallbackItem a context e := by
      rw [generateTweet_over_limit a context promptText text hprompt hc hlong, hs]
    rw [h]
    exact ⟨rfl, rfl, rfl⟩

/-- Witness for C20: a failing shorten call after a first response of 281
characters gives the fallback text. -/
theorem generateTweet_fallback_on_failure_witness :
    (generateTweet { sampleAiWorld (longText 281) "" with shorten := .error "overloaded" }
      ⟨none⟩).1.content = fallbackTweet :=
  ((generateTweet_fallback_on_failure
      { sampleAiWorld (longText 281) "" with shorten := .error "overloaded" } ⟨none⟩
      "Write ONE authentic tweet:" rfl).2 (longText 281) "overloaded" rfl
      (by set_option maxRecDepth 100000 in decide) rfl).2.1

/-! ## Theorems: routing, filter and interaction log -/

/-- `saveConversation` makes one conversation save. -/
theorem saveConversation_effects (w : World) (cid : Option String) (tid : String)
    (irt : Option String) (content : String) :
    (saveConversation w cid tid irt content).2.all Effect.isConversationCall = true := by
  unfold saveConversation
  split <;> rfl

/-- The loop of `_getConversationContext` only saves conversation rows. -/
theorem saveMissing_effects (w : World) (cid : String) (conversation tweets : List ConvTweet) :
    (saveMissing w cid conversation tweets).2.all Effect.isConversationCall = true := by
  induction tweets with
  | nil => rfl
  | cons t rest ih =>
    unfold saveMissing
    split
    · exact ih
    · have h := saveConversation_effects w (some cid) t.tweet_id none t.content
      split
      · rename_i heq
        rw [heq] at h
        simp only [List.all_append, Bool.and_eq_true]
        exact ⟨h, ih⟩
      · rename_i heq
        rw [heq] at h
        exact h

/-- `_getConversationContext` only saves conversation rows. -/
theorem getConversationContext_effects (w : World) (m : Mention) :
    (_getConversationContext w m).2.all Effect.isConversationCall = true := by
  unfold _getConversationContext
  split
  · rfl
  · dsimp only
    split
    · split
      · rfl
      · have h := saveMissing_effects w (m.conversation_id.getD "") w.dbConversation
          ‹List ConvTweet›
        split
        · rename_i heq
          rw [heq] at h
          exact h
        · rename_i heq
          rw [heq] at h
          exact h
    · rfl

/-- Effects that are all conversation saves contain no effect of another kind. -/
theorem countP_of_all_conversation (p : Effect → Bool) (l : List Effect)
    (hp : ∀ e, Effect.isConversationCall e = true → p e = false)
    (h : l.all Effect.isConversationCall = true) : l.countP p = 0 := by
  rw [List.countP_eq_zero]
  intro e he
  have := hp e (List.all_eq_true.mp h e he)
  simp [this]

/-- Conversation saves write no row of the interaction log. -/
theorem loggedRows_of_all_conversation (l : List Effect)
    (h : l.all Effect.isConversationCall = true) : loggedRows l = [] := by
  induction l with
  | nil => rfl
  | cons e rest ih =>
    rw [List.all_cons, Bool.and_eq_true] at h
    obtain ⟨he, hr⟩ := h
    cases e with
    | saveConversation a b c d ok =>
      simp only [loggedRows]
      exact ih hr
    | tweet a b c ok => simp [Effect.isConversationCall] at he
    | logInteraction a b c d ok => simp [Effect.isConversationCall] at he
    | saveToTestQueue a b c ok => simp [Effect.isConversationCall] at he
    | saveTweet a b c d ok => simp [Effect.isConversationCall] at he

/-- The run of `_processMention` for a mention that is declined by the
should-reply decision. -/
theorem processMention_declined (w : World) (self : ResponseController) (tw tw1 : TwitterService)
    (m : Mention) (uid : String) (d : ShouldReply)
    (hid : tw.getUserId w.me = (.ok uid, tw1)) (hown : m.author_id ≠ some uid)
    (hdup : _checkExistingReply w m.id = false) (hd : w.shouldReply = .ok d)
    (hno : d.should_reply = false) :
    _processMention w self tw m =
      ⟨.ok (), self, tw1,
        (_getConversationContext w m).2 ++ _logSkippedMention w m d.reason⟩ := by
  unfold _processMention
  simp only [hid, if_neg hown, hdup, Bool.false_eq_true, if_false, hd, hno, Bool.not_false,
    if_true]

/-- The run of `_processMention` for a mention whose reply the filter rejects. -/
theorem processMention_filtered (w : World) (self : ResponseController) (tw tw1 : TwitterService)
    (m : Mention) (uid : String) (d : ShouldReply) (reply : Reply) (f : FilterResult)
    (hid : tw.getUserId w.me = (.ok uid, tw1)) (hown : m.author_id ≠ some uid)
    (hdup : _checkExistingReply w m.id = false) (hd : w.shouldReply = .ok d)
    (hyes : d.should_reply = true) (hg : w.generateReply = .ok reply)
    (hf : w.checkContent reply.content = .ok f) (hsafe : f.safe = false) :
    _processMention w self tw m =
      ⟨.ok (), self, tw1,
        (_getConversationContext w m).2 ++ _logSkippedMention w m "Failed content filter"⟩ := by
  unfold _processMention
  simp only [hid, if_neg hown, hdup, Bool.false_eq_true, if_false, hd, hyes, Bool.not_true,
    hg, hf, hsafe, Bool.not_false, if_true]

/-- The run of `_processMention` for a mention whose reply passes the filter,
with auto-posting off. -/
theorem processMention_queued (w : World) (self : ResponseController) (tw tw1 : TwitterService)
    (m : Mention) (uid : String) (d : ShouldReply) (reply : Reply) (f : FilterResult)
    (hid : tw.getUserId w.me = (.ok uid, tw1)) (hown : m.author_id ≠ some uid)
    (hdup : _checkExistingReply w m.id = false) (hd : w.shouldReply = .ok d)
    (hyes : d.should_reply = true) (hg : w.generateReply = .ok reply)
    (hf : w.checkContent reply.content = .ok f) (hsafe : f.safe = true)
    (hauto : w.enableAutoPosting = false) :
    _processMention w self tw m =
      ⟨if w.saveToTestQueueOk then .ok () else .error "saveToTestQueue",
        if w.saveToTestQueueOk then { self with replyCount := self.replyCount + 1 } else self,
        tw1,
        (_getConversationContext w m).2 ++
          [Effect.saveToTestQueue reply.content (some "reply") (some m.id)
            w.saveToTestQueueOk]⟩ := by
  unfold _processMention _addReplyToTestQueue saveToTestQueue
  simp only [hid, if_neg hown, hdup, Bool.false_eq_true, if_false, hd, hyes, Bool.not_true,
    hg, hf, hsafe, hauto]
  cases w.saveToTestQueueOk <;> rfl

/-- The run of `_processMention` for a mention whose reply passes the filter,
with auto-posting on. -/
theorem processMention_posting (w : World) (self : ResponseController)
    (tw tw1 : TwitterService) (m : Mention) (uid : String) (d : ShouldReply) (reply : Reply)
    (f : FilterResult)
    (hid : tw.getUserId w.me = (.ok uid, tw1)) (hown : m.author_id ≠ some uid)
    (hdup : _checkExistingReply w m.id = false) (hd : w.shouldReply = .ok d)
    (hyes : d.should_reply = true) (hg : w.generateReply = .ok reply)
    (hf : w.checkContent reply.content = .ok f) (hsafe : f.safe = true)
    (hauto : w.enableAutoPosting = true) :
    _processMention w self tw m =
      (match _postReply w tw1 m reply with
        | (.error e, tw2, fx) => ⟨.error e, self, tw2, (_getConversationContext w m).2 ++ fx⟩
        | (.ok _, tw2, fx) =>
          ⟨.ok (), { self with replyCount := self.replyCount + 1 }, tw2,
            (_getConversationContext w m).2 ++ fx⟩) := by
  unfold _processMention
  simp only [hid, if_neg hown, hdup, Bool.false_eq_true, if_false, hd, hyes, Bool.not_true,
    hg, hf, hsafe, hauto, if_true]

/-- The effects of `_postReply`: the platform call (outside test mode), then
the conversation save, then the `reply_posted` log entry; a later step is
reached only when the earlier ones succeeded. -/
theorem postReply_trace (w : World) (tw : TwitterService) (m : Mention) (reply : Reply) :
    (∃ e tw2 fx, _postReply w tw m reply = (.error e, tw2, fx) ∧
      fx.countP Effect.isLogCall = 0 ∧ fx.countP Effect.isQueueCall = 0 ∧
      fx.countP Effect.isSaveTweetCall = 0) ∨
    (∃ id tw2 fx, _postReply w tw m reply =
        (.ok id, tw2,
          fx ++ [Effect.logInteraction "reply_posted" id (some m.id) none w.logInteractionOk]) ∧
      fx.countP Effect.isLogCall = 0 ∧ fx.countP Effect.isQueueCall = 0 ∧
      fx.countP Effect.isSaveTweetCall = 0) := by
  unfold _postReply TwitterService.postTweet saveConversation logInteraction
  cases htest : tw.isTestMode
  · simp only [Bool.false_eq_true, if_false]
    cases hw : w.tweet with
    | error e => exact Or.inl ⟨e, tw, _, rfl, rfl, rfl, rfl⟩
    | ok id =>
      simp only
      rcases hgu : tw.getUserId w.meRetry with ⟨r, tw1⟩
      cases r with
      | error e => exact Or.inl ⟨e, tw1, _, rfl, rfl, rfl, rfl⟩
      | ok u =>
        cases hs : w.saveConversationOk id
        · simp only [Bool.false_eq_true, if_false]
          exact Or.inl ⟨_, tw1, _, rfl, rfl, rfl, rfl⟩
        · simp only [if_true]
          exact Or.inr ⟨_, tw1, _, rfl, rfl, rfl, rfl⟩
  · simp only [if_true]
    rcases hgu : tw.getUserId w.meRetry with ⟨r, tw1⟩
    cases r with
    | error e => exact Or.inl ⟨e, tw1, [], rfl, rfl, rfl, rfl⟩
    | ok u =>
      cases hs : w.saveConversationOk ("test_" ++ toString w.now)
      · simp only [Bool.false_eq_true, if_false]
        exact Or.inl ⟨_, tw1, _, rfl, rfl, rfl, rfl⟩
      · simp only [if_true]
        exact Or.inr ⟨_, tw1, _, rfl, rfl, rfl, rfl⟩

/-- The context step of `_processMention` makes no platform call, no queue
insert, no tweet save and no log entry. -/
theorem getConversationContext_counts (w : World) (m : Mention) :
    (_getConversationContext w m).2.countP Effect.isTweetCall = 0 ∧
    (_getConversationContext w m).2.countP Effect.isQueueCall = 0 ∧
    (_getConversationContext w m).2.countP Effect.isSaveTweetCall = 0 ∧
    (_getConversationContext w m).2.countP Effect.isLogCall = 0 ∧
    (_getConversationContext w m).2.any Effect.isPublish = false := by
  have h := getConversationContext_effects w m
  refine ⟨?_, ?_, ?_, ?_, ?_⟩
  · exact countP_of_all_conversation _ _ (fun e he => by cases e <;> simp_all
      [Effect.isConversationCall, Effect.isTweetCall]) h
  · exact countP_of_all_conversation _ _ (fun e he => by cases e <;> simp_all
      [Effect.isConversationCall, Effect.isQueueCall]) h
  · exact countP_of_all_conversation _ _ (fun e he => by cases e <;> simp_all
      [Effect.isConversationCall, Effect.isSaveTweetCall]) h
  · exact countP_of_all_conversation _ _ (fun e he => by cases e <;> simp_all
      [Effect.isConversationCall, Effect.isLogCall]) h
  · have hc := countP_of_all_conversation Effect.isPublish _ (fun e he => by cases e <;> simp_all
      [Effect.isConversationCall, Effect.isPublish]) h
    rw [List.countP_eq_zero] at hc
    rw [Bool.eq_false_iff]
    intro hany
    obtain ⟨e, he, hp⟩ := List.any_eq_true.mp hany
    exact hc e he hp

/-- The terminal branches of `_processMention`: the call of `getUserId` throws;
the mention is skipped as own tweet or as duplicate; a later step before the
route throws; the mention is declined or its reply rejected by the filter (one
`mention_skipped` log entry); the reply is routed to `_postReply`; the reply is
routed to the test queue. -/
theorem processMention_cases (w : World) (self : ResponseController) (tw : TwitterService)
    (m : Mention) :
    (∃ e tw1, _processMention w self tw m = ⟨.error e, self, tw1, []⟩) ∨
    (∃ tw1, _processMention w self tw m = ⟨.ok (), self, tw1, []⟩) ∨
    (∃ e tw1, _processMention w self tw m =
      ⟨.error e, self, tw1, (_getConversationContext w m).2⟩) ∨
    (∃ tw1 reason, _processMention w self tw m =
      ⟨.ok (), self, tw1,
        (_getConversationContext w m).2 ++ _logSkippedMention w m reason⟩) ∨
    (w.enableAutoPosting = true ∧ ∃ (tw1 : TwitterService) (reply : Reply), _processMention w self tw m =
      (match _postReply w tw1 m reply with
        | (.error e, tw2, fx) => ⟨.error e, self, tw2, (_getConversationContext w m).2 ++ fx⟩
        | (.ok _, tw2, fx) =>
          ⟨.ok (), { self with replyCount := self.replyCount + 1 }, tw2,
            (_getConversationContext w m).2 ++ fx⟩)) ∨
    (w.enableAutoPosting = false ∧ ∃ (tw1 : TwitterService) (reply : Reply), _processMention w self tw m =
      ⟨if w.saveToTestQueueOk then .ok () else .error "saveToTestQueue",
        if w.saveToTestQueueOk then { self with replyCount := self.replyCount + 1 } else self,
        tw1,
        (_getConversationContext w m).2 ++
          [Effect.saveToTestQueue reply.content (some "reply") (some m.id)
            w.saveToTestQueueOk]⟩) := by
  rcases hid : tw.getUserId w.me with ⟨r, tw1⟩
  cases r with
  | error e =>
    refine Or.inl ⟨e, tw1, ?_⟩
    unfold _processMention
    simp only [hid]
  | ok uid =>
    by_cases hown : m.author_id = some uid
    · refine Or.inr (Or.inl ⟨tw1, ?_⟩)
      unfold _processMention
      simp only [hid, if_pos hown]
    · cases hdup : _checkExistingReply w m.id with
      | true =>
        refine Or.inr (Or.inl ⟨tw1, ?_⟩)
        unfold _processMention
        simp only [hid, if_neg hown, hdup, if_true]
      | false =>
        cases hd : w.shouldReply with
        | error e =>
          refine Or.inr (Or.inr (Or.inl ⟨e, tw1, ?_⟩))
          unfold _processMention
          simp only [hid, if_neg hown, hdup, Bool.false_eq_true, if_false, hd]
        | ok d =>
          cases hsr : d.should_reply with
          | false =>
            exact Or.inr (Or.inr (Or.inr (Or.inl ⟨tw1, d.reason,
              processMention_declined w self tw tw1 m uid d hid hown hdup hd hsr⟩)))
          | true =>
            cases hg : w.generateReply with
            | error e =>
              refine Or.inr (Or.inr (Or.inl ⟨e, tw1, ?_⟩))
              unfold _processMention
              simp only [hid, if_neg hown, hdup, Bool.false_eq_true, if_false, hd, hsr,
                Bool.not_true, hg]
            | ok reply =>
              cases hf : w.checkContent reply.content with
              | error e =>
                refine Or.inr (Or.inr (Or.inl ⟨e, tw1, ?_⟩))
                unfold _processMention
                simp only [hid, if_neg hown, hdup, Bool.false_eq_true, if_false, hd, hsr,
                  Bool.not_true, hg, hf]
              | ok f =>
                cases hsafe : f.safe with
                | false =>
                  exact Or.inr (Or.inr (Or.inr (Or.inl ⟨tw1, "Failed content filter",
                    processMention_filtered w self tw tw1 m uid d reply f hid hown hdup hd hsr
                      hg hf hsafe⟩)))
                | true =>
                  cases hauto : w.enableAutoPosting with
                  | true =>
                    exact Or.inr (Or.inr (Or.inr (Or.inr (Or.inl ⟨rfl, tw1, reply,
                      processMention_posting w self tw tw1 m uid d reply f hid hown hdup hd hsr
                        hg hf hsafe hauto⟩))))
                  | false =>
                    exact Or.inr (Or.inr (Or.inr (Or.inr (Or.inr ⟨rfl, tw1, reply,
                      processMention_queued w self tw tw1 m uid d reply f hid hown hdup hd hsr
                        hg hf hsafe hauto⟩))))

/-- C11: with auto-posting off, a scheduled tick and a mention never call the
platform; when the generated content passes the filter,
`generateScheduledTweet` calls `saveToTestQueue` exactly once, and so does
`_processMention` for a mention that reaches the filter (not the bot's own,
not already replied to, accepted by the should-reply decision). -/
theorem test_mode_enqueues_once (w : World) (self : ResponseController) (tw : TwitterService)
    (m : Mention) (hauto : w.enableAutoPosting = false) :
    (generateScheduledTweet w).trace.countP Effect.isTweetCall = 0 ∧
    (∀ f, w.checkContent w.generateTweet.content = .ok f → f.safe = true →
      (generateScheduledTweet w).trace.countP Effect.isQueueCall = 1) ∧
    (_processMention w self tw m).trace.countP Effect.isTweetCall = 0 ∧
    (∀ uid tw1 d reply f, tw.getUserId w.me = (.ok uid, tw1) → m.author_id ≠ some uid →
      _checkExistingReply w m.id = false → w.shouldReply = .ok d → d.should_reply = true →
      w.generateReply = .ok reply → w.checkContent reply.content = .ok f → f.safe = true →
      (_processMention w self tw m).trace.countP Effect.isQueueCall = 1) := by
  have hctx := getConversationContext_counts w m
  refine ⟨?_, ?_, ?_, ?_⟩
  · unfold generateScheduledTweet _addToTestQueue saveToTestQueue
    simp only [hauto]
    cases w.checkContent w.generateTweet.content with
    | error e => rfl
    | ok f =>
      obtain ⟨safe, reason⟩ := f
      cases safe
      · rfl
      · cases w.saveToTestQueueOk <;> rfl
  · intro f hf hsafe
    unfold generateScheduledTweet _addToTestQueue saveToTestQueue
    simp only [hauto, hf, hsafe]
    cases w.saveToTestQueueOk <;> rfl
  · rcases processMention_cases w self tw m with
      ⟨e, tw1, h⟩ | ⟨tw1, h⟩ | ⟨e, tw1, h⟩ | ⟨tw1, reason, h⟩ | ⟨ha, -⟩ | ⟨-, tw1, reply, h⟩
    · rw [h]; rfl
    · rw [h]; rfl
    · rw [h]; exact hctx.1
    · rw [h]
      simp only [List.countP_append, hctx.1, _logSkippedMention, logInteraction]
      rfl
    · rw [hauto] at ha
      exact absurd ha (by decide)
    · rw [h]
      simp only [List.countP_append, hctx.1]
      rfl
  · intro uid tw1 d reply f hid hown hdup hd hyes hg hf hsafe
    rw [processMention_queued w self tw tw1 m uid d reply f hid hown hdup hd hyes hg hf hsafe
      hauto]
    simp only [List.countP_append, hctx.2.1]
    rfl

/-- Witness for C11: the all-success run with auto-posting off. -/
theorem test_mode_enqueues_once_witness :
    (sampleWorld false).enableAutoPosting = false ∧
    (generateScheduledTweet (sampleWorld false)).trace.countP Effect.isQueueCall = 1 ∧
    (_processMention (sampleWorld false) ⟨0, 0⟩ (TwitterService.new false)
      sampleMention).trace.countP Effect.isQueueCall = 1 :=
  ⟨rfl,
   (test_mode_enqueues_once (sampleWorld false) ⟨0, 0⟩ (TwitterService.new false) sampleMention
      rfl).2.1 { safe := true, reason := "" } rfl rfl,
   (test_mode_enqueues_once (sampleWorld false) ⟨0, 0⟩ (TwitterService.new false) sampleMention
      rfl).2.2.2 "bot" { _userId := some "bot", isTestMode := true }
      { should_reply := true, reason := "relevant" } { content := "thanks!", metadata := [] }
      { safe := true, reason := "" } (by decide) (by decide) (by decide) rfl rfl rfl rfl rfl⟩

/-- C12: when the filter answers `safe = false`, `generateScheduledTweet`
returns `null` with no effect at all, `TweetController.postTweet` throws
`Content failed safety check` with no effect at all, and `_processMention`
returns after one `mention_skipped` log entry, with no platform call, no
`saveTweet` call and no `saveToTestQueue` call; in either mode. -/
theorem filter_rejection_short_circuits (w : World) (self : ResponseController)
    (tw : TwitterService) (m : Mention) (content : String) (replyToId : Option String)
    (mediaIds : Option (List String)) :
    (∀ f, w.checkContent w.generateTweet.content = .ok f → f.safe = false →
      (generateScheduledTweet w).result = .ok none ∧ (generateScheduledTweet w).trace = []) ∧
    (∀ f, w.checkContent content = .ok f → f.safe = false →
      TweetController.postTweet w tw content replyToId mediaIds =
        (.error "Content failed safety check", [])) ∧
    (∀ uid tw1 d reply f, tw.getUserId w.me = (.ok uid, tw1) → m.author_id ≠ some uid →
      _checkExistingReply w m.id = false → w.shouldReply = .ok d → d.should_reply = true →
      w.generateReply = .ok reply → w.checkContent reply.content = .ok f → f.safe = false →
      (_processMention w self tw m).result = .ok () ∧
      (_processMention w self tw m).trace =
        (_getConversationContext w m).2 ++
          [Effect.logInteraction "mention_skipped" m.id none (some "Failed content filter")
            w.logInteractionOk] ∧
      (_processMention w self tw m).trace.countP Effect.isTweetCall = 0 ∧
      (_processMention w self tw m).trace.countP Effect.isSaveTweetCall = 0 ∧
      (_processMention w self tw m).trace.countP Effect.isQueueCall = 0) := by
  have hctx := getConversationContext_counts w m
  refine ⟨?_, ?_, ?_⟩
  · intro f hf hsafe
    unfold generateScheduledTweet
    simp only [hf, hsafe]
    exact ⟨rfl, rfl⟩
  · intro f hf hsafe
    unfold TweetController.postTweet
    simp only [hf, hsafe]
    rfl
  · intro uid tw1 d reply f hid hown hdup hd hyes hg hf hsafe
    rw [processMention_filtered w self tw tw1 m uid d reply f hid hown hdup hd hyes hg hf hsafe]
    refine ⟨rfl, rfl, ?_, ?_, ?_⟩
    · simp only [List.countP_append, hctx.1, _logSkippedMention, logInteraction]
      rfl
    · simp only [List.countP_append, hctx.2.2.1, _logSkippedMention, logInteraction]
      rfl
    · simp only [List.countP_append, hctx.2.1, _logSkippedMention, logInteraction]
      rfl

/-- Witness for C12: the runs with a filter that rejects every text. -/
theorem filter_rejection_short_circuits_witness :
    (generateScheduledTweet (rejectingWorld true)).trace = [] ∧
    TweetController.postTweet (rejectingWorld true) (TwitterService.new true) "gm" none none =
      (.error "Content failed safety check", []) ∧
    (_processMention (rejectingWorld true) ⟨0, 0⟩ (TwitterService.new true)
      sampleMention).trace.countP Effect.isTweetCall = 0 :=
  ⟨((filter_rejection_short_circuits (rejectingWorld true) ⟨0, 0⟩ (TwitterService.new true)
      sampleMention "gm" none none).1 { safe := false, reason := "banned term" } rfl rfl).2,
   (filter_rejection_short_circuits (rejectingWorld true) ⟨0, 0⟩ (TwitterService.new true)
      sampleMention "gm" none none).2.1 { safe := false, reason := "banned term" } rfl rfl,
   ((filter_rejection_short_circuits (rejectingWorld true) ⟨0, 0⟩ (TwitterService.new true)
      sampleMention "gm" none none).2.2 "bot" { _userId := some "bot", isTestMode := false }
      { should_reply := true, reason := "relevant" } { content := "thanks!", metadata := [] }
      { safe := false, reason := "banned term" } (by decide) (by decide) (by decide) rfl rfl rfl
      rfl rfl).2.2.1⟩

/-- C16 (counterexample): in the all-success run with auto-posting on, the
filter accepts the generated text and `generateScheduledTweet` makes one
`saveTweet` call with status `pending`; it makes no platform call and writes
no interaction-log entry. -/
theorem scheduled_tick_does_not_publish :
    (sampleWorld true).checkContent (sampleWorld true).generateTweet.content =
      .ok { safe := true, reason := "" } ∧
    (generateScheduledTweet (sampleWorld true)).trace =
      [Effect.saveTweet "gm builders" (some "pending") (some 5000) none true] ∧
    (generateScheduledTweet (sampleWorld true)).trace.countP Effect.isTweetCall = 0 ∧
    (generateScheduledTweet (sampleWorld true)).trace.any Effect.isPublish = false ∧
    (generateScheduledTweet (sampleWorld true)).trace.countP Effect.isLogCall = 0 := by
  decide

/-- C16 (amended): with auto-posting on, for every tick whose generated content
passes the filter, `generateScheduledTweet` stores the content for later:
exactly one `saveTweet` call with status `pending` and the next optimal time as
`scheduled_time`; it makes no platform call and writes no interaction-log
entry; it returns the stored row when the insert succeeds. -/
theorem scheduled_tick_stores_pending_post (w : World) (f : FilterResult)
    (hauto : w.enableAutoPosting = true)
    (hf : w.checkContent w.generateTweet.content = .ok f) (hsafe : f.safe = true) :
    (generateScheduledTweet w).trace =
      [Effect.saveTweet w.generateTweet.content (some "pending") (some w.nextOptimalTime) none
        w.saveTweetOk] ∧
    (generateScheduledTweet w).trace.countP Effect.isTweetCall = 0 ∧
    (generateScheduledTweet w).trace.countP Effect.isLogCall = 0 ∧
    (w.saveTweetOk = true →
      (generateScheduledTweet w).result =
        .ok (some { table := "tweets", content := w.generateTweet.content,
                    status := some "pending" })) := by
  unfold generateScheduledTweet _schedulePost saveTweet
  simp only [hf, hsafe, hauto]
  cases w.saveTweetOk
  · exact ⟨rfl, rfl, rfl, fun h => absurd h (by decide)⟩
  · exact ⟨rfl, rfl, rfl, fun _ => rfl⟩

/-- Witness for C16 (amended): the all-success run with auto-posting on. -/
theorem scheduled_tick_stores_pending_post_witness :
    (generateScheduledTweet (sampleWorld true)).trace =
      [Effect.saveTweet "gm builders" (some "pending") (some 5000) none true] :=
  (scheduled_tick_stores_pending_post (sampleWorld true) { safe := true, reason := "" } rfl rfl
    rfl).1

/-- C13 (evaluation at the failing input): with a filter that rejects the
generated reply `thanks!`, `handleDirectMessage` (auto-posting off) still
inserts it into the test queue, and the loop of `engageWithTrending` still
publishes it (auto-posting on) or inserts it into the test queue (auto-posting
off): neither path calls the filter.  On the same input `_processMention`
stops at the filter.  `engageWithTrending` itself stops earlier, at
`searchTweets`. -/
theorem unfiltered_reply_paths :
    (rejectingWorld false).checkContent "thanks!" =
      .ok { safe := false, reason := "banned term" } ∧
    handleDirectMessage (rejectingWorld false) sampleDirectMessage =
      (.ok (), [Effect.saveToTestQueue "thanks!" (some "dm_reply") none true]) ∧
    (engageWithTweets (rejectingWorld true) (fun _ => rejectingWorld true)
      (TwitterService.new true) [sampleSearchTweet]).2.2 =
      [Effect.tweet "thanks!" (some "m1") none true,
       Effect.saveConversation none "t1" (some "m1") "thanks!" true,
       Effect.logInteraction "reply_posted" "t1" (some "m1") none true] ∧
    (engageWithTweets (rejectingWorld false) (fun _ => rejectingWorld false)
      (TwitterService.new false) [sampleSearchTweet]).2.2 =
      [Effect.saveToTestQueue "thanks!" (some "reply") (some "m1") true] ∧
    engageWithTrending (rejectingWorld true) (fun _ => rejectingWorld true)
      (TwitterService.new true) "#AI" =
      (.error "ReferenceError: max_results is not defined", TwitterService.new true, []) ∧
    (_processMention (rejectingWorld true) ⟨0, 0⟩ (TwitterService.new true) sampleMention).trace =
      [Effect.logInteraction "mention_skipped" "m1" none (some "Failed content filter")
        true] := by
  decide

/-- `handleDirectMessage` does not depend on the content filter. -/
theorem handleDirectMessage_ignores_filter (w : World) (dm : DirectMessage)
    (filter : String → Except String FilterResult) :
    handleDirectMessage { w with checkContent := filter } dm = handleDirectMessage w dm := by
  rfl

/-- A successful log entry in the trace is a logged row. -/
theorem mem_loggedRows (l : List Effect) (type twitter_id : String)
    (in_reply_to reason : Option String)
    (h : Effect.logInteraction type twitter_id in_reply_to reason true ∈ l) :
    ({ type := type, twitter_id := some twitter_id, in_reply_to := in_reply_to } : Interaction)
      ∈ loggedRows l := by
  induction l with
  | nil => simp at h
  | cons e rest ih =>
    rcases List.mem_cons.mp h with h1 | h1
    · subst h1
      simp [loggedRows]
    · have := ih h1
      cases e with
      | logInteraction a b c d ok =>
        cases ok
        · simpa [loggedRows] using this
        · simp only [loggedRows, List.mem_append]
          exact Or.inl this
      | tweet a b c ok => simpa [loggedRows] using this
      | saveConversation a b c d ok => simpa [loggedRows] using this
      | saveToTestQueue a b c ok => simpa [loggedRows] using this
      | saveTweet a b c d ok => simpa [loggedRows] using this

/-- A run of `_processMention` that returned after a successful publish has
made the `reply_posted` log call for the mention. -/
theorem processMention_posted_logs (w : World) (self : ResponseController)
    (tw : TwitterService) (m : Mention)
    (hok : (_processMention w self tw m).result = .ok ())
    (hpub : (_processMention w self tw m).trace.any Effect.isPublish = true) :
    ∃ id, Effect.logInteraction "reply_posted" id (some m.id) none w.logInteractionOk ∈
      (_processMention w self tw m).trace := by
  have hctx := (getConversationContext_counts w m).2.2.2.2
  rcases processMention_cases w self tw m with
    ⟨e, tw1, h⟩ | ⟨tw1, h⟩ | ⟨e, tw1, h⟩ | ⟨tw1, reason, h⟩ | ⟨-, tw1, reply, h⟩ |
    ⟨-, tw1, reply, h⟩
  · rw [h] at hok; simp at hok
  · rw [h] at hpub; simp at hpub
  · rw [h] at hok; simp at hok
  · rw [h] at hpub
    simp [List.any_append, hctx, _logSkippedMention, logInteraction, Effect.isPublish] at hpub
  · rcases postReply_trace w tw1 m reply with ⟨e, tw2, fx, hp, -⟩ | ⟨id, tw2, fx, hp, -⟩
    · rw [h, hp] at hok; simp at hok
    · refine ⟨id, ?_⟩
      rw [h, hp]
      simp
  · rw [h] at hpub
    simp [List.any_append, hctx, Effect.isPublish] at hpub

/-- C14 (counterexample): with auto-posting off, the first call for the mention
`m1` queues a reply and returns; the second call in sequence for the same
mention, with every row logged by the first visible, is not stopped by the
existing-reply check and queues a reply again. -/
theorem queued_reply_does_not_stop_second_call :
    (_processMention (sampleWorld false) ⟨0, 0⟩ (TwitterService.new false) sampleMention).result =
      .ok () ∧
    (_processMention (sampleWorld false) ⟨0, 0⟩ (TwitterService.new false) sampleMention).trace =
      [Effect.saveToTestQueue "thanks!" (some "reply") (some "m1") true] ∧
    _checkExistingReply
      (visibleAfter (sampleWorld false)
        (_processMention (sampleWorld false) ⟨0, 0⟩ (TwitterService.new false)
          sampleMention).trace) "m1" = false ∧
    (processMentionAgain (sampleWorld false)
      (_processMention (sampleWorld false) ⟨0, 0⟩ (TwitterService.new false) sampleMention)
      sampleMention).trace =
      [Effect.saveToTestQueue "thanks!" (some "reply") (some "m1") true] := by
  decide

/-- C14 (amended): if the first call returned after publishing a reply and its
`reply_posted` log entry was written, then a second call for a mention with
the same id, in any world where the rows logged by the first call are visible
to `getRecentInteractions`, finds the existing reply and ends with no effect at
all (no publish, no enqueue) and an unchanged controller; it returns normally
whenever its `getUserId` call does. -/
theorem posted_reply_stops_second_call (w1 w2 : World) (self1 self2 : ResponseController)
    (tw1 tw2 : TwitterService) (m : Mention)
    (hok : (_processMention w1 self1 tw1 m).result = .ok ())
    (hpub : (_processMention w1 self1 tw1 m).trace.any Effect.isPublish = true)
    (hlog : w1.logInteractionOk = true)
    (hvis : ∀ i ∈ loggedRows (_processMention w1 self1 tw1 m).trace,
      i ∈ w2.recentInteractions) :
    _checkExistingReply w2 m.id = true ∧
    (_processMention w2 self2 tw2 m).trace = [] ∧
    (_processMention w2 self2 tw2 m).ctrl = self2 ∧
    (∀ uid, (tw2.getUserId w2.me).1 = .ok uid →
      (_processMention w2 self2 tw2 m).result = .ok ()) := by
  obtain ⟨id, hmem⟩ := processMention_posted_logs w1 self1 tw1 m hok hpub
  rw [hlog] at hmem
  have hrow := hvis _ (mem_loggedRows _ _ _ _ _ hmem)
  have hdup : _checkExistingReply w2 m.id = true := by
    unfold _checkExistingReply
    rw [List.any_eq_true]
    exact ⟨_, hrow, by simp⟩
  refine ⟨hdup, ?_⟩
  rcases hid : tw2.getUserId w2.me with ⟨r, tw3⟩
  cases r with
  | error e =>
    have h : _processMention w2 self2 tw2 m = ⟨.error e, self2, tw3, []⟩ := by
      unfold _processMention
      simp only [hid]
    rw [h]
    exact ⟨rfl, rfl, fun uid hu => by simp at hu⟩
  | ok uid =>
    have h : _processMention w2 self2 tw2 m = ⟨.ok (), self2, tw3, []⟩ := by
      unfold _processMention
      simp only [hid, hdup, if_true, ite_self]
    rw [h]
    exact ⟨rfl, rfl, fun _ _ => rfl⟩

/-- Witness for C14 (amended): with auto-posting on, the first call publishes
and logs; the second call in sequence ends with no effect. -/
theorem posted_reply_stops_second_call_witness :
    (processMentionAgain (sampleWorld true)
      (_processMention (sampleWorld true) ⟨0, 0⟩ (TwitterService.new true) sampleMention)
      sampleMention).trace = [] :=
  (posted_reply_stops_second_call (sampleWorld true)
    (visibleAfter (sampleWorld true)
      (_processMention (sampleWorld true) ⟨0, 0⟩ (TwitterService.new true) sampleMention).trace)
    ⟨0, 0⟩
    (_processMention (sampleWorld true) ⟨0, 0⟩ (TwitterService.new true) sampleMention).ctrl
    (TwitterService.new true)
    (_processMention (sampleWorld true) ⟨0, 0⟩ (TwitterService.new true) sampleMention).twitter
    sampleMention (by decide) (by decide) rfl (by decide)).2.1

/-- C15 (counterexample): the queued branch of `_processMention` (auto-posting
off, every call succeeding) returns without any interaction-log entry, and so
do the tick that stores a post, the tick that queues a post and the tick whose
text the filter rejects. -/
theorem branches_without_log_entry :
    (_processMention (sampleWorld false) ⟨0, 0⟩ (TwitterService.new false) sampleMention).result =
      .ok () ∧
    (_processMention (sampleWorld false) ⟨0, 0⟩ (TwitterService.new false)
      sampleMention).trace.countP Effect.isLogCall = 0 ∧
    (generateScheduledTweet (sampleWorld true)).trace.countP Effect.isLogCall = 0 ∧
    (generateScheduledTweet (sampleWorld false)).trace.countP Effect.isLogCall = 0 ∧
    (generateScheduledTweet (rejectingWorld true)).trace.countP Effect.isLogCall = 0 := by
  decide

/-- `generateScheduledTweet` never writes an interaction-log entry. -/
theorem generateScheduledTweet_no_log (w : World) :
    (generateScheduledTweet w).trace.countP Effect.isLogCall = 0 := by
  unfold generateScheduledTweet _schedulePost _addToTestQueue saveTweet saveToTestQueue
  dsimp only
  cases w.checkContent w.generateTweet.content with
  | error e => rfl
  | ok f =>
    obtain ⟨safe, reason⟩ := f
    cases safe
    · rfl
    · cases w.enableAutoPosting
      · cases w.saveToTestQueueOk <;> rfl
      · cases w.saveTweetOk <;> rfl

/-- C15 (amended): `_processMention` writes at most one interaction-log entry,
and none when it throws.  It writes exactly one on the branches declined by the
should-reply decision and rejected by the filter (type `mention_skipped`, with
the reason) and on the branch that published and recorded the reply (type
`reply_posted`); it writes none on the own-tweet, duplicate and queued
branches.  `generateScheduledTweet` writes none on any branch. -/
theorem interaction_log_entries (w : World) (self : ResponseController) (tw : TwitterService)
    (m : Mention) :
    (generateScheduledTweet w).trace.countP Effect.isLogCall = 0 ∧
    (_processMention w self tw m).trace.countP Effect.isLogCall ≤ 1 ∧
    (∀ e, (_processMention w self tw m).result = .error e →
      (_processMention w self tw m).trace.countP Effect.isLogCall = 0) ∧
    (∀ uid tw1, tw.getUserId w.me = (.ok uid, tw1) → m.author_id = some uid →
      (_processMention w self tw m).trace = []) ∧
    (∀ uid tw1, tw.getUserId w.me = (.ok uid, tw1) → _checkExistingReply w m.id = true →
      (_processMention w self tw m).trace = []) ∧
    (∀ uid tw1 d, tw.getUserId w.me = (.ok uid, tw1) → m.author_id ≠ some uid →
      _checkExistingReply w m.id = false → w.shouldReply = .ok d → d.should_reply = false →
      (_processMention w self tw m).trace.countP Effect.isLogCall = 1 ∧
      Effect.logInteraction "mention_skipped" m.id none (some d.reason) w.logInteractionOk ∈
        (_processMention w self tw m).trace) ∧
    (∀ uid tw1 d reply f, tw.getUserId w.me = (.ok uid, tw1) → m.author_id ≠ some uid →
      _checkExistingReply w m.id = false → w.shouldReply = .ok d → d.should_reply = true →
      w.generateReply = .ok reply → w.checkContent reply.content = .ok f →
      (f.safe = false →
        (_processMention w self tw m).trace.countP Effect.isLogCall = 1 ∧
        Effect.logInteraction "mention_skipped" m.id none (some "Failed content filter")
          w.logInteractionOk ∈ (_processMention w self tw m).trace) ∧
      (f.safe = true → w.enableAutoPosting = true →
        (_processMention w self tw m).result = .ok () →
        (_processMention w self tw m).trace.countP Effect.isLogCall = 1 ∧
        ∃ id, Effect.logInteraction "reply_posted" id (some m.id) none w.logInteractionOk ∈
          (_processMention w self tw m).trace) ∧
      (f.safe = true → w.enableAutoPosting = false →
        (_processMention w self tw m).trace.countP Effect.isLogCall = 0)) := by
  have hctx := (getConversationContext_counts w m).2.2.2.1
  refine ⟨generateScheduledTweet_no_log w, ?_, ?_, ?_, ?_, ?_, ?_⟩
  · rcases processMention_cases w self tw m with
      ⟨e, tw1, h⟩ | ⟨tw1, h⟩ | ⟨e, tw1, h⟩ | ⟨tw1, reason, h⟩ | ⟨-, tw1, reply, h⟩ |
      ⟨-, tw1, reply, h⟩
    · rw [h]; exact Nat.zero_le _
    · rw [h]; exact Nat.zero_le _
    · rw [h]; show List.countP _ (_getConversationContext w m).2 ≤ 1
      rw [hctx]; exact Nat.zero_le _
    · rw [h]
      simp only [List.countP_append, hctx, _logSkippedMention, logInteraction]
      exact Nat.le_refl _
    · rcases postReply_trace w tw1 m reply with ⟨e, tw2, fx, hp, hl, -⟩ | ⟨id, tw2, fx, hp, hl, -⟩
      · rw [h, hp]
        simp only [List.countP_append, hctx, hl]
        exact Nat.zero_le _
      · rw [h, hp]
        simp only [List.countP_append, hctx, hl]
        exact Nat.le_refl _
    · rw [h]
      simp only [List.countP_append, hctx]
      exact Nat.zero_le _
  · intro e0 he0
    rcases processMention_cases w self tw m with
      ⟨e, tw1, h⟩ | ⟨tw1, h⟩ | ⟨e, tw1, h⟩ | ⟨tw1, reason, h⟩ | ⟨-, tw1, reply, h⟩ |
      ⟨-, tw1, reply, h⟩
    · rw [h]; rfl
    · rw [h]; rfl
    · rw [h]; exact hctx
    · rw [h] at he0; simp at he0
    · rcases postReply_trace w tw1 m reply with ⟨e, tw2, fx, hp, hl, -⟩ | ⟨id, tw2, fx, hp, hl, -⟩
      · rw [h, hp]
        simp only [List.countP_append, hctx, hl]
      · rw [h, hp] at he0; simp at he0
    · rw [h]
      simp only [List.countP_append, hctx]
      rfl
  · intro uid tw1 hid hown
    unfold _processMention
    simp only [hid, if_pos hown]
  · intro uid tw1 hid hdup
    unfold _processMention
    simp only [hid, hdup, if_true, ite_self]
  · intro uid tw1 d hid hown hdup hd hno
    rw [processMention_declined w self tw tw1 m uid d hid hown hdup hd hno]
    constructor
    · simp only [List.countP_append, hctx, _logSkippedMention, logInteraction]
      rfl
    · simp [_logSkippedMention, logInteraction]
  · intro uid tw1 d reply f hid hown hdup hd hyes hg hf
    refine ⟨?_, ?_, ?_⟩
    · intro hsafe
      rw [processMention_filtered w self tw tw1 m uid d reply f hid hown hdup hd hyes hg hf hsafe]
      constructor
      · simp only [List.countP_append, hctx, _logSkippedMention, logInteraction]
        rfl
      · simp [_logSkippedMention, logInteraction]
    · intro hsafe hauto
      rw [processMention_posting w self tw tw1 m uid d reply f hid hown hdup hd hyes hg hf hsafe
        hauto]
      rcases postReply_trace w tw1 m reply with ⟨e, tw2, fx, hp, hl, -⟩ | ⟨id, tw2, fx, hp, hl, -⟩
      · rw [hp]
        intro hres
        simp at hres
      · rw [hp]
        intro _
        constructor
        · simp only [List.countP_append, hctx, hl]
          rfl
        · exact ⟨id, by simp⟩
    · intro hsafe hauto
      rw [processMention_queued w self tw tw1 m uid d reply f hid hown hdup hd hyes hg hf hsafe
        hauto]
      simp only [List.countP_append, hctx]
      rfl

/-- Witness for C15 (amended): in the all-success run with auto-posting on the
one log entry is `reply_posted`; with a rejecting filter it is
`mention_skipped`. -/
theorem interaction_log_entries_witness :
    (_processMention (sampleWorld true) ⟨0, 0⟩ (TwitterService.new true)
      sampleMention).trace.countP Effect.isLogCall = 1 ∧
    (_processMention (rejectingWorld true) ⟨0, 0⟩ (TwitterService.new true)
      sampleMention).trace.countP Effect.isLogCall = 1 :=
  ⟨(((interaction_log_entries (sampleWorld true) ⟨0, 0⟩ (TwitterService.new true)
      sampleMention).2.2.2.2.2.2 "bot" { _userId := some "bot", isTestMode := false }
      { should_reply := true, reason := "relevant" } { content := "thanks!", metadata := [] }
      { safe := true, reason := "" } (by decide) (by decide) (by decide) rfl rfl rfl rfl).2.1
      rfl rfl (by decide)).1,
   (((interaction_log_entries (rejectingWorld true) ⟨0, 0⟩ (TwitterService.new true)
      sampleMention).2.2.2.2.2.2 "bot" { _userId := some "bot", isTestMode := false }
      { should_reply := true, reason := "relevant" } { content := "thanks!", metadata := [] }
      { safe := false, reason := "banned term" } (by decide) (by decide) (by decide) rfl rfl rfl
      rfl).1 rfl).1⟩

/-! ## Theorems: time of day -/

/-- C24: for every hour `h` in 0..23, `_getTimeOfDay` answers `late_night`
exactly when `h < 6`, `morning` exactly when `6 <= h < 12`, `afternoon` exactly
when `12 <= h < 17`, `evening` exactly when `17 <= h < 21` and `night` exactly
when `21 <= h`; the five ranges are disjoint and cover 0..23, so every hour
falls in exactly one bucket. -/
theorem getTimeOfDay_buckets (h : Nat) (hh : h < 24) :
    (_getTimeOfDay h = "late_night" ↔ h < 6) ∧
    (_getTimeOfDay h = "morning" ↔ 6 ≤ h ∧ h < 12) ∧
    (_getTimeOfDay h = "afternoon" ↔ 12 ≤ h ∧ h < 17) ∧
    (_getTimeOfDay h = "evening" ↔ 17 ≤ h ∧ h < 21) ∧
    (_getTimeOfDay h = "night" ↔ 21 ≤ h ∧ h < 24) := by
  interval_cases h <;> decide

/-- Witness for C24 at 13 o'clock. -/
theorem getTimeOfDay_buckets_witness :
    13 < 24 ∧ _getTimeOfDay 13 = "afternoon" :=
  ⟨by decide, ((getTimeOfDay_buckets 13 (by decide)).2.2.1).mpr ⟨by decide, by decide⟩⟩

/-! ## Theorems: ticks of the tweet-generation schedule -/

/-- For a setting from 1 to 24, the number of hours `h` in 0..23 with
`h mod floor(24 / tweetsPerDay) = 0` equals the setting exactly when the
setting divides 24. -/
theorem tweetGeneration_hours_count_iff_dvd (n : Int) (h1 : 1 ≤ n) (h24 : n ≤ 24) :
    (((List.range 24).filter
        (fun h => decide ((h : Int) % tweetGenerationHours n = 0))).length = n ↔
      24 % n = 0) := by
  interval_cases n <;> decide

/-- C25: with `tweetsPerDay = 5` the schedule is `0 */4 * * *`, which fires at
the six hours 0, 4, 8, 12, 16 and 20 of a day, not five times. -/
theorem tweetGeneration_five_fires_six :
    tweetGenerationCron 5 = "0 */4 * * *" ∧
    ticksPerDay (tweetGenerationCron 5) = [(0, 0), (4, 0), (8, 0), (12, 0), (16, 0), (20, 0)] ∧
    (ticksPerDay (tweetGenerationCron 5)).length = 6 := by
  decide

/-! ## Theorems: handlers, due posts, mention check -/

/-- The call wrapped by the tweet-generation handler can fail: the insert of
`_schedulePost` fails and `generateScheduledTweet` rethrows. -/
theorem generateScheduledTweet_can_fail :
    (generateScheduledTweet { sampleWorld true with saveTweetOk := false }).result =
      .error "saveTweet" := by
  decide

/-- C21: each of the four built-in handlers and the one-shot timer callback
settles without an error whatever the wrapped controller call does, and the
scheduler (registry and tasks) after the run is the one before it. -/
theorem handlers_never_throw (self : SchedulerService) (w : World) (ws : String → World)
    (tw : TwitterService) (pending : List Mention) (posts : List ScheduledPost)
    (content : String) :
    ((tweetGenerationHandler self w).result = .ok () ∧
      (tweetGenerationHandler self w).scheduler = self) ∧
    ((mentionCheckingHandler self w pending).result = .ok () ∧
      (mentionCheckingHandler self w pending).scheduler = self) ∧
    ((postProcessingHandler self ws tw posts).result = .ok () ∧
      (postProcessingHandler self ws tw posts).scheduler = self) ∧
    ((cleanupHandler self).result = .ok () ∧ (cleanupHandler self).scheduler = self) ∧
    ((specificPostHandler self w tw content).result = .ok () ∧
      (specificPostHandler self w tw content).scheduler = self) := by
  refine ⟨?_, ?_, ?_, ?_, ?_⟩
  · unfold tweetGenerationHandler
    dsimp only
    constructor <;> (split <;> rfl)
  · unfold mentionCheckingHandler
    constructor <;> (split <;> rfl)
  · unfold postProcessingHandler
    constructor <;> (split <;> rfl)
  · exact ⟨rfl, rfl⟩
  · unfold specificPostHandler
    constructor <;> (split <;> rfl)

/-- The loop of `processScheduledPosts` never gets past the first post of a
batch: either the rate-limit check stops it, or a call of the undefined
`updateTweetStatus` throws out of the `catch` block. -/
theorem processPosts_stops_after_first (ws : String → World) (tw : TwitterService)
    (post : ScheduledPost) (rest : List ScheduledPost) :
    processPosts ws tw (post :: rest) = processPosts ws tw [post] := by
  unfold processPosts
  by_cases hc : _checkRateLimits (ws post.id) = true
  · simp only [hc, updateTweetStatus]
    rcases TweetController.postTweet (ws post.id) tw post.content none none with ⟨r, fx⟩
    cases r <;> rfl
  · simp only [Bool.not_eq_true] at hc
    simp [hc]

/-- The function `processScheduledPosts` does not throw. -/
theorem processScheduledPosts_returns (ws : String → World) (tw : TwitterService)
    (posts : List ScheduledPost) :
    (processScheduledPosts ws tw posts).1 = .ok () := by
  unfold processScheduledPosts
  rcases processPosts ws tw posts with ⟨r, fx⟩
  cases r <;> rfl

/-- C22: a batch of two due posts in which publishing the first one fails.
The run makes the one failed platform call for `p1` and ends: `p2` is never
published (alone, it is published), and no status is written for either post. -/
theorem failed_post_ends_batch :
    processScheduledPosts failingFirst (TwitterService.new true)
        [⟨"p1", "first"⟩, ⟨"p2", "second"⟩] =
      (.ok (), [Effect.tweet "first" none none false]) ∧
    (processScheduledPosts failingFirst (TwitterService.new true) [⟨"p2", "second"⟩]).2 =
      [Effect.tweet "second" none none true,
       Effect.saveTweet "second" none none (some "t1") true,
       Effect.logInteraction "tweet_posted" "t1" none none true] ∧
    updateTweetStatus "p1" "failed" none =
      .error "TypeError: supabaseService.updateTweetStatus is not a function" := by
  decide

/-- The mention check makes no call and changes nothing, whatever mentions are
waiting and whatever the posting mode. -/
theorem checkAndReplyToMentions_does_nothing (w : World) (pending : List Mention) :
    checkAndReplyToMentions w pending = (.ok (), []) := by
  unfold checkAndReplyToMentions
  split <;> rfl

/-- C23: with auto-posting enabled and a mention waiting, a mention-check tick
returns without any effect, while the reply pipeline run on that mention
publishes a reply: the tick does not run the waiting mention through
`_processMention`. -/
theorem mention_tick_skips_pipeline :
    (sampleWorld true).enableAutoPosting = true ∧
    checkAndReplyToMentions (sampleWorld true) [sampleMention] = (.ok (), []) ∧
    (mentionCheckingHandler sampleScheduler (sampleWorld true) [sampleMention]).trace = [] ∧
    ((_processMention (sampleWorld true) ⟨0, 0⟩ (TwitterService.new true) sampleMention).trace.filter
      Effect.isPublish).length = 1 := by
  decide

/-! ## Theorems: rate limits -/

/-- Once the rate-limit check answers `false` for a post, the loop ends
there: the batch behaves as if it stopped before that post. -/
theorem processPosts_break (ws : String → World) (tw : TwitterService)
    (before : List ScheduledPost) (post : ScheduledPost) (rest : List ScheduledPost)
    (h : _checkRateLimits (ws post.id) = false) :
    processPosts ws tw (before ++ post :: rest) = processPosts ws tw before := by
  induction before with
  | nil =>
    rw [List.nil_append]
    unfold processPosts
    simp [h]
  | cons q qs ih =>
    rw [List.cons_append]
    unfold processPosts
    rw [ih]

/-- C27: `_checkRateLimits` answers `false` exactly when the rate-limit info
was read and either it is present with `remaining < 5` or at least 10 of the
interactions of the last hour have type `tweet_posted`; it answers `true` in
every other case, in particular when reading the info throws and (the info not
being low) when the query for the interactions fails; and when it answers
`false` for a post of a batch, `processScheduledPosts` makes no call for that
post or any later one: the run is the run on the posts before it. -/
theorem checkRateLimits_spec (ws : String → World) (tw : TwitterService)
    (before : List ScheduledPost) (post : ScheduledPost) (rest : List ScheduledPost) :
    (_checkRateLimits (ws post.id) = false ↔
      ∃ info, (ws post.id).rateLimitInfo = .ok info ∧
        ((∃ i r, info = some i ∧ i.remaining = some r ∧ r < 5) ∨
         10 ≤ ((getRecentInteractions (ws post.id).lastHourQuery).filter
                (fun i => i.type == "tweet_posted")).length)) ∧
    (∀ e, (ws post.id).rateLimitInfo = .error e → _checkRateLimits (ws post.id) = true) ∧
    (∀ e info, (ws post.id).lastHourQuery = .error e →
      (ws post.id).rateLimitInfo = .ok info → rateLimitLow info = false →
      _checkRateLimits (ws post.id) = true) ∧
    (_checkRateLimits (ws post.id) = false →
      processScheduledPosts ws tw (before ++ post :: rest) =
        processScheduledPosts ws tw before ∧
      processScheduledPosts ws tw (post :: rest) = (.ok (), [])) := by
  have hlow : ∀ info : Option RateLimitInfo,
      rateLimitLow info = true ↔ ∃ i r, info = some i ∧ i.remaining = some r ∧ r < 5 := by
    intro info
    unfold rateLimitLow
    rcases info with _ | ⟨⟨_ | r⟩⟩ <;> simp
  refine ⟨?_, ?_, ?_, ?_⟩
  · unfold _checkRateLimits tweetsInLastHour
    rcases hinfo : (ws post.id).rateLimitInfo with e | info
    · simp
    · simp only [Except.ok.injEq, exists_eq_left']
      rw [← hlow info]
      by_cases h1 : rateLimitLow info = true
      · simp [h1]
      · simp only [h1, Bool.false_eq_true, if_false, false_or]
        by_cases h2 : ((getRecentInteractions (ws post.id).lastHourQuery).filter
            (fun i => i.type == "tweet_posted")).length ≥ 10
        · simp [h2]
        · simp only [h2, if_false]
          simp
  · intro e he
    unfold _checkRateLimits
    simp [he]
  · intro e info hq hinfo hl
    unfold _checkRateLimits tweetsInLastHour
    simp [hinfo, hl, hq, getRecentInteractions]
  · intro h
    constructor
    · unfold processScheduledPosts
      rw [processPosts_break ws tw before post rest h]
    · unfold processScheduledPosts processPosts
      simp [h]

/-- Witness for C27: with 3 calls remaining the check answers `false` and a
batch of two due posts is left untouched. -/
theorem checkRateLimits_spec_witness :
    _checkRateLimits lowRateWorld = false ∧
    processScheduledPosts (fun _ => lowRateWorld) (TwitterService.new true)
      [⟨"p1", "first"⟩, ⟨"p2", "second"⟩] = (.ok (), []) :=
  ⟨by decide,
   ((checkRateLimits_spec (fun _ => lowRateWorld) (TwitterService.new true) []
      ⟨"p1", "first"⟩ [⟨"p2", "second"⟩]).2.2.2 (by decide)).2⟩

/-! ## Theorems: next optimal posting time -/

/-- The controller's copy of the slots is the scheduler's list. -/
theorem optimalTimes_eq : optimalTimes = getOptimalPostingTimes := rfl

/-- The value of `_getNextOptimalTime` by the position of `now` among the
slots. -/
theorem getNextOptimalTime_value (d : Int) (h m s ms : Nat) :
    _getNextOptimalTime ⟨d, h, m, s, ms⟩ =
      if h < 9 then ⟨d, 9, 0, 0, 0⟩
      else if h < 12 ∨ (h = 12 ∧ m < 30) then ⟨d, 12, 30, 0, 0⟩
      else if h < 17 then ⟨d, 17, 0, 0, 0⟩
      else if h < 20 then ⟨d, 20, 0, 0, 0⟩
      else ⟨d + 1, 9, 0, 0, 0⟩ := by
  unfold _getNextOptimalTime optimalTimes
  simp only [nextSlotToday, LocalTime.setHours, LocalTime.nextDay, List.head?]
  have k1 : ((decide (9 > h) || 9 == h && decide (0 > m)) = true) ↔ h < 9 := by simp
  have k2 : ((decide (12 > h) || 12 == h && decide (30 > m)) = true) ↔
      (h < 12 ∨ (h = 12 ∧ m < 30)) := by
    simp
    constructor
    · rintro (h | ⟨h, h2⟩)
      · exact Or.inl h
      · exact Or.inr ⟨h.symm, h2⟩
    · rintro (h | ⟨h, h2⟩)
      · exact Or.inl h
      · exact Or.inr ⟨h.symm, h2⟩
  have k3 : ((decide (17 > h) || 17 == h && decide (0 > m)) = true) ↔ h < 17 := by simp
  have k4 : ((decide (20 > h) || 20 == h && decide (0 > m)) = true) ↔ h < 20 := by simp
  simp only [k1, k2, k3, k4]
  split_ifs <;> rfl

/-- The first slot whose hour:minute is after the given one. -/
theorem firstSlotAfter_value (h m : Nat) (hm : m < 60) :
    getOptimalPostingTimes.find? (fun t => decide (h * 60 + m < t.hour * 60 + t.minute)) =
      if h < 9 then some ⟨9, 0⟩
      else if h < 12 ∨ (h = 12 ∧ m < 30) then some ⟨12, 30⟩
      else if h < 17 then some ⟨17, 0⟩
      else if h < 20 then some ⟨20, 0⟩
      else none := by
  unfold getOptimalPostingTimes
  simp only [List.find?]
  have k1 : decide (h * 60 + m < 9 * 60 + 0) = decide (h < 9) := by
    apply decide_eq_decide.mpr; omega
  have k2 : decide (h * 60 + m < 12 * 60 + 30) = decide (h < 12 ∨ (h = 12 ∧ m < 30)) := by
    apply decide_eq_decide.mpr; omega
  have k3 : decide (h * 60 + m < 17 * 60 + 0) = decide (h < 17) := by
    apply decide_eq_decide.mpr; omega
  have k4 : decide (h * 60 + m < 20 * 60 + 0) = decide (h < 20) := by
    apply decide_eq_decide.mpr; omega
  rw [k1, k2, k3, k4]
  by_cases c1 : h < 9
  · simp [c1]
  by_cases c2 : h < 12 ∨ (h = 12 ∧ m < 30)
  · simp only [c1, c2, decide_True, decide_False, if_true, if_false]
  by_cases c3 : h < 17
  · simp only [c1, c2, c3, decide_True, decide_False, if_true, if_false]
  by_cases c4 : h < 20
  · simp only [c1, c2, c3, c4, decide_True, decide_False, if_true, if_false]
  · simp only [c1, c2, c3, c4, decide_True, decide_False, if_true, if_false]

/-- C26: for every current time `now`, `_getNextOptimalTime` returns the first
slot of today whose hour:minute is after `now`'s hour:minute, and 9:00 of the
next day when there is none; the result has seconds and milliseconds 0, is
strictly later than `now`, is one of the four optimal slots of some day, and no
optimal slot of any day that is strictly later than `now` is earlier than it. -/
theorem getNextOptimalTime_spec (now : LocalTime) (hv : now.Valid) :
    _getNextOptimalTime now =
      (match getOptimalPostingTimes.find? (fun t =>
          decide (now.hour * 60 + now.minute < t.hour * 60 + t.minute)) with
        | some t => slotOn now.day t
        | none => slotOn (now.day + 1) ⟨9, 0⟩) ∧
    (_getNextOptimalTime now).second = 0 ∧
    (_getNextOptimalTime now).ms = 0 ∧
    now.toMs < (_getNextOptimalTime now).toMs ∧
    (∃ d, ∃ t ∈ getOptimalPostingTimes, _getNextOptimalTime now = slotOn d t) ∧
    (∀ d, ∀ t ∈ getOptimalPostingTimes, now.toMs < (slotOn d t).toMs →
      (_getNextOptimalTime now).toMs ≤ (slotOn d t).toMs) := by
  obtain ⟨d, h, m, s, ms⟩ := now
  obtain ⟨hh, hm, hs, hms⟩ := hv
  simp only at hh hm hs hms
  have e1 := getNextOptimalTime_value d h m s ms
  have e2 := firstSlotAfter_value h m hm
  by_cases c1 : h < 9
  · simp only [c1, if_true] at e1 e2
    rw [e1, e2]
    refine ⟨rfl, rfl, rfl, ?_, ⟨d, ⟨9, 0⟩, by decide, rfl⟩, ?_⟩
    · simp only [LocalTime.toMs]
      push_cast
      omega
    · intro d2 t ht hlt
      simp only [getOptimalPostingTimes, List.mem_cons, List.mem_singleton, List.mem_nil_iff,
        or_false] at ht
      rcases ht with rfl | rfl | rfl | rfl <;>
        simp only [LocalTime.toMs, slotOn] at hlt ⊢ <;> push_cast at hlt ⊢ <;> omega
  by_cases c2 : h < 12 ∨ (h = 12 ∧ m < 30)
  · simp only [c1, c2, if_true, if_false] at e1 e2
    rw [e1, e2]
    refine ⟨rfl, rfl, rfl, ?_, ⟨d, ⟨12, 30⟩, by decide, rfl⟩, ?_⟩
    · simp only [LocalTime.toMs]
      push_cast
      omega
    · intro d2 t ht hlt
      simp only [getOptimalPostingTimes, List.mem_cons, List.mem_singleton, List.mem_nil_iff,
        or_false] at ht
      rcases ht with rfl | rfl | rfl | rfl <;>
        simp only [LocalTime.toMs, slotOn] at hlt ⊢ <;> push_cast at hlt ⊢ <;> omega
  by_cases c3 : h < 17
  · simp only [c1, c2, c3, if_true, if_false] at e1 e2
    rw [e1, e2]
    refine ⟨rfl, rfl, rfl, ?_, ⟨d, ⟨17, 0⟩, by decide, rfl⟩, ?_⟩
    · simp only [LocalTime.toMs]
      push_cast
      omega
    · intro d2 t ht hlt
      simp only [getOptimalPostingTimes, List.mem_cons, List.mem_singleton, List.mem_nil_iff,
        or_false] at ht
      rcases ht with rfl | rfl | rfl | rfl <;>
        simp only [LocalTime.toMs, slotOn] at hlt ⊢ <;> push_cast at hlt ⊢ <;> omega
  by_cases c4 : h < 20
  · simp only [c1, c2, c3, c4, if_true, if_false] at e1 e2
    rw [e1, e2]
    refine ⟨rfl, rfl, rfl, ?_, ⟨d, ⟨20, 0⟩, by decide, rfl⟩, ?_⟩
    · simp only [LocalTime.toMs]
      push_cast
      omega
    · intro d2 t ht hlt
      simp only [getOptimalPostingTimes, List.mem_cons, List.mem_singleton, List.mem_nil_iff,
        or_false] at ht
      rcases ht with rfl | rfl | rfl | rfl <;>
        simp only [LocalTime.toMs, slotOn] at hlt ⊢ <;> push_cast at hlt ⊢ <;> omega
  · simp only [c1, c2, c3, c4, if_false] at e1 e2
    rw [e1, e2]
    refine ⟨rfl, rfl, rfl, ?_, ⟨d + 1, ⟨9, 0⟩, by decide, rfl⟩, ?_⟩
    · simp only [LocalTime.toMs]
      push_cast
      omega
    · intro d2 t ht hlt
      simp only [getOptimalPostingTimes, List.mem_cons, List.mem_singleton, List.mem_nil_iff,
        or_false] at ht
      rcases ht with rfl | rfl | rfl | rfl <;>
        simp only [LocalTime.toMs, slotOn] at hlt ⊢ <;> push_cast at hlt ⊢ <;> omega

/-- Witness for C26: at 12:30:15.250 of day 0 the next slot is 17:00 of day 0. -/
theorem getNextOptimalTime_spec_witness :
    _getNextOptimalTime ⟨0, 12, 30, 15, 250⟩ = ⟨0, 17, 0, 0, 0⟩ ∧
    (⟨0, 12, 30, 15, 250⟩ : LocalTime).toMs < (_getNextOptimalTime ⟨0, 12, 30, 15, 250⟩).toMs :=
  ⟨by decide,
   (getNextOptimalTime_spec ⟨0, 12, 30, 15, 250⟩
     ⟨by decide, by decide, by decide, by decide⟩).2.2.2.1⟩

/-! ## Theorems: registry of created jobs -/

/-- C28: the calls `start()`, `start()` reach a state in which the four jobs
created by the first `start()` are active and not held in the registry (the
second `start()` put its own jobs under the same four names); a following
`stop()` stops the four registered jobs only and leaves those four active. -/
theorem restart_leaves_jobs_active :
    (SchedulerService.after [.start 3 true, .start 3 true]).jobs =
      [("tweetGeneration", 4), ("mentionChecking", 5), ("postProcessing", 6), ("cleanup", 7)] ∧
    activeJobs (SchedulerService.after [.start 3 true, .start 3 true]) = [0, 1, 2, 3, 4, 5, 6, 7] ∧
    allActiveRegistered (SchedulerService.after [.start 3 true, .start 3 true]) = false ∧
    (SchedulerService.after [.start 3 true, .start 3 true, .stop]).jobs = [] ∧
    activeJobs (SchedulerService.after [.start 3 true, .start 3 true, .stop]) = [0, 1, 2, 3] := by
  decide

/-- The sibling path: `addJob` under a name already registered stops the old
job before it registers the new one, so no job is left active outside the
registry. -/
theorem addJob_twice_keeps_registry :
    activeJobs (SchedulerService.after
      [.addJob "cleanup" "0 3 * * *" 3 true, .addJob "cleanup" "0 4 * * *" 3 true]) = [1] ∧
    allActiveRegistered (SchedulerService.after
      [.addJob "cleanup" "0 3 * * *" 3 true, .addJob "cleanup" "0 4 * * *" 3 true]) = true ∧
    activeJobs (SchedulerService.after
      [.addJob "cleanup" "0 3 * * *" 3 true, .addJob "cleanup" "0 4 * * *" 3 true, .stop]) = [] := by
  decide

/-! ## Theorems: stored posts and the due-post query -/

/-- No effect of a run changes the table `scheduled_posts`. -/
theorem apply_scheduled_posts (db : Database) (e : Effect) :
    (db.apply e).scheduled_posts = db.scheduled_posts := by
  unfold Database.apply
  split <;> rfl

/-- See `apply_scheduled_posts`. -/
theorem after_scheduled_posts (db : Database) (trace : List Effect) :
    (db.after trace).scheduled_posts = db.scheduled_posts := by
  unfold Database.after
  induction trace generalizing db with
  | nil => rfl
  | cons e es ih =>
    rw [List.foldl_cons, ih, apply_scheduled_posts]

/-- The due-post query answers the same before and after any run of
`generateScheduledTweet`: the post the run stores is not among its rows. -/
theorem getScheduledTweets_unchanged_by_tick (w : World) (db : Database) (now : Int)
    (queryOk : Bool) :
    getScheduledTweets (db.after (generateScheduledTweet w).trace) now queryOk =
      getScheduledTweets db now queryOk := by
  unfold getScheduledTweets
  rw [after_scheduled_posts]

/-- C29: a tick with auto-posting on stores its post with status `pending` and
scheduled time 5000 in the table `tweets`; the due-post query, which reads the
table `scheduled_posts`, returns nothing at time 5000 or at any later time
tried, so an empty batch is what `processScheduledPosts` gets. -/
theorem stored_post_is_not_returned :
    (generateScheduledTweet (sampleWorld true)).result =
      .ok (some { table := "tweets", content := "gm builders", status := some "pending" }) ∧
    (Database.empty.after (generateScheduledTweet (sampleWorld true)).trace).tweets =
      [{ content := "gm builders", status := some "pending", scheduled_time := some 5000 }] ∧
    (Database.empty.after (generateScheduledTweet (sampleWorld true)).trace).scheduled_posts = [] ∧
    getScheduledTweets (Database.empty.after (generateScheduledTweet (sampleWorld true)).trace)
      5000 true = [] ∧
    getScheduledTweets (Database.empty.after (generateScheduledTweet (sampleWorld true)).trace)
      1000000 true = [] := by
  decide

/-! ## Theorems: the reply prompt -/

/-- The string built by `_buildReplyPrompt` contains the author's username
followed by the text of the original tweet. -/
theorem buildReplyPrompt_contains (personalitySection : String) (tweet : Mention)
    (conversationContext : List ContextTweet) :
    ∃ before middle after : String,
      _buildReplyPrompt personalitySection tweet conversationContext =
        before ++ tweet.author_username ++ middle ++ tweet.text ++ after :=
  ⟨"You are replying as 0xBrenn. Be helpful, genuine, and conversational.\n\n" ++
      personalitySection ++ "\n\nOriginal tweet from @",
    ":\n\"",
    "\"\n\n" ++ _getConversationSection conversationContext ++
      "\n\nReply naturally:\n- Add value or humor\n- Be supportive and genuine\n" ++
      "- Match the conversation energy\n- Keep it under 280 chars\n- Sound like a real person\n\n" ++
      "Write your reply:",
    by simp [_buildReplyPrompt, String.append_assoc]⟩

/-- The first request of `generateReply` carries the un-awaited `Promise` of
the prompt, whatever the tweet and the prompt. -/
theorem generateReply_first_request (a : AiWorld) (tweet : Mention) :
    (generateReply a tweet).2.head? =
      some { model := a.model, max_tokens := a.maxTokens, temperature := some 90,
             text := .promise a.replyPrompt } := by
  unfold generateReply
  dsimp only
  split
  · rfl
  · split
    · rfl
    · rfl

/-- C30: for the sample mention the one request `generateReply` sends has as
its `text` the `Promise` returned by `_buildReplyPrompt`, not the string that
promise resolves to. -/
theorem reply_prompt_is_a_promise :
    (generateReply (replyAiWorld sampleMention [] "thanks!") sampleMention).2.map
        (fun request => request.text) =
      [PromptArg.promise (_buildReplyPrompt defaultPersonalitySection sampleMention [])] ∧
    (generateReply (replyAiWorld sampleMention [] "thanks!") sampleMention).2.map
        (fun request => request.text) ≠
      [PromptArg.text (_buildReplyPrompt defaultPersonalitySection sampleMention [])] := by
  set_option maxRecDepth 100000 in decide

/-! ## Theorems: the registry invariant away from a repeated `start()` -/

/-- A running task is a task of the store. -/
theorem isRunning_lt (tasks : List CronTask) (ref : Nat) (h : isRunning tasks ref = true) :
    ref < tasks.length := by
  unfold isRunning at h
  by_contra hlt
  rw [List.getElem?_eq_none (Nat.le_of_not_lt hlt)] at h
  simp at h

/-- A task running after `job.stop()` was running before and is another task. -/
theorem isRunning_stopTask (tasks : List CronTask) (job ref : Nat)
    (h : isRunning (stopTask tasks job) ref = true) :
    isRunning tasks ref = true ∧ ref ≠ job := by
  by_cases hr : ref = job
  · subst hr
    rw [isRunning_stopTask_self] at h
    simp at h
  · refine ⟨?_, hr⟩
    unfold isRunning at h ⊢
    rw [getElem?_stopTask_ne _ _ _ hr] at h
    exact h

/-- A task running after `cron.schedule` was running before or is the new one. -/
theorem isRunning_append (tasks : List CronTask) (t : CronTask) (ref : Nat)
    (h : isRunning (tasks ++ [t]) ref = true) :
    isRunning tasks ref = true ∨ ref = tasks.length := by
  have hlt := isRunning_lt _ _ h
  simp only [List.length_append, List.length_singleton] at hlt
  by_cases hr : ref < tasks.length
  · left
    unfold isRunning at h ⊢
    rw [List.getElem?_append_left hr] at h
    exact h
  · right
    omega

/-- The Boolean check `allActiveRegistered` says that every running task is
registered. -/
theorem allActiveRegistered_iff (self : SchedulerService) :
    allActiveRegistered self = true ↔ self.Tracked := by
  unfold allActiveRegistered activeJobs isRegistered SchedulerService.Tracked
  simp only [List.all_eq_true, List.mem_filter, List.mem_range, List.any_eq_true, beq_iff_eq,
    and_imp]
  constructor
  · intro h ref hr
    exact h ref (isRunning_lt _ _ hr) hr
  · intro h ref _ hr
    exact h ref hr

/-- No name of the registry is `name` when the lookup finds nothing. -/
theorem ne_of_mapGet_none (m : List (String × Nat)) (name : String)
    (h : mapGet m name = none) : ∀ e ∈ m, e.1 ≠ name := by
  induction m with
  | nil => intro e he; simp at he
  | cons e0 rest ih =>
    obtain ⟨k, w⟩ := e0
    unfold mapGet at h
    split at h
    · simp at h
    · rename_i hk
      intro e he
      rcases List.mem_cons.mp he with rfl | he
      · exact hk
      · exact ih h e he

/-- Registering a new task under a name the registry does not hold keeps the
registry well-formed and every running task registered. -/
theorem register_keeps_invariant (self : SchedulerService) (name expression : String)
    (handler : Nat) (hwf : self.WF) (htr : self.Tracked) (hfresh : ∀ e ∈ self.jobs, e.1 ≠ name) :
    (registered self name expression handler).WF ∧
    (registered self name expression handler).Tracked ∧
    (registered self name expression handler).jobs =
      self.jobs ++ [(name, self.tasks.length)] := by
  obtain ⟨hb, hn, hr⟩ := hwf
  have hjobs : (registered self name expression handler).jobs =
      self.jobs ++ [(name, self.tasks.length)] := by
    simp only [registered, mapSet_eq_append self.jobs name self.tasks.length hfresh]
  have htasks : (registered self name expression handler).tasks =
      self.tasks ++ [{ expression := expression, handler := handler, running := true }] := rfl
  refine ⟨⟨?_, ?_, ?_⟩, ?_, hjobs⟩
  · intro e he
    rw [hjobs] at he
    rw [htasks]
    simp only [List.length_append, List.length_singleton]
    rcases List.mem_append.mp he with he | he
    · have := hb e he
      omega
    · simp only [List.mem_singleton] at he
      subst he
      simp
  · rw [hjobs, List.map_append, List.nodup_append]
    refine ⟨hn, by simp, ?_⟩
    intro a ha hb2
    simp only [List.map_cons, List.map_nil, List.mem_singleton] at hb2
    subst hb2
    obtain ⟨e, he, rfl⟩ := List.mem_map.mp ha
    exact hfresh e he rfl
  · rw [hjobs, List.map_append, List.nodup_append]
    refine ⟨hr, by simp, ?_⟩
    intro a ha hb2
    simp only [List.map_cons, List.map_nil, List.mem_singleton] at hb2
    subst hb2
    obtain ⟨e, he, heq⟩ := List.mem_map.mp ha
    have := hb e he
    omega
  · intro ref hrun
    rw [htasks] at hrun
    rw [hjobs]
    rcases isRunning_append _ _ _ hrun with h | h
    · obtain ⟨e, he, heq⟩ := htr ref h
      exact ⟨e, List.mem_append_left _ he, heq⟩
    · exact ⟨(name, self.tasks.length), by simp, h.symm⟩

/-- The three built-in jobs with a constant expression, and an accepted
`addJob` or tweet-generation job, are registrations. -/
theorem schedule_eq_registered (self : SchedulerService) (name cronExpression : String)
    (handler : Nat) (tweetsPerDay : Int) :
    _scheduleMentionChecking self = registered self "mentionChecking" "*/5 * * * *" 1 ∧
    _schedulePostProcessing self = registered self "postProcessing" "* * * * *" 2 ∧
    _scheduleCleanup self = registered self "cleanup" "0 3 * * *" 3 ∧
    (_scheduleTweetGeneration self tweetsPerDay true).2 =
      registered self "tweetGeneration" (tweetGenerationCron tweetsPerDay) 0 ∧
    (_scheduleTweetGeneration self tweetsPerDay false).2 = self ∧
    (addJob self name cronExpression handler true).2 =
      registered (if mapHas self.jobs name then removeJob self name else self) name
        cronExpression handler ∧
    (addJob self name cronExpression handler false).2 =
      (if mapHas self.jobs name then removeJob self name else self) := by
  refine ⟨rfl, rfl, rfl, rfl, rfl, rfl, rfl⟩

/-- The call `removeJob` keeps the registry well-formed and every running task
registered. -/
theorem removeJob_keeps_invariant (self : SchedulerService) (name : String)
    (hwf : self.WF) (htr : self.Tracked) :
    (removeJob self name).WF ∧ (removeJob self name).Tracked ∧
    (∀ e ∈ (removeJob self name).jobs, e.1 ≠ name) := by
  rcases hget : mapGet self.jobs name with _ | job
  · have hsame : removeJob self name = self := by simp [removeJob, hget]
    rw [hsame]
    exact ⟨hwf, htr, ne_of_mapGet_none _ _ hget⟩
  · rw [removeJob_of_some self name job hget]
    obtain ⟨hb, hn, hr⟩ := hwf
    have hfilter := mapDelete_eq_filter self.jobs name hn
    simp only [hfilter]
    have hsub : (self.jobs.filter (fun e => e.1 != name)).Sublist self.jobs :=
      List.filter_sublist _
    refine ⟨⟨?_, ?_, ?_⟩, ?_, ?_⟩
    · intro e he
      rw [length_stopTask]
      exact hb e (hsub.subset he)
    · exact (hsub.map Prod.fst).nodup hn
    · exact (hsub.map Prod.snd).nodup hr
    · intro ref hrun
      obtain ⟨hold, hne⟩ := isRunning_stopTask _ _ _ hrun
      obtain ⟨e, he, heq⟩ := htr ref hold
      refine ⟨e, ?_, heq⟩
      rw [List.mem_filter]
      refine ⟨he, ?_⟩
      simp only [bne_iff_ne, ne_eq]
      intro hname
      have hmem := mem_of_mapGet _ _ _ hget
      have : e = (name, job) := List.inj_on_of_nodup_map hn he hmem hname
      rw [this] at heq
      exact hne heq.symm
    · intro e he
      rw [List.mem_filter] at he
      simpa using he.2

/-- The call `addJob` keeps the registry well-formed and every running task
registered, whether `cron.schedule` accepts the expression or throws. -/
theorem addJob_keeps_invariant (self : SchedulerService) (name cronExpression : String)
    (handler : Nat) (accepted : Bool) (hwf : self.WF) (htr : self.Tracked) :
    (addJob self name cronExpression handler accepted).2.WF ∧
    (addJob self name cronExpression handler accepted).2.Tracked := by
  have heq := schedule_eq_registered self name cronExpression handler 0
  have hpre : (if mapHas self.jobs name then removeJob self name else self).WF ∧
      (if mapHas self.jobs name then removeJob self name else self).Tracked ∧
      ∀ e ∈ (if mapHas self.jobs name then removeJob self name else self).jobs, e.1 ≠ name := by
    by_cases hhas : mapHas self.jobs name = true
    · simp only [hhas, if_true]
      exact removeJob_keeps_invariant self name hwf htr
    · simp only [hhas, Bool.false_eq_true, if_false]
      have hnone : mapGet self.jobs name = none := by
        unfold mapHas at hhas
        cases h : mapGet self.jobs name with
        | none => rfl
        | some v => simp [h] at hhas
      exact ⟨hwf, htr, ne_of_mapGet_none _ _ hnone⟩
  cases accepted with
  | true =>
    rw [heq.2.2.2.2.2.1]
    have := register_keeps_invariant _ name cronExpression handler hpre.1 hpre.2.1 hpre.2.2
    exact ⟨this.1, this.2.1⟩
  | false =>
    rw [heq.2.2.2.2.2.2]
    exact ⟨hpre.1, hpre.2.1⟩

/-- After `stop()` on a registry that holds every running task, no task runs. -/
theorem stop_leaves_none_active (self : SchedulerService) (htr : self.Tracked) (ref : Nat) :
    isRunning (stop self).tasks ref = false := by
  show isRunning (stopAll self self.jobs).tasks ref = false
  by_cases hrun : isRunning self.tasks ref = true
  · obtain ⟨e, he, heq⟩ := htr ref hrun
    rw [← heq]
    exact isRunning_stopAll_mem self self.jobs e he
  · exact isRunning_stopAll_of_not self self.jobs ref (by simpa using hrun)

/-- The call `stop` keeps the registry well-formed and every running task
registered (none runs). -/
theorem stop_keeps_invariant (self : SchedulerService) (htr : self.Tracked) :
    (stop self).WF ∧ (stop self).Tracked := by
  refine ⟨⟨?_, ?_, ?_⟩, ?_⟩
  · intro e he
    simp [stop] at he
  · simp [stop]
  · simp [stop]
  · intro ref hrun
    rw [stop_leaves_none_active self htr ref] at hrun
    simp at hrun

/-- Registering under a fresh name keeps other names fresh. -/
theorem registered_fresh (self : SchedulerService) (name other expression : String)
    (handler : Nat) (hname : ∀ e ∈ self.jobs, e.1 ≠ name) (hother : ∀ e ∈ self.jobs, e.1 ≠ other)
    (hne : name ≠ other) :
    ∀ e ∈ (registered self name expression handler).jobs, e.1 ≠ other := by
  intro e he
  have hjobs : (registered self name expression handler).jobs =
      self.jobs ++ [(name, self.tasks.length)] := by
    simp only [registered, mapSet_eq_append self.jobs name self.tasks.length hname]
  rw [hjobs] at he
  rcases List.mem_append.mp he with he | he
  · exact hother e he
  · simp only [List.mem_singleton] at he
    subst he
    exact hne

/-- The call `start()` on a registry holding none of the four built-in names
keeps the registry well-formed and every running task registered, whether the
tweet-generation expression is accepted or `start()` throws. -/
theorem start_keeps_invariant (self : SchedulerService) (tweetsPerDay : Int)
    (accepted : Bool) (hwf : self.WF) (htr : self.Tracked)
    (hfresh : ∀ e ∈ self.jobs, e.1 ∉ builtinJobNames) :
    (start self tweetsPerDay accepted).2.WF ∧ (start self tweetsPerDay accepted).2.Tracked := by
  cases accepted with
  | false => exact ⟨hwf, htr⟩
  | true =>
    have f1 : ∀ e ∈ self.jobs, e.1 ≠ "tweetGeneration" := fun e he h =>
      hfresh e he (by rw [h]; decide)
    have f2 : ∀ e ∈ self.jobs, e.1 ≠ "mentionChecking" := fun e he h =>
      hfresh e he (by rw [h]; decide)
    have f3 : ∀ e ∈ self.jobs, e.1 ≠ "postProcessing" := fun e he h =>
      hfresh e he (by rw [h]; decide)
    have f4 : ∀ e ∈ self.jobs, e.1 ≠ "cleanup" := fun e he h =>
      hfresh e he (by rw [h]; decide)
    have hstart : (start self tweetsPerDay true).2 =
        registered (registered (registered
          (registered self "tweetGeneration" (tweetGenerationCron tweetsPerDay) 0)
          "mentionChecking" "*/5 * * * *" 1) "postProcessing" "* * * * *" 2)
          "cleanup" "0 3 * * *" 3 := rfl
    rw [hstart]
    have s1 := register_keeps_invariant self "tweetGeneration"
      (tweetGenerationCron tweetsPerDay) 0 hwf htr f1
    have g2 := registered_fresh self "tweetGeneration" "mentionChecking"
      (tweetGenerationCron tweetsPerDay) 0 f1 f2 (by decide)
    have g3 := registered_fresh self "tweetGeneration" "postProcessing"
      (tweetGenerationCron tweetsPerDay) 0 f1 f3 (by decide)
    have g4 := registered_fresh self "tweetGeneration" "cleanup"
      (tweetGenerationCron tweetsPerDay) 0 f1 f4 (by decide)
    have s2 := register_keeps_invariant _ "mentionChecking" "*/5 * * * *" 1 s1.1 s1.2.1 g2
    have h3 := registered_fresh _ "mentionChecking" "postProcessing" "*/5 * * * *" 1 g2 g3
      (by decide)
    have h4 := registered_fresh _ "mentionChecking" "cleanup" "*/5 * * * *" 1 g2 g4 (by decide)
    have s3 := register_keeps_invariant _ "postProcessing" "* * * * *" 2 s2.1 s2.2.1 h3
    have k4 := registered_fresh _ "postProcessing" "cleanup" "* * * * *" 2 h3 h4 (by decide)
    have s4 := register_keeps_invariant _ "cleanup" "0 3 * * *" 3 s3.1 s3.2.1 k4
    exact ⟨s4.1, s4.2.1⟩

/-- One call that is not a `start()` on a registry holding a built-in name
keeps the registry well-formed and every running task registered. -/
theorem step_keeps_invariant (self : SchedulerService) (op : SchedulerOp)
    (hwf : self.WF) (htr : self.Tracked) (hfresh : op.onFreshNames self = true) :
    (self.step op).WF ∧ (self.step op).Tracked := by
  cases op with
  | start tweetsPerDay accepted =>
    apply start_keeps_invariant self tweetsPerDay accepted hwf htr
    intro e he hmem
    simp only [SchedulerOp.onFreshNames, List.all_eq_true, Bool.not_eq_true_eq_eq_false] at hfresh
    have hno := hfresh e.1 hmem
    have hnone : mapGet self.jobs e.1 = none := by
      unfold mapHas at hno
      cases h : mapGet self.jobs e.1 with
      | none => rfl
      | some v => simp [h] at hno
    exact ne_of_mapGet_none _ _ hnone e he rfl
  | stop => exact stop_keeps_invariant self htr
  | addJob name cronExpression handler accepted =>
    exact addJob_keeps_invariant self name cronExpression handler accepted hwf htr
  | removeJob name =>
    have := removeJob_keeps_invariant self name hwf htr
    exact ⟨this.1, this.2.1⟩

/-- A sequence of calls in which no `start()` meets a registry holding a
built-in name keeps the registry well-formed and every running task
registered. -/
theorem run_keeps_invariant (ops : List SchedulerOp) (self : SchedulerService)
    (hwf : self.WF) (htr : self.Tracked) (hfresh : startsOnFreshNames self ops = true) :
    (self.run ops).WF ∧ (self.run ops).Tracked := by
  induction ops generalizing self with
  | nil => exact ⟨hwf, htr⟩
  | cons op rest ih =>
    simp only [startsOnFreshNames, Bool.and_eq_true] at hfresh
    obtain ⟨h1, h2⟩ := step_keeps_invariant self op hwf htr hfresh.1
    exact ih (self.step op) h1 h2 hfresh.2

/-- From the freshly constructed scheduler, every sequence of `start`, `stop`,
`addJob` and `removeJob` in which no `start()` meets a registry that holds one
of the four built-in names reaches a state in which every running job is held
in the registry, and a following `stop()` leaves no job active. -/
theorem registry_invariant_without_restart (ops : List SchedulerOp)
    (hfresh : startsOnFreshNames SchedulerService.new ops = true) :
    allActiveRegistered (SchedulerService.after ops) = true ∧
    activeJobs (stop (SchedulerService.after ops)) = [] := by
  have hinv := run_keeps_invariant ops SchedulerService.new (by decide)
    (by intro ref h; simp [SchedulerService.new, isRunning] at h) hfresh
  have hafter : SchedulerService.after ops = SchedulerService.new.run ops := rfl
  rw [hafter]
  refine ⟨(allActiveRegistered_iff _).mpr hinv.2, ?_⟩
  unfold activeJobs
  rw [List.filter_eq_nil_iff]
  intro ref _
  rw [stop_leaves_none_active _ hinv.2 ref]
  simp

end TwitterBot
